import Mathlib

/-!
The decision core of the ABL verified-boot loader, kf4abl.c

A shallow embedding of `src/kf4abl.c`.  Every C function that is modelled keeps
its C name.  Calls that leave the file (firmware services, the slot subsystem,
replay-protected storage, the KDF, the TEE) are fields of `Env`; each of them
takes as first argument the number of calls logged so far, so that an
environment may answer the same question differently at different times.
Every call that matters to the outside world is appended to a log together
with a snapshot of the memory the file owns at the time of the call.
The target resolver (`check_command_line`, `check_bcb`) and the service arms of
the loop of `efi_main` touch none of that memory; they are modelled over their
own state, and what they call outside the file is a field of `Lib` or `Adb`.
-/

namespace Kf4abl

/-! ## Constants and plain data -/

/-- EFI_STATUS of efi.h: zero is success, a value with the high bit set is an
error (the `EFIERR` codes), any other non-zero value is a warning. -/
inductive EFI_STATUS where
  | success
  | warning (code : Nat)
  | error (code : Nat)
  deriving DecidableEq, Repr

def EFI_SUCCESS : EFI_STATUS := .success
def EFI_INVALID_PARAMETER : EFI_STATUS := .error 2
def EFI_OUT_OF_RESOURCES : EFI_STATUS := .error 9
def EFI_NOT_FOUND : EFI_STATUS := .error 14
def EFI_ABORTED : EFI_STATUS := .error 21
def EFI_SECURITY_VIOLATION : EFI_STATUS := .error 26

/-- The `EFI_ERROR` test of efi.h: the high bit of the status is set. -/
def EFI_ERROR : EFI_STATUS → Bool
  | .error _ => true
  | _ => false

/-- The values of `enum boot_target` that kf4abl.c names, and any other value. -/
inductive boot_target where
  | NORMAL_BOOT
  | RECOVERY
  | FASTBOOT
  | CRASHMODE
  | UNKNOWN_TARGET
  | other (code : Nat)
  deriving DecidableEq, Repr

/-- The verified-boot states a `UINT8 boot_state` holds. -/
inductive boot_state where
  | BOOT_STATE_GREEN
  | BOOT_STATE_YELLOW
  | BOOT_STATE_ORANGE
  | BOOT_STATE_RED
  deriving DecidableEq, Repr

/-- The result word written by `rpmb_read_counter`. -/
inductive RPMB_RESPONSE_RESULT where
  | RPMB_RES_OK
  | RPMB_RES_AUTH_FAILURE
  | RPMB_RES_NO_AUTH_KEY_PROGRAM
  | other (code : Nat)
  deriving DecidableEq, Repr

def BOOTLOADER_SEED_MAX_ENTRIES : Nat := 4
def MMC_PROD_NAME_WITH_PSN_LEN : Nat := 15
def TRUSTY_SEED_LEN : Nat := 32

/-- The bytes of the GUID `crypo_uuid` as they lie in memory. -/
def crypo_uuid : List Nat :=
  [0x38, 0x59, 0xfe, 0x23, 0xd5, 0xcc, 0x78, 0x4a, 0x8b, 0xaf, 0x0f, 0x3d, 0x05, 0xff, 0xc2, 0xdf]

/-- The packed struct `seed_info_t`. -/
structure seed_info_t where
  svn : Nat
  padding : List Nat
  seed : List Nat
  deriving DecidableEq, Repr

/-- The struct the firmware leaves at `p_trusty_boot_params`; `RotData` is kept
as the raw bytes of a `struct rot_data_t`. -/
structure trusty_boot_params_t where
  Version : Nat
  TrustyMemBase : Nat
  TrustyMemSize : Nat
  num_seeds : Nat
  seed_list : List seed_info_t
  RotData : List Nat
  deriving DecidableEq, Repr

/-- The block handed to the TEE, `trusty_startup_params_t`; `RotData` is kept
as the raw bytes of a `struct rot_data_t`. -/
structure trusty_startup_params_t where
  size_of_this_struct : Nat
  load_base : Nat
  load_size : Nat
  num_seeds : Nat
  seed_list : List seed_info_t
  RotData : List Nat
  serial : List Nat
  deriving DecidableEq, Repr

/-- What `memset(p, 0, n)` leaves in a byte buffer: every byte is zero. -/
def zeroBytes (buf : List Nat) : List Nat := buf.map (fun _ => 0)

/-- A `seed_info_t` after `memset` to zero. -/
def seed_info_t.zero : seed_info_t :=
  { svn := 0, padding := List.replicate 3 0, seed := List.replicate TRUSTY_SEED_LEN 0 }

/-- Every byte of the buffer is zero. -/
def allZero (buf : List Nat) : Prop := ∀ b ∈ buf, b = 0

instance (buf : List Nat) : Decidable (allZero buf) := by
  unfold allZero; infer_instance

/-- Every byte of the seed entry is zero. -/
def seed_info_t.isZero (s : seed_info_t) : Prop :=
  s.svn = 0 ∧ allZero s.padding ∧ allZero s.seed

instance (s : seed_info_t) : Decidable s.isZero := by
  unfold seed_info_t.isZero; infer_instance

/-- The compile-time switches of kf4abl.c. -/
structure Config where
  USER : Bool
  USE_AVB : Bool
  USE_TRUSTY : Bool
  RPMB_STORAGE : Bool
  OS_SECURE_BOOT : Bool
  USE_SLOT : Bool
  CRASHMODE_USE_ADB : Bool
  FORCE_FASTBOOT : Bool
  KERNELFLINGER_BUILD_FOR_SLIMBOOT : Bool
  deriving DecidableEq, Repr

/-! ## Memory, calls and the log -/

/-- The memory kf4abl.c owns: its globals, and the two stack buffers that hold
secrets (`key` of `osloader_rpmb_key_init`, `trusty_startup_params` of
`boot_android` and `avb_boot_android`). -/
structure Mem where
  p_trusty_boot_params : trusty_boot_params_t
  out_key : List (List Nat)
  g_rot_data : List Nat
  key : List Nat
  trusty_startup_params : trusty_startup_params_t
  deriving DecidableEq, Repr

/-- The calls that are logged, with their arguments and their answer. -/
inductive Call where
  | clear_teedata_flag (ret : EFI_STATUS)
  | HKDF (secret salt info : List Nat) (out : Option (List Nat))
  | rpmb_read_counter (key : List Nat) (ret : EFI_STATUS) (result : RPMB_RESPONSE_RESULT)
  | program_rpmb_key (key : List Nat) (ret : EFI_STATUS)
  | set_rpmb_key (key : List Nat)
  | android_image_load_partition (label : List Nat) (ret : EFI_STATUS) (image : Nat)
  | slot_boot_failed (target : boot_target) (ret : EFI_STATUS)
  | verify_android_boot_image (image : Nat) (state : boot_state) (target : List Nat)
  | load_tos_image (ret : EFI_STATUS) (image : Nat)
  | get_rot_data (image : Nat) (state : boot_state) (ret : EFI_STATUS)
  | init_trusty_startup_params (ret : EFI_STATUS)
  | launch_trusty_os (param : trusty_startup_params_t)
  | trusty_ipc_init
  | trusty_ipc_shutdown
  | heci_end_of_post (ret : EFI_STATUS)
  | start_boot_image (image : Nat) (state : boot_state) (target : boot_target)
  | android_clear_memory (ret : EFI_STATUS)
  | set_efi_variable_boot_state (state : boot_state)
  | set_os_secure_boot (green : Bool) (ret : EFI_STATUS)
  | slot_boot (target : boot_target) (ret : EFI_STATUS)
  | android_image_start_buffer_abl (image : Nat) (target : boot_target) (state : boot_state)
      (ret : Option EFI_STATUS)
  | avb_fatal
  | avb_slot_verify (partition : List Nat) (suffix : List Nat) (allow : Bool)
  | get_avb_result (ret : EFI_STATUS) (state : boot_state)
  | avb_slot_verify_data_free
  | avb_vbmeta_image_verify (ret : EFI_STATUS)
  | avb_update_stored_rollback_indexes_for_slot
  deriving DecidableEq, Repr

/-- One entry of the log: the call and the memory at the time of the call. -/
structure Event where
  call : Call
  mem : Mem
  deriving DecidableEq, Repr

/-- The state threaded through the program. -/
structure St where
  mem : Mem
  log : List Event
  deriving DecidableEq, Repr

/-- The number of calls logged so far. -/
def St.now (st : St) : Nat := st.log.length

/-- Append a call, with the present memory, to the log. -/
def St.emit (st : St) (c : Call) : St :=
  { st with log := st.log ++ [{ call := c, mem := st.mem }] }

/-- A loaded image's `struct boot_img_hdr`, as far as kf4abl.c reads it. -/
structure boot_img_hdr where
  page_size : Nat
  kernel_size : Nat
  deriving DecidableEq, Repr

/-- What kf4abl.c reads through an `AvbSlotVerifyData *`: whether the pointer is
null, `loaded_partitions[0].data`, the header found at that address, and the
first vbmeta image. -/
structure AvbSlotVerifyData where
  isNull : Bool
  data : Nat
  header : boot_img_hdr
  vbmeta : Nat
  deriving DecidableEq, Repr

/-- The world outside kf4abl.c. -/
structure Env where
  RPMB_KEY_SIZE : Nat
  is_eom_and_secureboot_enabled : Nat → Bool
  clear_teedata_flag : Nat → EFI_STATUS
  get_serial_number : Nat → Option (List Nat)
  HKDF : Nat → List Nat → List Nat → List Nat → Option (List Nat)
  rpmb_read_counter : Nat → List Nat → EFI_STATUS × RPMB_RESPONSE_RESULT
  is_rpmb_programed : Nat → Bool
  program_rpmb_key : Nat → List Nat → EFI_STATUS
  use_slot : Nat → Bool
  slot_get_active : Nat → Option (List Nat)
  slot_label : Nat → List Nat → List Nat
  android_image_load_partition : Nat → List Nat → EFI_STATUS × Nat
  slot_boot_failed : Nat → boot_target → EFI_STATUS
  recovery_in_boot_partition : Nat → Bool
  slot_recovery_tries_remaining : Nat → Nat
  verify_android_boot_image : Nat → Nat → boot_state × List Nat × Nat
  load_tos_image : Nat → EFI_STATUS × Nat
  get_bootimage_header : Nat → Nat → Option boot_img_hdr
  get_rot_data : Nat → Nat → boot_state → List Nat → EFI_STATUS × List Nat
  heci_end_of_post : Nat → EFI_STATUS
  android_clear_memory : Nat → EFI_STATUS
  is_abl_secure_boot_enabled : Nat → Bool
  set_os_secure_boot : Nat → Bool → EFI_STATUS
  slot_boot : Nat → boot_target → EFI_STATUS
  android_image_start_buffer_abl : Nat → Nat → boot_target → boot_state → Option EFI_STATUS
  avb_init : Nat → Bool
  read_is_device_unlocked : Nat → Bool × Bool
  avb_slot_verify : Nat → List Nat → List Nat → Bool → Nat × AvbSlotVerifyData
  get_avb_result : Nat → AvbSlotVerifyData → Bool → Nat → boot_state → EFI_STATUS × boot_state
  avb_vbmeta_image_verify : Nat → Nat → EFI_STATUS × Nat

/-! ## KeyDerivationService -/

/-- The local `serial` of `derive_rpmb_key_with_index` once bytes 0 and 2 are
cleared: `memcpy(serial, serialno, sizeof(serial)); serial[0] ^= serial[0];
serial[2] ^= serial[2];`. -/
def cleared_serial (serialno : List Nat) : List Nat :=
  let serial := serialno.take MMC_PROD_NAME_WITH_PSN_LEN
  let serial := serial.set 0 (serial.getD 0 0 ^^^ serial.getD 0 0)
  serial.set 2 (serial.getD 2 0 ^^^ serial.getD 2 0)

/-- The secret `derive_rpmb_key_with_index` hands to the KDF for seed `index`:
RPMB_KEY_SIZE bytes at `p_trusty_boot_params->seed_list[index].seed`. -/
def seedSecret (env : Env) (m : Mem) (index : Nat) : List Nat :=
  ((m.p_trusty_boot_params.seed_list.getD index seed_info_t.zero).seed).take env.RPMB_KEY_SIZE

/-- `derive_rpmb_key_with_index`: the status, the new content of `kbuf`, and
the state (the KDF call is logged). -/
def derive_rpmb_key_with_index (env : Env) (st : St) (index : Nat) (kbuf : List Nat) :
    EFI_STATUS × List Nat × St :=
  match env.get_serial_number st.now with
  | none => (EFI_NOT_FOUND, kbuf, st)
  | some serialno =>
    let serial := cleared_serial serialno
    if index < st.mem.p_trusty_boot_params.num_seeds then
      let secret := seedSecret env st.mem index
      let out := env.HKDF st.now secret crypo_uuid serial
      let st := st.emit (.HKDF secret crypo_uuid serial out)
      match out with
      | none => (EFI_INVALID_PARAMETER, kbuf, st)
      | some rpmb_key => (EFI_SUCCESS, rpmb_key, st)
    else (EFI_SUCCESS, kbuf, st)

/-- The `for` loop of `get_rpmb_derived_key`, with `n` rounds left and the loop
variable at `i`; `kbuf` is the table, one row per key. -/
def get_rpmb_derived_key_loop (env : Env) :
    Nat → Nat → List (List Nat) → St → EFI_STATUS × List (List Nat) × St
  | 0, _, kbuf, st => (EFI_SUCCESS, kbuf, st)
  | n + 1, i, kbuf, st =>
    match derive_rpmb_key_with_index env st (i % 256) (kbuf.getD i []) with
    | (ret, row, st) =>
      if EFI_SUCCESS ≠ ret then
        (EFI_INVALID_PARAMETER, kbuf.set i (zeroBytes row), st)
      else get_rpmb_derived_key_loop env n (i + 1) (kbuf.set i row) st

/-- `get_rpmb_derived_key(kbuf, kbuf_len)`. -/
def get_rpmb_derived_key (env : Env) (kbuf : List (List Nat)) (kbuf_len : Nat) (st : St) :
    EFI_STATUS × List (List Nat) × St :=
  if kbuf_len < (st.mem.p_trusty_boot_params.num_seeds * env.RPMB_KEY_SIZE) % 2 ^ 32 then
    (EFI_INVALID_PARAMETER, kbuf, st)
  else get_rpmb_derived_key_loop env st.mem.p_trusty_boot_params.num_seeds 0 kbuf st

/-- How the probing loop of `osloader_rpmb_key_init` is left. -/
structure ProbeExit where
  toErr : Bool
  i : Nat
  ret : EFI_STATUS
  st : St

/-- The probing `for` loop of `osloader_rpmb_key_init`, with `n` rounds left and
the loop variable at `i` (a UINT16; it does not wrap for a count below 65536). -/
def probe_loop (env : Env) : Nat → Nat → EFI_STATUS → St → ProbeExit
  | 0, i, ret, st => { toErr := false, i := i, ret := ret, st := st }
  | n + 1, i, _, st =>
    let st := { st with mem := { st.mem with key := st.mem.out_key.getD i [] } }
    let r := env.rpmb_read_counter st.now st.mem.key
    let st := st.emit (.rpmb_read_counter st.mem.key r.1 r.2)
    if r.1 = EFI_SUCCESS then { toErr := false, i := i, ret := r.1, st := st }
    else if r.2 = .RPMB_RES_NO_AUTH_KEY_PROGRAM then
      { toErr := false, i := i, ret := r.1, st := st }
    else if r.2 ≠ .RPMB_RES_AUTH_FAILURE then { toErr := true, i := i, ret := r.1, st := st }
    else probe_loop env n (i + 1) r.1 st

/-- The label `err_get_rpmb_key` of `osloader_rpmb_key_init`: both key buffers
are cleared. -/
def err_get_rpmb_key (st : St) : St :=
  { st with mem := { st.mem with out_key := st.mem.out_key.map zeroBytes,
                                 key := zeroBytes st.mem.key } }

/-- The tail of `osloader_rpmb_key_init` from `if (!is_rpmb_programed())` on. -/
def osloader_rpmb_key_init_tail (cfg : Config) (env : Env) (ret : EFI_STATUS) (st : St) :
    EFI_STATUS × St :=
  if !env.is_rpmb_programed st.now then
    let ret := env.program_rpmb_key st.now st.mem.key
    let st := st.emit (.program_rpmb_key st.mem.key ret)
    if EFI_ERROR ret then (ret, st)
    else (ret, if cfg.USE_TRUSTY then err_get_rpmb_key st else st)
  else
    let st := st.emit (.set_rpmb_key st.mem.key)
    (ret, if cfg.USE_TRUSTY then err_get_rpmb_key st else st)

/-- The part of `osloader_rpmb_key_init` from the call of `get_rpmb_derived_key`
to the end of the USE_TRUSTY block, followed by the tail. -/
def osloader_rpmb_key_init_keys (cfg : Config) (env : Env) (st : St) : EFI_STATUS × St :=
  match get_rpmb_derived_key env st.mem.out_key
      (BOOTLOADER_SEED_MAX_ENTRIES * env.RPMB_KEY_SIZE) st with
  | (ret, kbuf, st) =>
    let st := { st with mem := { st.mem with out_key := kbuf } }
    if EFI_ERROR ret then (ret, st)
    else
      let e := probe_loop env st.mem.p_trusty_boot_params.num_seeds 0 ret st
      if e.toErr then (e.ret, err_get_rpmb_key e.st)
      else if e.i ≥ BOOTLOADER_SEED_MAX_ENTRIES then (e.ret, err_get_rpmb_key e.st)
      else osloader_rpmb_key_init_tail cfg env e.ret e.st

/-- `osloader_rpmb_key_init` (compiled under RPMB_STORAGE). -/
def osloader_rpmb_key_init (cfg : Config) (env : Env) (st : St) : EFI_STATUS × St :=
  let st := { st with mem := { st.mem with key := List.replicate env.RPMB_KEY_SIZE 0 } }
  if cfg.USE_TRUSTY then
    if env.is_eom_and_secureboot_enabled st.now then
      let ret := env.clear_teedata_flag st.now
      let st := st.emit (.clear_teedata_flag ret)
      if EFI_ERROR ret then (ret, st)
      else osloader_rpmb_key_init_keys cfg env st
    else osloader_rpmb_key_init_keys cfg env st
  else osloader_rpmb_key_init_tail cfg env EFI_SUCCESS st

/-! ## How a run ends -/

/-- The end of a run of a function that can hand control away: it returned
`val`, or control left for good (a chain-load that took), or the fuel given to
a loop that waits on the outside world ran out. -/
inductive Run (α : Type) where
  | ret (val : α) (st : St)
  | gone (st : St)
  | stuck (st : St)

/-- The state at the end of a run. -/
def Run.st {α : Type} : Run α → St
  | .ret _ st => st
  | .gone st => st
  | .stuck st => st

/-! ## VerifiedBootEngine -/

/-- The wide string `L"/boot"`. -/
def L_slash_boot : List Nat := [47, 98, 111, 111, 116]
/-- The wide string `L"/recovery"`. -/
def L_slash_recovery : List Nat := [47, 114, 101, 99, 111, 118, 101, 114, 121]
/-- The partition label BOOT_LABEL, `L"boot"`. -/
def BOOT_LABEL : List Nat := [98, 111, 111, 116]
/-- The partition label RECOVERY_LABEL, `L"recovery"`. -/
def RECOVERY_LABEL : List Nat := [114, 101, 99, 111, 118, 101, 114, 121]

/-- `StrCmp` of the EFI library on two buffers of CHAR16; a buffer's string ends
at its first zero, or at the end of the list. -/
def StrCmp : List Nat → List Nat → Int
  | [], [] => 0
  | [], b :: _ => -(b : Int)
  | a :: _, [] => (a : Int)
  | a :: s1, b :: s2 => if a ≠ 0 ∧ a = b then StrCmp s1 s2 else (a : Int) - (b : Int)

/-- The string a CHAR16 buffer holds: the units before the first zero. -/
def cstr (buf : List Nat) : List Nat := buf.takeWhile (fun c => c ≠ 0)

/-- The `switch (boot_target)` of `validate_bootimage`: `expected` and
`expected2`, `none` for a NULL pointer. -/
def expected_labels (env : Env) (now : Nat) :
    boot_target → Option (List Nat) × Option (List Nat)
  | .NORMAL_BOOT => (some L_slash_boot, some L_slash_recovery)
  | .RECOVERY =>
    if env.recovery_in_boot_partition now then (some L_slash_boot, none)
    else (some L_slash_recovery, none)
  | _ => (none, none)

/-- The test `!expected || StrCmp(expected, target)`. -/
def label_differs (expected : Option (List Nat)) (target : List Nat) : Bool :=
  match expected with
  | none => true
  | some e => StrCmp e target ≠ 0

/-- `validate_bootimage`: the boot state, `*verifier_cert`, and the state. -/
def validate_bootimage (env : Env) (tgt : boot_target) (bootimage : Nat) (st : St) :
    boot_state × Nat × St :=
  let r := env.verify_android_boot_image st.now bootimage
  let target := r.2.1
  let st := st.emit (.verify_android_boot_image bootimage r.1 target)
  if r.1 = .BOOT_STATE_RED then (r.1, r.2.2, st)
  else
    let e := expected_labels env st.now tgt
    if label_differs e.1 target && label_differs e.2 target then
      (.BOOT_STATE_RED, r.2.2, st)
    else (r.1, r.2.2, st)

/-! ## SlotFailoverLoader -/

/-- The `do ... while` loop of `load_boot_image`; one unit of fuel per round. -/
def load_boot_image_loop (env : Env) (tgt : boot_target) : Nat → St → Run (EFI_STATUS × Nat)
  | 0, st => .stuck st
  | fuel + 1, st =>
    let label := env.slot_label st.now BOOT_LABEL
    let r := env.android_image_load_partition st.now label
    let st := st.emit (.android_image_load_partition label r.1 r.2)
    let st :=
      if EFI_ERROR r.1 && env.use_slot st.now then
        st.emit (.slot_boot_failed tgt (env.slot_boot_failed st.now tgt))
      else st
    if EFI_ERROR r.1 && (env.slot_get_active st.now).isSome then
      load_boot_image_loop env tgt fuel st
    else .ret (r.1, r.2) st

/-- The `case NORMAL_BOOT` of `load_boot_image`. -/
def load_boot_image_normal (env : Env) (fuel : Nat) (bootimage : Nat) (st : St) :
    Run (EFI_STATUS × Nat) :=
  if env.use_slot st.now && (env.slot_get_active st.now).isNone then
    .ret (EFI_NOT_FOUND, bootimage) st
  else load_boot_image_loop env .NORMAL_BOOT fuel st

/-- `load_boot_image` (compiled without USE_AVB): the status and `*bootimage`. -/
def load_boot_image (env : Env) (fuel : Nat) (tgt : boot_target) (bootimage : Nat) (st : St) :
    Run (EFI_STATUS × Nat) :=
  match tgt with
  | .NORMAL_BOOT => load_boot_image_normal env fuel bootimage st
  | .RECOVERY =>
    if env.recovery_in_boot_partition st.now then load_boot_image_normal env fuel bootimage st
    else if env.use_slot st.now && env.slot_recovery_tries_remaining st.now = 0 then
      .ret (EFI_NOT_FOUND, bootimage) st
    else
      let r := env.android_image_load_partition st.now RECOVERY_LABEL
      .ret (r.1, r.2) (st.emit (.android_image_load_partition RECOVERY_LABEL r.1 r.2))
  | _ => .ret (EFI_INVALID_PARAMETER, 0) st

/-! ## Chain-load -/

/-- `start_boot_image` from the chain-load call to its end. -/
def start_boot_image_chainload (env : Env) (bootimage : Nat) (state : boot_state)
    (tgt : boot_target) (st : St) : Run EFI_STATUS :=
  let r := env.android_image_start_buffer_abl st.now bootimage tgt state
  let st := st.emit (.android_image_start_buffer_abl bootimage tgt state r)
  match r with
  | none => .gone st
  | some _ =>
    let ret := env.slot_boot_failed st.now tgt
    .ret ret (st.emit (.slot_boot_failed tgt ret))

/-- `start_boot_image` from `set_efi_variable` to its end. -/
def start_boot_image_vars (cfg : Config) (env : Env) (bootimage : Nat) (state : boot_state)
    (tgt : boot_target) (st : St) : Run EFI_STATUS :=
  let st := st.emit (.set_efi_variable_boot_state state)
  let st :=
    if cfg.OS_SECURE_BOOT then
      st.emit (.set_os_secure_boot (state = .BOOT_STATE_GREEN)
        (env.set_os_secure_boot st.now (state = .BOOT_STATE_GREEN)))
    else st
  if !cfg.USE_SLOT then
    let ret := env.slot_boot st.now tgt
    let st := st.emit (.slot_boot tgt ret)
    if EFI_ERROR ret then .ret ret st
    else start_boot_image_chainload env bootimage state tgt st
  else start_boot_image_chainload env bootimage state tgt st

/-- `start_boot_image` from the RED test to its end. -/
def start_boot_image_red (cfg : Config) (env : Env) (bootimage : Nat) (state : boot_state)
    (tgt : boot_target) (st : St) : Run EFI_STATUS :=
  if cfg.USER && state = .BOOT_STATE_RED && env.is_abl_secure_boot_enabled st.now then
    .ret EFI_SECURITY_VIOLATION st
  else start_boot_image_vars cfg env bootimage state tgt st

/-- `start_boot_image`; its entry is logged with the boot state it was given. -/
def start_boot_image (cfg : Config) (env : Env) (bootimage : Nat) (state : boot_state)
    (tgt : boot_target) (st : St) : Run EFI_STATUS :=
  let st := st.emit (.start_boot_image bootimage state tgt)
  if cfg.USER && state = .BOOT_STATE_ORANGE then
    let ret := env.android_clear_memory st.now
    let st := st.emit (.android_clear_memory ret)
    if EFI_ERROR ret then .ret ret st
    else start_boot_image_red cfg env bootimage state tgt st
  else start_boot_image_red cfg env bootimage state tgt st

/-! ## TrustedOSHandoff -/

/-- A seed entry after `memset` to zero over its bytes. -/
def seed_info_t.clear (s : seed_info_t) : seed_info_t :=
  { svn := 0, padding := zeroBytes s.padding, seed := zeroBytes s.seed }

/-- The size in bytes of the packed `trusty_startup_params_t`, given the size of
a `struct rot_data_t`. -/
def sizeof_trusty_startup_params (rot_size : Nat) : Nat :=
  8 + 4 + 4 + 4 + BOOTLOADER_SEED_MAX_ENTRIES * (1 + 3 + TRUSTY_SEED_LEN) + rot_size +
    MMC_PROD_NAME_WITH_PSN_LEN

/-- `init_trusty_startup_params(param, base, sz, num, seed_list)`; a NULL pointer
is `none`.  The result is the status, the block `*param` and the caller's seed
list after the call. -/
def init_trusty_startup_params (env : Env) (now : Nat) (param : Option trusty_startup_params_t)
    (base sz num : Nat) (seed_list : Option (List seed_info_t)) :
    EFI_STATUS × Option trusty_startup_params_t × Option (List seed_info_t) :=
  match param, seed_list with
  | some p, some sl =>
    if num > BOOTLOADER_SEED_MAX_ENTRIES ∨ num = 0 then (EFI_INVALID_PARAMETER, param, seed_list)
    else
      let p : trusty_startup_params_t :=
        { size_of_this_struct := sizeof_trusty_startup_params p.RotData.length
          load_base := base % 2 ^ 32
          load_size := sz % 2 ^ 32
          num_seeds := num
          seed_list := List.replicate BOOTLOADER_SEED_MAX_ENTRIES seed_info_t.zero
          RotData := zeroBytes p.RotData
          serial := List.replicate MMC_PROD_NAME_WITH_PSN_LEN 0 }
      match env.get_serial_number now with
      | none => (EFI_NOT_FOUND, some p, seed_list)
      | some serialno =>
        let p := { p with serial := serialno.take MMC_PROD_NAME_WITH_PSN_LEN
                          seed_list := sl.take BOOTLOADER_SEED_MAX_ENTRIES }
        (EFI_SUCCESS, some p,
          some ((sl.take BOOTLOADER_SEED_MAX_ENTRIES).map seed_info_t.clear ++
            sl.drop BOOTLOADER_SEED_MAX_ENTRIES))
  | _, _ => (EFI_INVALID_PARAMETER, param, seed_list)

/-- `launch_trusty_os(param)`: the privileged call is logged with the block it
is given. -/
def launch_trusty_os (param : Option trusty_startup_params_t) (st : St) : EFI_STATUS × St :=
  match param with
  | none => (EFI_INVALID_PARAMETER, st)
  | some p => (EFI_SUCCESS, st.emit (.launch_trusty_os p))

/-- The call `init_trusty_startup_params(&trusty_startup_params, load_base, sz,
p_trusty_boot_params->num_seeds, p_trusty_boot_params->seed_list)` made by both
boot functions, with its writes stored back; its return is logged. -/
def call_init_trusty_startup_params (env : Env) (load_base sz : Nat) (st : St) :
    EFI_STATUS × St :=
  let r := init_trusty_startup_params env st.now (some st.mem.trusty_startup_params) load_base sz
    st.mem.p_trusty_boot_params.num_seeds (some st.mem.p_trusty_boot_params.seed_list)
  let st := { st with mem := { st.mem with
    trusty_startup_params := r.2.1.getD st.mem.trusty_startup_params
    p_trusty_boot_params := { st.mem.p_trusty_boot_params with
      seed_list := r.2.2.getD st.mem.p_trusty_boot_params.seed_list } } }
  (r.1, st.emit (.init_trusty_startup_params r.1))

/-- The statement `memset(trusty_startup_params.seed_list, 0, sizeof(...))`. -/
def clear_startup_seeds (st : St) : St :=
  { st with mem := { st.mem with trusty_startup_params :=
    { st.mem.trusty_startup_params with
      seed_list := st.mem.trusty_startup_params.seed_list.map seed_info_t.clear } } }

/-- The call `get_rot_data(bootimage, boot_state, ..., &g_rot_data)`. -/
def call_get_rot_data (env : Env) (bootimage : Nat) (state : boot_state) (st : St) :
    EFI_STATUS × St :=
  let r := env.get_rot_data st.now bootimage state st.mem.g_rot_data
  let st := { st with mem := { st.mem with g_rot_data := r.2 } }
  (r.1, st.emit (.get_rot_data bootimage state r.1))

/-! ## The boot pipeline, local two-tier backend (`boot_android`) -/

/-- The label `exit` of `boot_android`. -/
def boot_android_exit (cfg : Config) (ret : EFI_STATUS) (st : St) : Run EFI_STATUS :=
  .ret ret (if cfg.USE_TRUSTY then clear_startup_seeds st else st)

/-- `boot_android` from the call of `start_boot_image` to its end. -/
def boot_android_start (cfg : Config) (env : Env) (bootimage : Nat) (state : boot_state)
    (tgt : boot_target) (st : St) : Run EFI_STATUS :=
  match start_boot_image cfg env bootimage state tgt st with
  | .ret ret st =>
    if EFI_ERROR ret then boot_android_exit cfg ret st
    else boot_android_exit cfg EFI_INVALID_PARAMETER st
  | .gone st => .gone st
  | .stuck st => .stuck st

/-- `boot_android` from the call of `launch_trusty_os` to its end. -/
def boot_android_launch (cfg : Config) (env : Env) (bootimage : Nat) (state : boot_state)
    (tgt : boot_target) (st : St) : Run EFI_STATUS :=
  let l := launch_trusty_os (some st.mem.trusty_startup_params) st
  if EFI_ERROR l.1 then boot_android_exit cfg l.1 l.2
  else
    let st := l.2.emit .trusty_ipc_init
    let st := st.emit .trusty_ipc_shutdown
    let ret := env.heci_end_of_post st.now
    let st := st.emit (.heci_end_of_post ret)
    if EFI_ERROR ret then boot_android_exit cfg ret st
    else boot_android_start cfg env bootimage state tgt st

/-- `boot_android` from the call of `init_trusty_startup_params` to its end. -/
def boot_android_init (cfg : Config) (env : Env) (bootimage : Nat) (state : boot_state)
    (tgt : boot_target) (load_base sz : Nat) (st : St) : Run EFI_STATUS :=
  let i := call_init_trusty_startup_params env load_base sz st
  if EFI_ERROR i.1 then boot_android_exit cfg i.1 i.2
  else
    let r := call_get_rot_data env bootimage state i.2
    if EFI_ERROR r.1 then boot_android_exit cfg r.1 r.2
    else boot_android_launch cfg env bootimage state tgt r.2

/-- The USE_TRUSTY block of `boot_android`, entered for NORMAL_BOOT, and what
follows it. -/
def boot_android_trusty (cfg : Config) (env : Env) (bootimage : Nat) (state : boot_state)
    (tgt : boot_target) (st : St) : Run EFI_STATUS :=
  let t := env.load_tos_image st.now
  let st := st.emit (.load_tos_image t.1 t.2)
  if EFI_ERROR t.1 then .ret t.1 st
  else
    match env.get_bootimage_header st.now t.2 with
    | none => .ret EFI_INVALID_PARAMETER st
    | some hdr => boot_android_init cfg env bootimage state tgt (t.2 + hdr.page_size)
        hdr.kernel_size st

/-- `boot_android(boot_target, abl_cmd_line)` (compiled without USE_AVB).  The
command line is only passed on to the chain-load and is left out. -/
def boot_android (cfg : Config) (env : Env) (fuel : Nat) (tgt : boot_target) (st : St) :
    Run EFI_STATUS :=
  match load_boot_image env fuel tgt 0 st with
  | .ret r st =>
    if EFI_ERROR r.1 then .ret r.1 st
    else
      let v := validate_bootimage env tgt r.2 st
      if cfg.USE_TRUSTY && tgt = .NORMAL_BOOT then boot_android_trusty cfg env r.2 v.1 tgt v.2.2
      else boot_android_start cfg env r.2 v.1 tgt v.2.2
  | .gone st => .gone st
  | .stuck st => .stuck st

/-! ## The boot pipeline, delegated slot-verification backend (`avb_boot_android`) -/

/-- The partition name `"boot"`. -/
def part_boot : List Nat := [98, 111, 111, 116]
/-- The partition name `"recovery"`. -/
def part_recovery : List Nat := [114, 101, 99, 111, 118, 101, 114, 121]
/-- The partition name `"tos"`. -/
def part_tos : List Nat := [116, 111, 115]

/-- The label `fail` of `avb_boot_android`; `tos_live` says that `slot_data_tos`
is not NULL. -/
def avb_boot_android_fail (cfg : Config) (tos_live : Bool) (ret : EFI_STATUS) (st : St) :
    Run EFI_STATUS :=
  if cfg.USE_TRUSTY then
    let st := if tos_live then st.emit .avb_slot_verify_data_free else st
    .ret ret (clear_startup_seeds st)
  else .ret ret st

/-- `avb_boot_android` from the rollback-index update to its end. -/
def avb_boot_android_start (cfg : Config) (env : Env) (bootimage : Nat) (state : boot_state)
    (tgt : boot_target) (tos_live : Bool) (st : St) : Run EFI_STATUS :=
  let st :=
    if state = .BOOT_STATE_GREEN then st.emit .avb_update_stored_rollback_indexes_for_slot
    else st
  match start_boot_image cfg env bootimage state tgt st with
  | .ret ret st => avb_boot_android_fail cfg tos_live ret st
  | .gone st => .gone st
  | .stuck st => .stuck st

/-- `avb_boot_android` from the call of `avb_vbmeta_image_verify` to its end. -/
def avb_boot_android_rot (cfg : Config) (env : Env) (slot_data : AvbSlotVerifyData)
    (bootimage : Nat) (state : boot_state) (tgt : boot_target) (st : St) : Run EFI_STATUS :=
  let vb := env.avb_vbmeta_image_verify st.now slot_data.vbmeta
  let st := st.emit (.avb_vbmeta_image_verify vb.1)
  if EFI_ERROR vb.1 then avb_boot_android_fail cfg false vb.1 st
  else
    let r := call_get_rot_data env bootimage state st
    if EFI_ERROR r.1 then avb_boot_android_fail cfg false r.1 r.2
    else
      let st := r.2.emit .trusty_ipc_init
      let st := st.emit .trusty_ipc_shutdown
      let ret := env.heci_end_of_post st.now
      let st := st.emit (.heci_end_of_post ret)
      if EFI_ERROR ret then avb_boot_android_fail cfg false ret st
      else avb_boot_android_start cfg env bootimage state tgt false st

/-- `avb_boot_android` from the call of `launch_trusty_os` to its end. -/
def avb_boot_android_launch (cfg : Config) (env : Env) (slot_data slot_data_tos : AvbSlotVerifyData)
    (bootimage : Nat) (state : boot_state) (tgt : boot_target) (st : St) : Run EFI_STATUS :=
  let l := launch_trusty_os (some st.mem.trusty_startup_params) st
  if EFI_ERROR l.1 then avb_boot_android_fail cfg (!slot_data_tos.isNull) l.1 l.2
  else
    avb_boot_android_rot cfg env slot_data bootimage state tgt
      (if !slot_data_tos.isNull then l.2.emit .avb_slot_verify_data_free else l.2)

/-- `avb_boot_android` from the call of `init_trusty_startup_params` to its end. -/
def avb_boot_android_init (cfg : Config) (env : Env) (slot_data slot_data_tos : AvbSlotVerifyData)
    (bootimage : Nat) (state : boot_state) (tgt : boot_target) (st : St) : Run EFI_STATUS :=
  let load_base := slot_data_tos.data + slot_data_tos.header.page_size
  let i := call_init_trusty_startup_params env load_base slot_data_tos.header.kernel_size st
  if EFI_ERROR i.1 then avb_boot_android_fail cfg (!slot_data_tos.isNull) i.1 i.2
  else avb_boot_android_launch cfg env slot_data slot_data_tos bootimage state tgt i.2

/-- The USE_TRUSTY block of `avb_boot_android`, entered for NORMAL_BOOT, and
what follows it. -/
def avb_boot_android_trusty (cfg : Config) (env : Env) (slot_suffix : List Nat) (allow : Bool)
    (slot_data : AvbSlotVerifyData) (bootimage : Nat) (state : boot_state) (tgt : boot_target)
    (st : St) : Run EFI_STATUS :=
  let v := env.avb_slot_verify st.now part_tos slot_suffix allow
  let st := st.emit (.avb_slot_verify part_tos slot_suffix allow)
  let slot_data_tos := v.2
  let g := env.get_avb_result st.now slot_data_tos false v.1 .BOOT_STATE_GREEN
  let st := st.emit (.get_avb_result g.1 g.2)
  if EFI_ERROR g.1 then avb_boot_android_fail cfg (!slot_data_tos.isNull) g.1 st
  else if g.2 ≠ .BOOT_STATE_GREEN && env.is_abl_secure_boot_enabled st.now then
    avb_boot_android_fail cfg (!slot_data_tos.isNull) EFI_ABORTED st
  else avb_boot_android_init cfg env slot_data slot_data_tos bootimage state tgt st

/-- `avb_boot_android(boot_target, abl_cmd_line)` (compiled under USE_AVB).  The
command line is only passed on to the chain-load and is left out. -/
def avb_boot_android (cfg : Config) (env : Env) (tgt : boot_target) (st : St) : Run EFI_STATUS :=
  let partition := if !cfg.USE_SLOT && tgt = .RECOVERY then part_recovery else part_boot
  if env.avb_init st.now then
    let u := env.read_is_device_unlocked st.now
    if !u.1 then .ret EFI_ABORTED (st.emit .avb_fatal)
    else
      let allow := u.2
      let slot_suffix := if cfg.USE_SLOT then (env.slot_get_active st.now).getD [] else []
      let v := env.avb_slot_verify st.now partition slot_suffix allow
      let st := st.emit (.avb_slot_verify partition slot_suffix allow)
      let g := env.get_avb_result st.now v.2 allow v.1 .BOOT_STATE_GREEN
      let st := st.emit (.get_avb_result g.1 g.2)
      if EFI_ERROR g.1 then avb_boot_android_fail cfg false g.1 st
      else if cfg.USE_TRUSTY && tgt = .NORMAL_BOOT then
        avb_boot_android_trusty cfg env slot_suffix allow v.2 v.2.data g.2 tgt st
      else avb_boot_android_start cfg env v.2.data g.2 tgt false st
  else .ret EFI_OUT_OF_RESOURCES st

/-! ## BootOrchestrator -/

/-- The statement `if (EFI_ERROR(ret)) target = FASTBOOT;` of the loop of
`efi_main`, applied to the end of the pipeline's run: the value of `target`
when the arm is left. -/
def efi_main_next (target : boot_target) : Run EFI_STATUS → Run boot_target
  | .ret ret st => .ret (if EFI_ERROR ret then .FASTBOOT else target) st
  | .gone st => .gone st
  | .stuck st => .stuck st

/-- The arm `case NORMAL_BOOT: case RECOVERY:` of the loop of `efi_main`: the
pipeline is run and the value of `target` after the arm is returned. -/
def efi_main_boot (cfg : Config) (env : Env) (fuel : Nat) (target : boot_target) (st : St) :
    Run boot_target :=
  efi_main_next target
    (if cfg.USE_AVB then avb_boot_android cfg env target st
     else boot_android cfg env fuel target st)

/-! ## TargetResolver

The resolver and the service arms of the loop touch none of the memory above;
they are modelled over their own small state.  What they take from outside
kf4abl.c is a field of `Lib` (library functions and the declaration of
`enum boot_target`) or of `Adb` (the diagnostic service). -/

/-- The bytes of an ASCII string. -/
def ascii (s : String) : List Nat := s.data.map Char.toNat

/-- The library functions the resolver calls, and the numbering of
`enum boot_target`, which is declared outside kf4abl.c. -/
structure Lib where
  /-- `str_to_stra(dst, src, len)`: the buffer `dst` after the call. -/
  str_to_stra : List Nat → List Nat → Nat → List Nat
  /-- `strtoul(nptr, 0, base)`. -/
  strtoul : List Nat → Nat → Nat
  /-- The value of `enum boot_target` with the given number. -/
  boot_target_of_code : Nat → boot_target
  /-- `stra_to_str(s)`: the wide string, `none` for NULL. -/
  stra_to_str : List Nat → Option (List Nat)
  /-- `name_to_boot_target(name)`. -/
  name_to_boot_target : List Nat → boot_target
  /-- The bytes `efi_snprintf` writes for the default command line of the
  KERNELFLINGER_BUILD_FOR_SLIMBOOT variant, given the size of the buffer. -/
  efi_snprintf : Nat → List Nat

/-- `strncmp(s1, s2, n)` of the C library; a buffer's string ends at its first
zero, or at the end of the list. -/
def strncmp : List Nat → List Nat → Nat → Int
  | _, _, 0 => 0
  | s1, s2, n + 1 =>
    if s1.headD 0 ≠ s2.headD 0 then (s1.headD 0 : Int) - (s2.headD 0 : Int)
    else if s1.headD 0 = 0 then 0
    else strncmp s1.tail s2.tail n

/-- `strcmp(s1, s2)` of the C library. -/
def strcmp : List Nat → List Nat → Int
  | [], [] => 0
  | [], b :: _ => -(b : Int)
  | a :: _, [] => (a : Int)
  | a :: s1, b :: s2 => if a ≠ 0 ∧ a = b then strcmp s1 s2 else (a : Int) - (b : Int)

/-- `strncmpa(s1, s2, len)` of the EFI library. -/
def strncmpa : List Nat → List Nat → Nat → Int
  | _, _, 0 => 0
  | s1, s2, len + 1 =>
    if s1.headD 0 ≠ 0 ∧ s1.headD 0 = s2.headD 0 then strncmpa s1.tail s2.tail len
    else (s1.headD 0 : Int) - (s2.headD 0 : Int)

/-- `strncpy(buf + off, src, n)`: `n` bytes are written, the string at `src` and
then zeros.  A buffer is a map from index to byte. -/
def strncpy (buf : Nat → Nat) (off : Nat) (src : List Nat) (n : Nat) : Nat → Nat :=
  fun j => if off ≤ j ∧ j < off + n then (cstr src).getD (j - off) 0 else buf j

/-- MAX_CMD_BUF, the size of `cmd_buf`. -/
def MAX_CMD_BUF : Nat := 0x1000
/-- LENGTH_TRUSTY_PARAM_STRING. -/
def LENGTH_TRUSTY_PARAM_STRING : Nat := 18
/-- TRUSTY_PARAM_STRING. -/
def TRUSTY_PARAM_STRING : List Nat := ascii "trusty.param_addr="
/-- The local `secureboot_str` of `check_command_line`. -/
def secureboot_str : List Nat := ascii "ABL.secureboot="
/-- The local `bootmode_info_str` of `check_command_line`. -/
def bootmode_info_str : List Nat := ascii "ABL.boot="
/-- The local `boot_target_str` of `check_command_line`. -/
def boot_target_str : List Nat := ascii "ABL.boot_target="

/-- The statics `check_command_line` writes: `cmd_buf`, the word
`bootMode._bits` and the pointer `p_trusty_boot_params`. -/
structure Statics where
  cmd_buf : Nat → Nat
  bootMode : Nat
  p_trusty_boot_params : Nat

/-- The state of `check_command_line`: its locals `target`, `cmd_len` and
`arg8`, the statics, and the arguments of the calls of `set_abl_secure_boot`
made so far. -/
structure CmdLine where
  target : boot_target
  cmd_len : Nat
  arg8 : List Nat
  cmd_buf : Nat → Nat
  bootMode : Nat
  p_trusty_boot_params : Nat
  set_abl_secure_boot : List Nat

/-- The statics a run of `check_command_line` leaves. -/
def CmdLine.statics (s : CmdLine) : Statics :=
  { cmd_buf := s.cmd_buf, bootMode := s.bootMode, p_trusty_boot_params := s.p_trusty_boot_params }

/-- The statement `if (cmd_buf[0] != 0) { strncpy(cmd_buf + cmd_len, " ", 1);
cmd_len++; }` of `check_command_line`. -/
def check_command_line_space (s : CmdLine) : CmdLine :=
  if s.cmd_buf 0 ≠ 0 then
    { s with cmd_buf := strncpy s.cmd_buf s.cmd_len (ascii " ") 1, cmd_len := s.cmd_len + 1 }
  else s

/-- The statements `strncpy(cmd_buf + cmd_len, arg8, arglen); cmd_len += arglen;`
that end the body of the loop of `check_command_line`. -/
def check_command_line_append (s : CmdLine) (arglen : Nat) : CmdLine :=
  { s with cmd_buf := strncpy s.cmd_buf s.cmd_len s.arg8 arglen, cmd_len := s.cmd_len + arglen }

/-- The chain of tests on `arg8` in the body of the loop of
`check_command_line`, up to the end of the body; the flag says that the loop
was left by `break`. -/
def check_command_line_parse (cfg : Config) (lib : Lib) (s : CmdLine) (arglen : Nat) :
    CmdLine × Bool :=
  if arglen > boot_target_str.length ∧
      strncmp s.arg8 boot_target_str boot_target_str.length = 0 then
    if strcmp (s.arg8.drop boot_target_str.length) (ascii "CRASHMODE") = 0 then
      ({ s with target := .CRASHMODE }, true)
    else (s, false)
  else if arglen > bootmode_info_str.length ∧
      strncmp s.arg8 bootmode_info_str bootmode_info_str.length = 0 then
    let bits := lib.strtoul (s.arg8.drop bootmode_info_str.length) 16 % 2 ^ 16
    (check_command_line_append
      { s with bootMode := bits, target := lib.boot_target_of_code (bits % 2 ^ 5) } arglen, false)
  else if cfg.USE_TRUSTY ∧ arglen > LENGTH_TRUSTY_PARAM_STRING ∧
      strncmp s.arg8 TRUSTY_PARAM_STRING LENGTH_TRUSTY_PARAM_STRING = 0 then
    ({ s with p_trusty_boot_params :=
        lib.strtoul (s.arg8.drop LENGTH_TRUSTY_PARAM_STRING) 16 % 2 ^ 32 }, false)
  else if arglen > secureboot_str.length ∧
      strncmp s.arg8 secureboot_str secureboot_str.length = 0 then
    (check_command_line_append
      { s with set_abl_secure_boot := s.set_abl_secure_boot ++
          [lib.strtoul (s.arg8.drop secureboot_str.length) 10 % 2 ^ 8] } arglen, false)
  else (check_command_line_append s arglen, false)

/-- The body of the `for` loop of `check_command_line` on `argv[i]`; the flag
says that the loop was left by `break`. -/
def check_command_line_arg (cfg : Config) (lib : Lib) (max_cmd_size : Nat) (s : CmdLine)
    (arg : List Nat) : CmdLine × Bool :=
  let arglen := if (cstr arg).length > 256 - 2 then 256 - 2 else (cstr arg).length
  let s := { s with arg8 := lib.str_to_stra s.arg8 arg (arglen + 1) }
  if s.cmd_len + arglen + 1 < max_cmd_size then
    check_command_line_parse cfg lib (check_command_line_space s) arglen
  else (s, false)

/-- The `for` loop of `check_command_line` over the arguments that are left. -/
def check_command_line_loop (cfg : Config) (lib : Lib) (max_cmd_size : Nat) :
    CmdLine → List (List Nat) → CmdLine
  | s, [] => s
  | s, arg :: argv =>
    match check_command_line_arg cfg lib max_cmd_size s arg with
    | (s, true) => s
    | (s, false) => check_command_line_loop cfg lib max_cmd_size s argv

/-- `check_command_line(image, cmd_buf, max_cmd_size)`, started with the statics
`g`.  `argv` is the list of arguments `get_argv` delivers, each a buffer of
CHAR16, or `none` when `OpenProtocol` or `get_argv` fails. -/
def check_command_line (cfg : Config) (lib : Lib) (argv : Option (List (List Nat)))
    (max_cmd_size : Nat) (g : Statics) : CmdLine :=
  let s : CmdLine :=
    { target := .FASTBOOT, cmd_len := 0, arg8 := List.replicate 256 0
      cmd_buf := g.cmd_buf, bootMode := g.bootMode
      p_trusty_boot_params := g.p_trusty_boot_params, set_abl_secure_boot := [] }
  match argv with
  | none => s
  | some argv =>
    if cfg.KERNELFLINGER_BUILD_FOR_SLIMBOOT ∧ argv.length ≤ 0 then
      { s with target := .NORMAL_BOOT
               cmd_buf := strncpy s.cmd_buf 0 (lib.efi_snprintf (max_cmd_size + 1))
                 (cstr (lib.efi_snprintf (max_cmd_size + 1))).length.succ
               set_abl_secure_boot := [0] }
    else
      check_command_line_loop cfg lib max_cmd_size
        { s with cmd_buf := fun j => if j = 0 then 0 else s.cmd_buf j } argv

/-- The `struct bootloader_message` as far as `check_bcb` reads and writes it. -/
structure bootloader_message where
  command : List Nat
  status : List Nat
  deriving DecidableEq, Repr

/-- What `check_bcb` leaves: its return value, `*oneshot`, and the record it
handed to `write_bcb`, if it called it. -/
structure BcbResult where
  t : boot_target
  oneshot : Bool
  write_bcb : Option bootloader_message
  deriving DecidableEq, Repr

/-- `check_bcb(target_path, oneshot)`, given what `read_bcb` answers: its status
and the record it read.  `*target_path` is always NULL and is left out. -/
def check_bcb (lib : Lib) (read_bcb : EFI_STATUS × bootloader_message) : BcbResult :=
  if EFI_ERROR read_bcb.1 then { t := .NORMAL_BOOT, oneshot := false, write_bcb := none }
  else
    let bcb := read_bcb.2
    let dirty : Bool := bcb.status.headD 0 ≠ 0
    let bcb := { bcb with status := bcb.status.set 0 0 }
    let r : Option (List Nat) × bootloader_message × Bool × Bool :=
      if strncmpa bcb.command (ascii "boot-") 5 = 0 then
        (lib.stra_to_str (cstr (bcb.command.drop 5)), bcb, dirty, false)
      else if strncmpa bcb.command (ascii "bootonce-") 9 = 0 then
        (lib.stra_to_str (cstr (bcb.command.drop 9)),
          { bcb with command := bcb.command.set 0 0 }, true, true)
      else (none, bcb, dirty, false)
    let write_bcb := if r.2.2.1 then some r.2.1 else none
    match r.1 with
    | none => { t := .NORMAL_BOOT, oneshot := r.2.2.2, write_bcb := write_bcb }
    | some target =>
      if lib.name_to_boot_target target ≠ .UNKNOWN_TARGET then
        { t := lib.name_to_boot_target target, oneshot := r.2.2.2, write_bcb := write_bcb }
      else { t := .NORMAL_BOOT, oneshot := r.2.2.2, write_bcb := write_bcb }

/-- The part of `efi_main` that chooses the first target: `check_command_line`,
`slot_init` (only its status matters here), the __FORCE_FASTBOOT override, and
`check_bcb` with `if (bcb_target == RECOVERY) target = bcb_target;`.  The
result is `none` when `slot_init` fails and `efi_main` returns. -/
def efi_main_target (cfg : Config) (lib : Lib) (argv : Option (List (List Nat))) (g : Statics)
    (slot_init : EFI_STATUS) (read_bcb : EFI_STATUS × bootloader_message) : Option boot_target :=
  let target := (check_command_line cfg lib argv (MAX_CMD_BUF - 1) g).target
  if EFI_ERROR slot_init then none
  else if cfg.FORCE_FASTBOOT then some .FASTBOOT
  else
    let bcb_target := (check_bcb lib read_bcb).t
    some (if bcb_target = .RECOVERY then bcb_target else target)

/-! ## BootOrchestrator: the service arms -/

/-- The diagnostic service: the status of `adb_init`, and what the k-th call of
`adb_run` and the `adb_get_boot_target` after it answer. -/
structure Adb where
  adb_init : EFI_STATUS
  adb_run : Nat → EFI_STATUS
  adb_get_boot_target : Nat → boot_target

/-- The `for (;;)` loop of `enter_crashmode` from its round `k` on, one unit of
fuel per round: the status the loop leaves in `ret` and `*target`; `none` when
the fuel runs out. -/
def enter_crashmode_loop (adb : Adb) : Nat → Nat → boot_target → Option (EFI_STATUS × boot_target)
  | 0, _, _ => none
  | fuel + 1, k, target =>
    if EFI_ERROR (adb.adb_run k) then some (adb.adb_run k, target)
    else if adb.adb_get_boot_target k ≠ .UNKNOWN_TARGET then
      some (adb.adb_run k, adb.adb_get_boot_target k)
    else enter_crashmode_loop adb fuel (k + 1) (adb.adb_get_boot_target k)

/-- `enter_crashmode(target)` (compiled under CRASHMODE_USE_ADB): its return
value and `*target`. -/
def enter_crashmode (adb : Adb) (fuel : Nat) (target : boot_target) :
    Option (EFI_STATUS × boot_target) :=
  if EFI_ERROR adb.adb_init then some (adb.adb_init, target)
  else enter_crashmode_loop adb fuel 0 target

/-- The arms of the `switch (target)` in the loop of `efi_main`. -/
inductive Arm where
  | boot
  | enter_fastboot_mode
  | enter_crashmode
  | reboot_to_target
  deriving DecidableEq, Repr

/-- The arm the `switch (target)` of `efi_main` takes. -/
def efi_main_arm (cfg : Config) : boot_target → Arm
  | .NORMAL_BOOT => .boot
  | .RECOVERY => .boot
  | .UNKNOWN_TARGET => .enter_fastboot_mode
  | .FASTBOOT => .enter_fastboot_mode
  | .CRASHMODE => if cfg.CRASHMODE_USE_ADB then .enter_crashmode else .enter_fastboot_mode
  | .other _ => .reboot_to_target

/-- The arm `case CRASHMODE: enter_crashmode(&target); break;`: the value of
`target` after the arm; the status `enter_crashmode` returns is not read. -/
def efi_main_crashmode (adb : Adb) (fuel : Nat) (target : boot_target) : Option boot_target :=
  (enter_crashmode adb fuel target).map (fun r => r.2)

/-! ## Reading the log -/

/-- The calls of a log, in order. -/
def callsOf (log : List Event) : List Call := log.map (fun e => e.call)

/-- The log `l'` is `l` followed by entries that all satisfy `P`. -/
def LogGrows (P : Event → Prop) (l l' : List Event) : Prop :=
  ∃ evs, l' = l ++ evs ∧ ∀ e ∈ evs, P e

/-- A storage probe as the log shows it: the key, the status, the result word. -/
abbrev Probe := List Nat × EFI_STATUS × RPMB_RESPONSE_RESULT

/-- The storage probes of a log, in order. -/
def probes (log : List Event) : List Probe :=
  log.filterMap (fun e =>
    match e.call with
    | .rpmb_read_counter key ret result => some (key, ret, result)
    | _ => none)

/-- The KDF calls of a log, in order: the secret each was given and its output. -/
def kdfs (log : List Event) : List (List Nat × Option (List Nat)) :=
  log.filterMap (fun e =>
    match e.call with
    | .HKDF secret _ _ out => some (secret, out)
    | _ => none)

/-- The probe reports an authentication failure: not EFI_SUCCESS, and the result
word is RPMB_RES_AUTH_FAILURE. -/
def reportsAuthFailure (p : Probe) : Prop :=
  p.2.1 ≠ EFI_SUCCESS ∧ p.2.2 = .RPMB_RES_AUTH_FAILURE

instance (p : Probe) : Decidable (reportsAuthFailure p) := by
  unfold reportsAuthFailure; infer_instance

/-- The calls `load_boot_image` makes. -/
def isLoaderCall : Call → Prop
  | .android_image_load_partition _ _ _ => True
  | .slot_boot_failed _ _ => True
  | _ => False

/-- The calls `start_boot_image` makes when it is given the boot state `s`. -/
def isStartCall (s : boot_state) : Call → Prop
  | .start_boot_image _ s' _ => s' = s
  | .android_clear_memory _ => True
  | .set_efi_variable_boot_state _ => True
  | .set_os_secure_boot _ _ => True
  | .slot_boot _ _ => True
  | .android_image_start_buffer_abl _ _ _ _ => True
  | .slot_boot_failed _ _ => True
  | _ => False

/-- The calls made from `launch_trusty_os` on, in either boot function, when
the boot state is `s`. -/
def isLaunchCall (s : boot_state) : Call → Prop
  | .launch_trusty_os _ => True
  | .trusty_ipc_init => True
  | .trusty_ipc_shutdown => True
  | .heci_end_of_post _ => True
  | .avb_slot_verify_data_free => True
  | .avb_vbmeta_image_verify _ => True
  | .get_rot_data _ _ _ => True
  | .avb_update_stored_rollback_indexes_for_slot => True
  | c => isStartCall s c

/-- The calls `avb_boot_android` makes before `init_trusty_startup_params`, and
at its label `fail`. -/
def isAvbVerifyCall : Call → Prop
  | .avb_fatal => True
  | .avb_slot_verify _ _ _ => True
  | .get_avb_result _ _ => True
  | .avb_slot_verify_data_free => True
  | _ => False

/-- Any call but an entry of `start_boot_image` and the chain-load call. -/
def isQuietCall : Call → Prop
  | .start_boot_image _ _ _ => False
  | .android_image_start_buffer_abl _ _ _ _ => False
  | _ => True

/-- Any call but `launch_trusty_os`. -/
def isNotLaunch : Call → Prop
  | .launch_trusty_os _ => False
  | _ => True

/-- The `launch_trusty_os` calls of a log, in order: the block each was given
and the memory at the time of the call. -/
def launches (log : List Event) : List (trusty_startup_params_t × Mem) :=
  log.filterMap (fun e =>
    match e.call with
    | .launch_trusty_os p => some (p, e.mem)
    | _ => none)

/-- The entries of a log for the call `c`. -/
def entriesOf (c : Call) (log : List Event) : List Event := log.filter (fun e => e.call = c)

/-- A failed `init_trusty_startup_params` ends the run at once: among the calls
the run `r` adds to the log of `st`, a return of `init_trusty_startup_params`
with an error `ret` means that `r` returned `ret` and that `launch_trusty_os`
is not among those calls. -/
def InitFailStops (st : St) (r : Run EFI_STATUS) : Prop :=
  ∃ evs, r.st.log = st.log ++ evs ∧
    ∀ ret, EFI_ERROR ret = true → Call.init_trusty_startup_params ret ∈ callsOf evs →
      (∃ st', r = .ret ret st') ∧ ∀ p, Call.launch_trusty_os p ∉ callsOf evs

/-- A RED image is refused: among the calls the run `r` adds to the log of `st`,
an entry of `start_boot_image` with the state RED means that the chain-load call
is not among those calls and that `r` returned an error. -/
def RedRefused (st : St) (r : Run EFI_STATUS) : Prop :=
  ∃ evs, r.st.log = st.log ++ evs ∧
    ∀ b t, Call.start_boot_image b .BOOT_STATE_RED t ∈ callsOf evs →
      (∀ b' t' s' x, Call.android_image_start_buffer_abl b' t' s' x ∉ callsOf evs) ∧
      ∃ ret st', r = .ret ret st' ∧ EFI_ERROR ret = true

/-- The seeds of the block are gone at the return: when the run `r` returned and
`launch_trusty_os` is among the calls it added to the log of `st`, every seed
entry of `trusty_startup_params` is zero in the memory it left. -/
def SeedsClearedAtReturn (st : St) (r : Run EFI_STATUS) : Prop :=
  ∃ evs, r.st.log = st.log ++ evs ∧
    ∀ ret st', r = .ret ret st' → (∃ p, Call.launch_trusty_os p ∈ callsOf evs) →
      ∀ s ∈ st'.mem.trusty_startup_params.seed_list, s.isZero

/-- Whenever the run `r` returned, every seed entry of `trusty_startup_params`
is zero in the memory it left. -/
def ReturnsCleared (r : Run EFI_STATUS) : Prop :=
  ∀ ret st', r = .ret ret st' → ∀ s ∈ st'.mem.trusty_startup_params.seed_list, s.isZero

/-- Every `launch_trusty_os` in the entry is given the block as it lies in
memory, and the `RotData` field of that block is all zero. -/
def LaunchRotZero (e : Event) : Prop :=
  ∀ p, e.call = .launch_trusty_os p → p = e.mem.trusty_startup_params ∧ allZero p.RotData

/-- The label rule of `validate_bootimage` as the code has it: NORMAL_BOOT takes
`/boot` and `/recovery`; RECOVERY takes `/boot` alone when recovery is folded
into the boot partition and `/recovery` alone when it is not; no other target
takes any label. -/
def label_accepted (folded : Bool) (tgt : boot_target) (label : List Nat) : Prop :=
  match tgt with
  | .NORMAL_BOOT => label = L_slash_boot ∨ label = L_slash_recovery
  | .RECOVERY => if folded then label = L_slash_boot else label = L_slash_recovery
  | _ => False

instance (folded : Bool) (tgt : boot_target) (label : List Nat) :
    Decidable (label_accepted folded tgt label) := by
  unfold label_accepted; split <;> infer_instance

/-- The label rule as the specification words it: NORMAL_BOOT takes `/boot` and
also `/recovery`; RECOVERY takes `/recovery` and, when recovery is folded into
the boot partition, also `/boot`. -/
def label_accepted_spec (folded : Bool) (tgt : boot_target) (label : List Nat) : Prop :=
  match tgt with
  | .NORMAL_BOOT => label = L_slash_boot ∨ label = L_slash_recovery
  | .RECOVERY => label = L_slash_recovery ∨ (folded = true ∧ label = L_slash_boot)
  | _ => False

instance (folded : Bool) (tgt : boot_target) (label : List Nat) :
    Decidable (label_accepted_spec folded tgt label) := by
  unfold label_accepted_spec; split <;> infer_instance

/-- Two states of `check_command_line` agree on what its loop reads: the
locals `target`, `cmd_len` and `arg8`, and the first byte of `cmd_buf`. -/
def CmdLine.agree (s s' : CmdLine) : Prop :=
  s.target = s'.target ∧ s.cmd_len = s'.cmd_len ∧ s.arg8 = s'.arg8 ∧ s.cmd_buf 0 = s'.cmd_buf 0

/-- The keys handed to storage: the calls of `program_rpmb_key` and of
`set_rpmb_key` in a log, in order. -/
def handoffs (log : List Event) : List Call :=
  (callsOf log).filter (fun c =>
    match c with
    | .program_rpmb_key _ _ => true
    | .set_rpmb_key _ => true
    | _ => false)

/-- The probe stopped the loop with a key to hand over: it succeeded, or it
reported that no key is programmed. -/
def probeHit (p : Probe) : Prop := p.2.1 = EFI_SUCCESS ∨ p.2.2 = .RPMB_RES_NO_AUTH_KEY_PROGRAM

instance (p : Probe) : Decidable (probeHit p) := by
  unfold probeHit; infer_instance

/-- The value a run returned, if it returned. -/
def Run.val {α : Type} : Run α → Option α
  | .ret val _ => some val
  | .gone _ => none
  | .stuck _ => none

/-- Whenever the run `r` returned, it returned an error. -/
def ReturnsError (r : Run EFI_STATUS) : Prop :=
  ∀ ret st', r = .ret ret st' → EFI_ERROR ret = true

/-- The statuses of the partition loads among the calls, in order. -/
def loadStatuses : List Call → List EFI_STATUS
  | [] => []
  | .android_image_load_partition _ r _ :: cs => r :: loadStatuses cs
  | _ :: cs => loadStatuses cs

/-- The number of partition loads among the calls that failed. -/
def failedLoads (cs : List Call) : Nat := ((loadStatuses cs).filter EFI_ERROR).length

/-- The number of `slot_boot_failed` calls among the calls. -/
def marksFailed : List Call → Nat
  | [] => 0
  | .slot_boot_failed _ _ :: cs => marksFailed cs + 1
  | _ :: cs => marksFailed cs

/-- Every failed partition load is directly followed by one `slot_boot_failed` for
the target `tgt`, and no `slot_boot_failed` stands anywhere else: not first, not
after a load that succeeded, not after another `slot_boot_failed`. -/
def marksFollowLoads (tgt : boot_target) : List Call → Bool
  | [] => true
  | .android_image_load_partition _ r _ :: cs =>
    if EFI_ERROR r then
      match cs with
      | .slot_boot_failed t _ :: cs' => t == tgt && marksFollowLoads tgt cs'
      | _ => false
    else marksFollowLoads tgt cs
  | .slot_boot_failed _ _ :: _ => false
  | _ :: cs => marksFollowLoads tgt cs

/-- The run ended inside the chain-loaded image: control never came back. -/
def Run.isGone {α : Type} : Run α → Bool
  | .gone _ => true
  | _ => false

/-! ## Concrete machines used for witnesses and counterexamples -/

/-- A seed entry whose 32 secret bytes all equal `b`. -/
def sampleSeed (b : Nat) : seed_info_t :=
  { svn := 1, padding := [0, 0, 0], seed := List.replicate 32 b }

/-- Four distinct seed entries. -/
def sampleSeeds : List seed_info_t := [sampleSeed 1, sampleSeed 2, sampleSeed 3, sampleSeed 4]

/-- A block with stale stack content. -/
def sampleBlock : trusty_startup_params_t :=
  { size_of_this_struct := 9, load_base := 9, load_size := 9, num_seeds := 9
    seed_list := List.replicate 4 (sampleSeed 9)
    RotData := List.replicate 56 9
    serial := List.replicate 15 9 }

/-- The firmware's struct with `n` seeds announced. -/
def sampleFirmware (n : Nat) : trusty_boot_params_t :=
  { Version := 1, TrustyMemBase := 0, TrustyMemSize := 0, num_seeds := n
    seed_list := sampleSeeds, RotData := List.replicate 56 0 }

/-- Memory at the entry of `efi_main`'s loop, with `n` seeds announced. -/
def sampleMem (n : Nat) : Mem :=
  { p_trusty_boot_params := sampleFirmware n
    out_key := List.replicate 4 (List.replicate 32 0)
    g_rot_data := List.replicate 56 0
    key := List.replicate 32 0
    trusty_startup_params := sampleBlock }

/-- The state at the entry, with an empty log. -/
def sampleSt (n : Nat) : St := { mem := sampleMem n, log := [] }

/-- A stand-in for the KDF: every byte of the secret plus 16. -/
def sampleKdf (secret : List Nat) : List Nat := secret.map (fun b => (b + 16) % 256)

/-- A world in which storage is keyed to the first seed, every image verifies
GREEN with the label `/boot`, and the chain-load comes back with an error. -/
def sampleEnv : Env :=
  { RPMB_KEY_SIZE := 32
    is_eom_and_secureboot_enabled := fun _ => false
    clear_teedata_flag := fun _ => EFI_SUCCESS
    get_serial_number := fun _ => some (List.replicate 15 65)
    HKDF := fun _ secret _ _ => some (sampleKdf secret)
    rpmb_read_counter := fun _ _ => (EFI_SUCCESS, .RPMB_RES_OK)
    is_rpmb_programed := fun _ => true
    program_rpmb_key := fun _ _ => EFI_SUCCESS
    use_slot := fun _ => false
    slot_get_active := fun _ => none
    slot_label := fun _ l => l
    android_image_load_partition := fun _ _ => (EFI_SUCCESS, 4096)
    slot_boot_failed := fun _ _ => EFI_SUCCESS
    recovery_in_boot_partition := fun _ => false
    slot_recovery_tries_remaining := fun _ => 1
    verify_android_boot_image := fun _ _ => (.BOOT_STATE_GREEN, L_slash_boot, 1)
    load_tos_image := fun _ => (EFI_SUCCESS, 8192)
    get_bootimage_header := fun _ _ => some { page_size := 2048, kernel_size := 100 }
    get_rot_data := fun _ _ _ old => (EFI_SUCCESS, old.map (fun _ => 7))
    heci_end_of_post := fun _ => EFI_SUCCESS
    android_clear_memory := fun _ => EFI_SUCCESS
    is_abl_secure_boot_enabled := fun _ => true
    set_os_secure_boot := fun _ _ => EFI_SUCCESS
    slot_boot := fun _ _ => EFI_SUCCESS
    android_image_start_buffer_abl := fun _ _ _ _ => some (.error 1)
    avb_init := fun _ => true
    read_is_device_unlocked := fun _ => (true, false)
    avb_slot_verify := fun _ _ _ _ =>
      (0, { isNull := false, data := 4096
            header := { page_size := 2048, kernel_size := 100 }, vbmeta := 3 })
    get_avb_result := fun _ _ _ _ s => (EFI_SUCCESS, s)
    avb_vbmeta_image_verify := fun _ _ => (EFI_SUCCESS, 0) }

/-- A production build with the TEE, the local verification backend and
replay-protected storage. -/
def sampleCfg : Config :=
  { USER := true, USE_AVB := false, USE_TRUSTY := true, RPMB_STORAGE := true
    OS_SECURE_BOOT := false, USE_SLOT := false, CRASHMODE_USE_ADB := false
    FORCE_FASTBOOT := false, KERNELFLINGER_BUILD_FOR_SLIMBOOT := false }

/-- The same build with the delegated slot-verification backend. -/
def sampleCfgAvb : Config := { sampleCfg with USE_AVB := true }

/-- Storage is not provisioned, and programming the key fails with
EFI_DEVICE_ERROR. -/
def envProgramFails : Env :=
  { sampleEnv with
    rpmb_read_counter := fun _ _ => (.error 7, .RPMB_RES_NO_AUTH_KEY_PROGRAM)
    is_rpmb_programed := fun _ => false
    program_rpmb_key := fun _ _ => .error 7 }

/-- The KDF fails on the second seed and works on the others. -/
def envKdfFails : Env :=
  { sampleEnv with
    HKDF := fun _ secret _ _ =>
      if secret = List.replicate 32 2 then none else some (sampleKdf secret) }

/-- Storage is provisioned and answers every probe with an authentication
failure. -/
def envAuthFails : Env :=
  { sampleEnv with rpmb_read_counter := fun _ _ => (EFI_ABORTED, .RPMB_RES_AUTH_FAILURE) }

/-- Storage is keyed to the key derived from the second seed. -/
def envKeyedSecond : Env :=
  { sampleEnv with
    rpmb_read_counter := fun _ key =>
      if key = sampleKdf (List.replicate 32 2) then (EFI_SUCCESS, .RPMB_RES_OK)
      else (EFI_ABORTED, .RPMB_RES_AUTH_FAILURE) }

/-- Recovery is folded into the boot partition and the image carries the label
`/recovery`. -/
def envFoldedRecovery : Env :=
  { sampleEnv with
    recovery_in_boot_partition := fun _ => true
    verify_android_boot_image := fun _ _ => (.BOOT_STATE_GREEN, L_slash_recovery, 1) }

/-- The image carries the label `/system`. -/
def envForeignLabel : Env :=
  { sampleEnv with
    verify_android_boot_image := fun _ _ =>
      (.BOOT_STATE_YELLOW, [47, 115, 121, 115, 116, 101, 109], 1) }

/-- The device serial cannot be resolved. -/
def envNoSerial : Env := { sampleEnv with get_serial_number := fun _ => none }

/-- Every image verifies RED. -/
def envRed : Env :=
  { sampleEnv with
    verify_android_boot_image := fun _ _ => (.BOOT_STATE_RED, L_slash_boot, 1)
    get_avb_result := fun _ _ _ _ _ => (EFI_SUCCESS, .BOOT_STATE_RED) }

/-- Storage answers every probe with EFI_SUCCESS, and `is_rpmb_programed()`
says that no key is programmed. -/
def envProbeOkUnprogrammed : Env := { sampleEnv with is_rpmb_programed := fun _ => false }

/-- Every load of a partition fails with EFI_NOT_FOUND. -/
def envLoadFails : Env :=
  { sampleEnv with android_image_load_partition := fun _ _ => (EFI_NOT_FOUND, 0) }

/-- The device is unlocked and every image verifies ORANGE; clearing the memory
fails with EFI_OUT_OF_RESOURCES. -/
def envOrangeClearFails : Env :=
  { sampleEnv with
    verify_android_boot_image := fun _ _ => (.BOOT_STATE_ORANGE, L_slash_boot, 1)
    android_clear_memory := fun _ => EFI_OUT_OF_RESOURCES }

/-- An engineering build with the diagnostic (ADB) backend. -/
def sampleCfgAdb : Config := { sampleCfg with USER := false, CRASHMODE_USE_ADB := true }

/-- The diagnostic service cannot be initialised. -/
def adbInitFails : Adb :=
  { adb_init := .error 7, adb_run := fun _ => EFI_SUCCESS
    adb_get_boot_target := fun _ => .NORMAL_BOOT }

/-- The diagnostic service runs two rounds without a target and fails in the
third. -/
def adbRunFailsLater : Adb :=
  { adb_init := EFI_SUCCESS
    adb_run := fun k => if k < 2 then EFI_SUCCESS else .error 7
    adb_get_boot_target := fun _ => .UNKNOWN_TARGET }

/-- ULONG_MAX of a build whose `unsigned long` has 64 bits. -/
def SAMPLE_ULONG_MAX : Nat := 2 ^ 64 - 1

/-- The value the C library's `strtoul` gives a character as a digit: `0`..`9`,
then the letters of either case from 10 on; `none` for any other character. -/
def sampleDigit (c : Nat) : Option Nat :=
  if 48 ≤ c ∧ c ≤ 57 then some (c - 48)
  else if 65 ≤ c ∧ c ≤ 90 then some (c - 55)
  else if 97 ≤ c ∧ c ≤ 122 then some (c - 87)
  else none

/-- The digit loop of the C library's `strtoul`: it stops at the first character
that is not a digit of the base, and once the value would pass ULONG_MAX it
only remembers that it overflowed. -/
def sample_strtoul_loop (base : Nat) : List Nat → Nat → Bool → Nat × Bool
  | [], acc, ovf => (acc, ovf)
  | c :: s, acc, ovf =>
    match sampleDigit c with
    | none => (acc, ovf)
    | some d =>
      if d ≥ base then (acc, ovf)
      else if ovf = true ∨ acc > SAMPLE_ULONG_MAX / base ∨
          (acc = SAMPLE_ULONG_MAX / base ∧ d > SAMPLE_ULONG_MAX % base) then
        sample_strtoul_loop base s acc true
      else sample_strtoul_loop base s (acc * base + d) false

/-- The C library's `strtoul(nptr, 0, base)` for a 64-bit `unsigned long`: white
space is skipped, a sign and, for base 16, a leading `0x` are taken, the digits
are read, a value past ULONG_MAX gives ULONG_MAX, and a minus sign negates
modulo 2^64. -/
def sample_strtoul (s : List Nat) (base : Nat) : Nat :=
  let s := (cstr s).dropWhile (fun c => c = 32 ∨ (9 ≤ c ∧ c ≤ 13))
  let neg : Bool := s.headD 0 = 45
  let s := if s.headD 0 = 45 ∨ s.headD 0 = 43 then s.tail else s
  let hex : Bool := (base = 0 ∨ base = 16) ∧ s.headD 0 = 48 ∧
    (s.tail.headD 0 = 120 ∨ s.tail.headD 0 = 88)
  let base := if hex then 16 else if base = 0 then (if s.headD 0 = 48 then 8 else 10) else base
  let s := if hex then s.drop 2 else s
  let r := sample_strtoul_loop base s 0 false
  if r.2 then SAMPLE_ULONG_MAX else if neg then (2 ^ 64 - r.1) % 2 ^ 64 else r.1

/-- A library: `str_to_stra` copies the characters and terminates them,
`strtoul` is the C library's for a 64-bit `unsigned long`, the enum is numbered
from NORMAL_BOOT = 0 with CRASHMODE = 10, and the names `recovery`, `fastboot`
and `bootloader` are known. -/
def sampleLib : Lib :=
  { str_to_stra := fun _ src len => (src.take (len - 1)).map (fun c => c % 256) ++ [0]
    strtoul := sample_strtoul
    boot_target_of_code := fun n =>
      if n = 0 then .NORMAL_BOOT else if n = 1 then .RECOVERY else if n = 2 then .FASTBOOT
      else if n = 10 then .CRASHMODE else .other n
    stra_to_str := fun s => some s
    name_to_boot_target := fun name =>
      if name = ascii "recovery" then .RECOVERY
      else if name = ascii "fastboot" ∨ name = ascii "bootloader" then .FASTBOOT
      else .UNKNOWN_TARGET
    efi_snprintf := fun _ => ascii "androidboot.serialno=A gpt" }

/-- Statics at the entry of `efi_main`: all zero. -/
def sampleStatics : Statics := { cmd_buf := fun _ => 0, bootMode := 0, p_trusty_boot_params := 0 }

/-- A 32-byte field holding the string `s`. -/
def sampleField (s : String) : List Nat := ascii s ++ List.replicate (32 - (ascii s).length) 0

/-- A BCB record with the command `bootonce-recovery` and a stale status. -/
def bcbBootonceRecovery : bootloader_message :=
  { command := sampleField "bootonce-recovery", status := sampleField "OKAY" }

/-- The token `ABL.boot_target=CRASHMODE`. -/
def crashmodeToken : List Nat := ascii "ABL.boot_target=CRASHMODE"

/-- A command line of sixteen tokens of 254 characters each, followed by the
token `ABL.boot_target=CRASHMODE`. -/
def argvLongThenCrashmode : List (List Nat) :=
  List.replicate 16 (List.replicate 254 97) ++ [crashmodeToken]

/-- Multi-slot mode with two slots: a slot is active until the second one has
been marked failed, and every load of a partition fails with EFI_DEVICE_ERROR
(error code 7). -/
def envSlotsExhaust : Env :=
  { sampleEnv with
    use_slot := fun _ => true
    slot_get_active := fun t => if t < 4 then some [95, 97] else none
    android_image_load_partition := fun _ _ => (.error 7, 0) }

/-- Multi-slot mode, a distinct recovery partition, and no recovery tries left. -/
def envRecoveryNoTries : Env :=
  { sampleEnv with
    use_slot := fun _ => true
    slot_get_active := fun _ => some [95, 97]
    recovery_in_boot_partition := fun _ => false
    slot_recovery_tries_remaining := fun _ => 0 }

/-- Multi-slot mode with no active slot left. -/
def envNoSlotLeft : Env :=
  { sampleEnv with
    use_slot := fun _ => true
    slot_get_active := fun _ => none }

/-- The chain-load takes: `android_image_start_buffer_abl` does not come back. -/
def envBoots : Env := { sampleEnv with android_image_start_buffer_abl := fun _ _ _ _ => none }

set_option linter.unusedTactic false
set_option linter.unreachableTactic false

/-! ## Lemmas on the log -/

@[simp] theorem emit_log (st : St) (c : Call) :
    (st.emit c).log = st.log ++ [{ call := c, mem := st.mem }] := rfl

@[simp] theorem emit_mem (st : St) (c : Call) : (st.emit c).mem = st.mem := rfl

@[simp] theorem emit_now (st : St) (c : Call) : (st.emit c).now = st.now + 1 := by
  simp [St.now]

theorem LogGrows.refl (P : Event → Prop) (l : List Event) : LogGrows P l l :=
  ⟨[], by simp, by simp⟩

theorem LogGrows.trans {P : Event → Prop} {a b c : List Event} (h1 : LogGrows P a b)
    (h2 : LogGrows P b c) : LogGrows P a c := by
  obtain ⟨e1, l1, p1⟩ := h1
  obtain ⟨e2, l2, p2⟩ := h2
  refine ⟨e1 ++ e2, by rw [l2, l1, List.append_assoc], ?_⟩
  intro e he
  rcases List.mem_append.mp he with h | h
  · exact p1 e h
  · exact p2 e h

theorem LogGrows.emit {P : Event → Prop} (st : St) (c : Call)
    (h : P { call := c, mem := st.mem }) : LogGrows P st.log (st.emit c).log :=
  ⟨[_], rfl, by simpa using h⟩

theorem LogGrows.mono {P Q : Event → Prop} {a b : List Event} (h : LogGrows P a b)
    (hPQ : ∀ e, P e → Q e) : LogGrows Q a b := by
  obtain ⟨evs, l, p⟩ := h
  exact ⟨evs, l, fun e he => hPQ e (p e he)⟩

/-- A call that breaks `P` and is in the grown log was already in the old one. -/
theorem LogGrows.mem_old {P : Event → Prop} {a b : List Event} (h : LogGrows P a b) {c : Call}
    (hc : ∀ m, ¬ P { call := c, mem := m }) (hin : c ∈ callsOf b) : c ∈ callsOf a := by
  obtain ⟨evs, l, p⟩ := h
  subst l
  simp only [callsOf, List.map_append, List.mem_append, List.mem_map] at hin ⊢
  rcases hin with h | ⟨e, he, rfl⟩
  · exact h
  · exact absurd (p e he) (hc e.mem)


/-! ## KeyDerivationService -/

theorem probes_append (a b : List Event) : probes (a ++ b) = probes a ++ probes b := by
  simp [probes, List.filterMap_append]

theorem kdfs_append (a b : List Event) : kdfs (a ++ b) = kdfs a ++ kdfs b := by
  simp [kdfs, List.filterMap_append]

/-- What one round of key derivation does, for an index below the seed count. -/
theorem derive_rpmb_key_with_index_spec (env : Env) (st : St) (i : Nat) (kbuf : List Nat)
    (hi : i < st.mem.p_trusty_boot_params.num_seeds) :
    ∃ evs, (derive_rpmb_key_with_index env st i kbuf).2.2 =
        { mem := st.mem, log := st.log ++ evs } ∧
      probes evs = [] ∧
      ((derive_rpmb_key_with_index env st i kbuf).1 = EFI_SUCCESS →
        kdfs evs = [(seedSecret env st.mem i, some (derive_rpmb_key_with_index env st i kbuf).2.1)]) ∧
      ((derive_rpmb_key_with_index env st i kbuf).1 ≠ EFI_SUCCESS →
        (kdfs evs).length ≤ 1 ∧ ∀ k ∈ kdfs evs, k = (seedSecret env st.mem i, none)) := by
  unfold derive_rpmb_key_with_index
  cases hs : env.get_serial_number st.now with
  | none =>
    refine ⟨[], by simp, rfl, ?_, ?_⟩
    · intro h; simp [EFI_NOT_FOUND, EFI_SUCCESS] at h
    · intro _; simp [kdfs]
  | some serialno =>
    simp only [hi, if_true]
    split
    · rename_i hout
      refine ⟨[_], rfl, rfl, ?_, ?_⟩
      · intro h; simp [EFI_INVALID_PARAMETER, EFI_SUCCESS] at h
      · intro _
        simp [kdfs, hout]
    · rename_i key hout
      refine ⟨[_], rfl, rfl, ?_, ?_⟩
      · intro _
        simp [kdfs, hout]
      · intro h; exact absurd rfl h

/-- What the derivation loop does: it logs one KDF call per seed, in index
order, and on success leaves each output in its row of the table. -/
theorem get_rpmb_derived_key_loop_spec (env : Env) (n : Nat) :
    ∀ (i : Nat) (kbuf : List (List Nat)) (st : St) (r : EFI_STATUS × List (List Nat) × St),
      get_rpmb_derived_key_loop env n i kbuf st = r →
      i + n ≤ st.mem.p_trusty_boot_params.num_seeds → i + n ≤ 256 → i + n ≤ kbuf.length →
      ∃ evs, r.2.2 = { mem := st.mem, log := st.log ++ evs } ∧ probes evs = [] ∧
        (kdfs evs).map (fun k => k.1) =
          (List.range' i (kdfs evs).length).map (seedSecret env st.mem) ∧
        (kdfs evs).length ≤ n ∧
        r.2.1.length = kbuf.length ∧
        (∀ j, j < i → r.2.1.getD j [] = kbuf.getD j []) ∧
        (r.1 = EFI_SUCCESS →
          (kdfs evs).map (fun k => k.2) = (List.range' i n).map (fun j => some (r.2.1.getD j []))) ∧
        (r.1 ≠ EFI_SUCCESS →
          EFI_ERROR r.1 = true ∧ ((kdfs evs).filterMap (fun k => k.2)).length < n) := by
  induction n with
  | zero =>
    intro i kbuf st r hr _ _ _
    simp only [get_rpmb_derived_key_loop] at hr
    subst hr
    exact ⟨[], by simp, rfl, by simp [kdfs], by simp [kdfs], rfl, fun _ _ => rfl,
      fun _ => by simp [kdfs], fun h => absurd rfl h⟩
  | succ n ih =>
    intro i kbuf st r hr hn h256 hk
    have hi : i < st.mem.p_trusty_boot_params.num_seeds := by omega
    have hmod : i % 256 = i := Nat.mod_eq_of_lt (by omega)
    obtain ⟨evs1, hst1, hp1, hok1, hbad1⟩ :=
      derive_rpmb_key_with_index_spec env st i (kbuf.getD i []) hi
    simp only [get_rpmb_derived_key_loop, hmod] at hr
    generalize hd : derive_rpmb_key_with_index env st i (kbuf.getD i []) = d at hr hst1 hok1 hbad1
    obtain ⟨ret, row, st1⟩ := d
    simp only at hr hst1 hok1 hbad1
    subst hst1
    by_cases hret : EFI_SUCCESS = ret
    · subst hret
      simp only [ne_eq, not_true_eq_false, if_false] at hr
      obtain ⟨evs2, hst2, hp2, hsec2, hlen2, hkl2, hlow2, hok2, hbad2⟩ :=
        ih (i + 1) (kbuf.set i row) _ r hr (by simpa using by omega) (by omega)
          (by simp; omega)
      have hk1 := hok1 rfl
      have hrow : r.2.1.getD i [] = row := by
        rw [hlow2 i (by omega)]
        simp [List.getD, List.getElem?_set, show i < kbuf.length by omega]
      refine ⟨evs1 ++ evs2, ?_, ?_, ?_, ?_, ?_, ?_, ?_, ?_⟩
      · rw [hst2]; simp
      · simp [probes_append, hp1, hp2]
      · simp only [kdfs_append, hk1, List.map_append, List.map_cons, List.map_nil,
          List.length_append, List.length_cons, List.length_nil, List.singleton_append]
        simp only at hsec2
        rw [hsec2, List.range'_succ, List.map_cons]
      · simp only [kdfs_append, hk1, List.length_append, List.length_cons, List.length_nil]
        omega
      · rw [hkl2]; simp
      · intro j hj
        rw [hlow2 j (by omega)]
        simp [List.getD, List.getElem?_set, show i ≠ j by omega]
      · intro hs
        simp only [kdfs_append, hk1, List.map_append, List.map_cons, List.map_nil,
          List.singleton_append, hok2 hs, List.range'_succ, hrow]
      · intro hs
        obtain ⟨he, hl⟩ := hbad2 hs
        refine ⟨he, ?_⟩
        simp only [kdfs_append, hk1, List.filterMap_append, List.length_append]
        simp only [List.filterMap_cons, List.filterMap_nil, List.length_cons, List.length_nil]
        omega
    · simp only [ne_eq, hret, not_false_eq_true, if_true] at hr
      subst hr
      obtain ⟨hle, hall⟩ := hbad1 (fun h => hret h.symm)
      refine ⟨evs1, rfl, hp1, ?_, by omega, by simp, ?_, ?_, ?_⟩
      · match hkd : kdfs evs1, hle, hall with
        | [], _, _ => simp
        | [k], _, hall =>
          have := hall k (by simp)
          subst this
          simp [List.range'_succ]
        | _ :: _ :: _, hle, _ => simp at hle
      · intro j hj
        simp [List.getD, List.getElem?_set, show i ≠ j by omega]
      · intro h; simp [EFI_INVALID_PARAMETER, EFI_SUCCESS] at h
      · intro _
        refine ⟨rfl, ?_⟩
        have : (kdfs evs1).filterMap (fun k => k.2) = [] := by
          rw [List.filterMap_eq_nil_iff]
          intro k hk
          rw [hall k hk]
        rw [this]; simp

theorem probes_one (ev : Event) (k : List Nat) (a : EFI_STATUS) (b : RPMB_RESPONSE_RESULT)
    (h : ev.call = .rpmb_read_counter k a b) : probes [ev] = [(k, a, b)] ∧ kdfs [ev] = [] := by
  simp [probes, kdfs, h]

theorem probes_cons_one (ev : Event) (evs : List Event) (k : List Nat) (a : EFI_STATUS)
    (b : RPMB_RESPONSE_RESULT) (h : ev.call = .rpmb_read_counter k a b) :
    probes (ev :: evs) = (k, a, b) :: probes evs ∧ kdfs (ev :: evs) = kdfs evs := by
  rw [← List.singleton_append, probes_append, kdfs_append, (probes_one ev k a b h).1,
    (probes_one ev k a b h).2]
  exact ⟨rfl, rfl⟩

/-- A single probe that ends the loop. -/
theorem probe_stop (n i : Nat) (out_key : List (List Nat)) (ev : Event) (a : EFI_STATUS)
    (b : RPMB_RESPONSE_RESULT) (h : ev.call = .rpmb_read_counter (out_key.getD i []) a b)
    (hstop : ¬ reportsAuthFailure (out_key.getD i [], a, b)) :
    kdfs [ev] = [] ∧
    (probes [ev]).map (fun p => p.1) =
      (List.range' i (probes [ev]).length).map (fun j => out_key.getD j []) ∧
    (probes [ev]).length ≤ n + 1 ∧
    (0 < n + 1 → probes [ev] ≠ []) ∧
    (probes [ev] = [] ∨ ∃ front last, probes [ev] = front ++ [last] ∧
      (∀ p ∈ front, reportsAuthFailure p) ∧
      ((probes [ev]).length < n + 1 → ¬ reportsAuthFailure last)) := by
  obtain ⟨hp, hk⟩ := probes_one ev _ a b h
  refine ⟨hk, ?_, ?_, ?_, ?_⟩
  · simp [hp, List.range'_succ]
  · simp [hp]
  · simp [hp]
  · exact Or.inr ⟨[], _, by rw [hp]; rfl, by simp, fun _ => hstop⟩

/-- What the probing loop does: it probes the rows of the table in index order,
goes on only after an authentication failure, and stops at the first probe
that reports anything else. -/
theorem probe_loop_spec (env : Env) (n : Nat) :
    ∀ (i : Nat) (ret : EFI_STATUS) (st : St) (e : ProbeExit),
      probe_loop env n i ret st = e →
      ∃ evs, e.st.log = st.log ++ evs ∧ e.st.mem.out_key = st.mem.out_key ∧ kdfs evs = [] ∧
        (probes evs).map (fun p => p.1) =
          (List.range' i (probes evs).length).map (fun j => st.mem.out_key.getD j []) ∧
        (probes evs).length ≤ n ∧
        (0 < n → probes evs ≠ []) ∧
        (probes evs = [] ∨ ∃ front last, probes evs = front ++ [last] ∧
          (∀ p ∈ front, reportsAuthFailure p) ∧
          ((probes evs).length < n → ¬ reportsAuthFailure last)) := by
  induction n with
  | zero =>
    intro i ret st e he
    simp only [probe_loop] at he
    subst he
    exact ⟨[], by simp, rfl, rfl, by simp [probes], by simp [probes], fun h => absurd h (by omega),
      Or.inl rfl⟩
  | succ n ih =>
    intro i ret st e he
    simp only [probe_loop] at he
    generalize hr : env.rpmb_read_counter
      (St.now { mem := { st.mem with key := st.mem.out_key.getD i [] }, log := st.log })
      (st.mem.out_key.getD i []) = r at he
    by_cases h1 : r.1 = EFI_SUCCESS
    · simp only [h1, if_true] at he
      subst he
      exact ⟨[_], rfl, rfl, probe_stop n i st.mem.out_key _ _ _ rfl (fun hf => hf.1 rfl)⟩
    · by_cases h2 : r.2 = .RPMB_RES_NO_AUTH_KEY_PROGRAM
      · simp only [h1, h2, if_true, if_false] at he
        subst he
        exact ⟨[_], rfl, rfl, probe_stop n i st.mem.out_key _ _ _ rfl
          (fun hf => by have := hf.2; simp at this)⟩
      · by_cases h3 : r.2 = .RPMB_RES_AUTH_FAILURE
        · simp only [h1, h2, h3, ne_eq, not_true_eq_false, if_false] at he
          obtain ⟨evs2, hl2, hk2, hkd2, hkeys2, hlen2, hne2, hseq2⟩ := ih (i + 1) _ _ e he
          simp only [emit_log, emit_mem] at hl2 hk2 hkeys2
          have hauth : reportsAuthFailure (st.mem.out_key.getD i [], r.1,
              RPMB_RESPONSE_RESULT.RPMB_RES_AUTH_FAILURE) := ⟨h1, rfl⟩
          refine ⟨_ :: evs2, by rw [hl2, List.append_assoc]; rfl, hk2, ?_, ?_, ?_, ?_, ?_⟩
          · rw [(probes_cons_one _ evs2 _ _ _ rfl).2, hkd2]
          · rw [(probes_cons_one _ evs2 _ _ _ rfl).1]
            simp only [List.map_cons, List.length_cons, List.range'_succ]
            rw [hkeys2]
          · rw [(probes_cons_one _ evs2 _ _ _ rfl).1]
            simp only [List.length_cons]
            omega
          · intro _
            rw [(probes_cons_one _ evs2 _ _ _ rfl).1]
            simp
          · rw [(probes_cons_one _ evs2 _ _ _ rfl).1]
            rcases hseq2 with hnil | ⟨front, last, hfl, hfront, hlast⟩
            · refine Or.inr ⟨[], _, by rw [hnil]; rfl, by simp, ?_⟩
              intro hlt
              rw [hnil] at hlt
              simp only [List.length_cons, List.length_nil] at hlt
              exact absurd hnil (hne2 (by omega))
            · refine Or.inr ⟨_ :: front, last, by rw [hfl]; rfl, ?_, ?_⟩
              · intro p hp
                rcases List.mem_cons.mp hp with rfl | hp
                · exact hauth
                · exact hfront p hp
              · intro hlt
                apply hlast
                simp only [List.length_cons] at hlt
                omega
        · simp only [h1, h2, h3, ne_eq, not_false_eq_true, if_true, if_false] at he
          subst he
          exact ⟨[_], rfl, rfl, probe_stop n i st.mem.out_key _ _ _ rfl (fun hf => h3 hf.2)⟩

theorem osloader_rpmb_key_init_tail_log (cfg : Config) (env : Env) (ret : EFI_STATUS) (st : St) :
    ∃ evs, (osloader_rpmb_key_init_tail cfg env ret st).2.log = st.log ++ evs ∧
      probes evs = [] ∧ kdfs evs = [] := by
  unfold osloader_rpmb_key_init_tail
  split
  · simp only []
    split
    · refine ⟨[_], rfl, ?_, ?_⟩ <;> rfl
    · refine ⟨[{ call := .program_rpmb_key st.mem.key (env.program_rpmb_key st.now st.mem.key)
                 mem := st.mem }], ?_, rfl, rfl⟩
      split <;> rfl
  · refine ⟨[{ call := .set_rpmb_key st.mem.key, mem := st.mem }], ?_, rfl, rfl⟩
    simp only []
    split <;> rfl

/-- The probing discipline of `osloader_rpmb_key_init`, stated on the calls it
adds to the log, from the call of `get_rpmb_derived_key` on. -/
theorem osloader_rpmb_key_init_keys_order (cfg : Config) (env : Env) (st : St)
    (h1 : 1 ≤ st.mem.p_trusty_boot_params.num_seeds)
    (h4 : st.mem.p_trusty_boot_params.num_seeds ≤ 4) (hrows : st.mem.out_key.length = 4) :
    ∃ evs, (osloader_rpmb_key_init_keys cfg env st).2.log = st.log ++ evs ∧
      (kdfs evs).map (fun k => k.1) = (List.range (kdfs evs).length).map (seedSecret env st.mem) ∧
      (probes evs).length ≤ st.mem.p_trusty_boot_params.num_seeds ∧
      (probes evs).map (fun p => some p.1) =
        ((kdfs evs).map (fun k => k.2)).take (probes evs).length ∧
      (probes evs = [] ∨ ∃ front last, probes evs = front ++ [last] ∧
        (∀ p ∈ front, reportsAuthFailure p) ∧
        ((probes evs).length < st.mem.p_trusty_boot_params.num_seeds →
          ¬ reportsAuthFailure last)) ∧
      (((kdfs evs).filterMap (fun k => k.2)).length = st.mem.p_trusty_boot_params.num_seeds →
        probes evs ≠ []) := by
  unfold osloader_rpmb_key_init_keys get_rpmb_derived_key
  have hsz : ¬ (BOOTLOADER_SEED_MAX_ENTRIES * env.RPMB_KEY_SIZE <
      st.mem.p_trusty_boot_params.num_seeds * env.RPMB_KEY_SIZE % 2 ^ 32) := by
    have := Nat.mod_le (st.mem.p_trusty_boot_params.num_seeds * env.RPMB_KEY_SIZE) (2 ^ 32)
    have := Nat.mul_le_mul_right env.RPMB_KEY_SIZE h4
    simp only [BOOTLOADER_SEED_MAX_ENTRIES]
    omega
  simp only [hsz, if_false]
  obtain ⟨evs1, hst1, hp1, hsec1, hlen1, hkl1, -, hok1, hbad1⟩ :=
    get_rpmb_derived_key_loop_spec env st.mem.p_trusty_boot_params.num_seeds 0 st.mem.out_key st _
      rfl (by omega) (by omega) (by omega)
  generalize get_rpmb_derived_key_loop env st.mem.p_trusty_boot_params.num_seeds 0
    st.mem.out_key st = d at hst1 hkl1 hok1 hbad1
  obtain ⟨ret, kbuf, st1⟩ := d
  simp only at hst1 hkl1 hok1 hbad1 ⊢
  subst hst1
  rw [← List.range_eq_range'] at hsec1
  by_cases hret : ret = EFI_SUCCESS
  · subst hret
    have hk := hok1 rfl
    simp only [EFI_ERROR, EFI_SUCCESS, Bool.false_eq_true, if_false]
    obtain ⟨evs2, hl2, hk2, hkd2, hkeys2, hlen2, hne2, hseq2⟩ :=
      probe_loop_spec env st.mem.p_trusty_boot_params.num_seeds 0 EFI_STATUS.success
        { mem := { st.mem with out_key := kbuf }, log := st.log ++ evs1 } _ rfl
    generalize probe_loop env st.mem.p_trusty_boot_params.num_seeds 0 EFI_STATUS.success
      { mem := { st.mem with out_key := kbuf }, log := st.log ++ evs1 } = e at hl2 hk2
    simp only at hl2 hk2 hkeys2
    have hkeys : (probes evs2).map (fun p => some p.1) =
        ((kdfs evs1).map (fun k => k.2)).take (probes evs2).length := by
      rw [hk, ← List.range_eq_range', ← List.map_take, List.take_range, Nat.min_eq_left hlen2]
      rw [← List.range_eq_range'] at hkeys2
      have := congrArg (List.map some) hkeys2
      simpa [List.map_map, Function.comp_def] using this
    have hfin : ∀ evs3 (l : List Event), l = (st.log ++ evs1 ++ evs2) ++ evs3 → probes evs3 = [] →
        kdfs evs3 = [] → ∃ evs, l = st.log ++ evs ∧
        (kdfs evs).map (fun k => k.1) = (List.range (kdfs evs).length).map (seedSecret env st.mem) ∧
        (probes evs).length ≤ st.mem.p_trusty_boot_params.num_seeds ∧
        (probes evs).map (fun p => some p.1) =
          ((kdfs evs).map (fun k => k.2)).take (probes evs).length ∧
        (probes evs = [] ∨ ∃ front last, probes evs = front ++ [last] ∧
          (∀ p ∈ front, reportsAuthFailure p) ∧
          ((probes evs).length < st.mem.p_trusty_boot_params.num_seeds →
            ¬ reportsAuthFailure last)) ∧
        (((kdfs evs).filterMap (fun k => k.2)).length = st.mem.p_trusty_boot_params.num_seeds →
          probes evs ≠ []) := by
      intro evs3 l hl hp3 hk3
      refine ⟨evs1 ++ evs2 ++ evs3, by rw [hl]; simp, ?_⟩
      simp only [probes_append, kdfs_append, hp1, hp3, hkd2, hk3, List.append_nil, List.nil_append]
      exact ⟨hsec1, hlen2, hkeys, hseq2, fun _ => hne2 (by omega)⟩
    split
    · exact hfin [] _ (by simp [err_get_rpmb_key, hl2]) rfl rfl
    · split
      · exact hfin [] _ (by simp [err_get_rpmb_key, hl2]) rfl rfl
      · obtain ⟨evs3, hl3, hp3, hk3⟩ := osloader_rpmb_key_init_tail_log cfg env e.ret e.st
        exact hfin evs3 _ (by rw [hl3, hl2]) hp3 hk3
  · obtain ⟨herr, hlt⟩ := hbad1 hret
    simp only [herr, if_true]
    refine ⟨evs1, rfl, hsec1, ?_, ?_, Or.inl hp1, ?_⟩
    · simp [hp1]
    · simp [hp1]
    · intro h; omega

/-- One round of key derivation when the serial resolves and the KDF is `derive`. -/
theorem derive_rpmb_key_with_index_ok (env : Env) (derive : List Nat → List Nat) (st : St)
    (i : Nat) (kbuf : List Nat) (hi : i < st.mem.p_trusty_boot_params.num_seeds)
    (hserial : ∀ t, env.get_serial_number t ≠ none)
    (hkdf : ∀ t secret salt info, env.HKDF t secret salt info = some (derive secret)) :
    ∃ ev, derive_rpmb_key_with_index env st i kbuf =
        (EFI_SUCCESS, derive (seedSecret env st.mem i), { mem := st.mem, log := st.log ++ [ev] }) ∧
      probes [ev] = [] := by
  unfold derive_rpmb_key_with_index
  cases hs : env.get_serial_number st.now with
  | none => exact absurd hs (hserial _)
  | some serialno =>
    simp only [hi, if_true, hkdf]
    exact ⟨_, rfl, rfl⟩

/-- Three rounds of key derivation when the serial resolves and the KDF is
`derive`: the first three rows of the table hold the three derived keys. -/
theorem get_rpmb_derived_key_loop_three (env : Env) (derive : List Nat → List Nat) (st : St)
    (h3 : st.mem.p_trusty_boot_params.num_seeds = 3)
    (hrows : st.mem.out_key.length = 4)
    (hserial : ∀ t, env.get_serial_number t ≠ none)
    (hkdf : ∀ t secret salt info, env.HKDF t secret salt info = some (derive secret)) :
    ∃ evs, get_rpmb_derived_key_loop env 3 0 st.mem.out_key st =
      (EFI_SUCCESS, [derive (seedSecret env st.mem 0), derive (seedSecret env st.mem 1),
        derive (seedSecret env st.mem 2), st.mem.out_key.getD 3 []],
        { mem := st.mem, log := st.log ++ evs }) ∧ probes evs = [] := by
  obtain ⟨r0, r1, r2, r3, hr⟩ : ∃ r0 r1 r2 r3, st.mem.out_key = [r0, r1, r2, r3] := by
    match h : st.mem.out_key, hrows with
    | [a, b, c, d], _ => exact ⟨a, b, c, d, rfl⟩
  obtain ⟨e0, h0, p0⟩ := derive_rpmb_key_with_index_ok env derive st 0 r0 (by omega) hserial hkdf
  obtain ⟨e1, h1, p1⟩ := derive_rpmb_key_with_index_ok env derive
    { mem := st.mem, log := st.log ++ [e0] } 1 r1 (by simp only; omega) hserial hkdf
  obtain ⟨e2, h2, p2⟩ := derive_rpmb_key_with_index_ok env derive
    { mem := st.mem, log := st.log ++ [e0] ++ [e1] } 2 r2 (by simp only; omega) hserial hkdf
  refine ⟨[e0] ++ [e1] ++ [e2], ?_, ?_⟩
  · rw [hr]
    have hs : (EFI_SUCCESS ≠ EFI_SUCCESS) = False := by simp
    simp only [get_rpmb_derived_key_loop, Nat.zero_mod, List.getD_cons_zero, h0, hs, if_false,
      List.set_cons_zero, Nat.zero_add, Nat.one_mod, List.getD_cons_succ, h1, List.set_cons_succ,
      Nat.reduceAdd, Nat.reduceMod, h2]
    simp only [List.append_assoc]
  · rw [probes_append, probes_append, p0, p1, p2]; rfl

/-- With three seeds, a working KDF and storage keyed to the second derived key,
the probes are exactly the first and the second derived key. -/
theorem osloader_rpmb_key_init_keys_second (cfg : Config) (env : Env)
    (derive : List Nat → List Nat) (st : St)
    (h3 : st.mem.p_trusty_boot_params.num_seeds = 3)
    (hrows : st.mem.out_key.length = 4)
    (hserial : ∀ t, env.get_serial_number t ≠ none)
    (hkdf : ∀ t secret salt info, env.HKDF t secret salt info = some (derive secret))
    (hne : derive (seedSecret env st.mem 0) ≠ derive (seedSecret env st.mem 1))
    (hhit : ∀ t, (env.rpmb_read_counter t (derive (seedSecret env st.mem 1))).1 = EFI_SUCCESS)
    (hmiss : ∀ t key, key ≠ derive (seedSecret env st.mem 1) →
      reportsAuthFailure (key, env.rpmb_read_counter t key)) :
    ∃ evs, (osloader_rpmb_key_init_keys cfg env st).2.log = st.log ++ evs ∧
      (probes evs).map (fun p => p.1) =
        [derive (seedSecret env st.mem 0), derive (seedSecret env st.mem 1)] := by
  obtain ⟨evs1, hd, hp1⟩ := get_rpmb_derived_key_loop_three env derive st h3 hrows hserial hkdf
  have hsz : ¬ (BOOTLOADER_SEED_MAX_ENTRIES * env.RPMB_KEY_SIZE < 3 * env.RPMB_KEY_SIZE % 2 ^ 32) := by
    have := Nat.mod_le (3 * env.RPMB_KEY_SIZE) (2 ^ 32)
    simp only [BOOTLOADER_SEED_MAX_ENTRIES]
    omega
  unfold osloader_rpmb_key_init_keys get_rpmb_derived_key
  simp only [h3, hsz, if_false, hd]
  have ha : ∀ t, (env.rpmb_read_counter t (derive (seedSecret env st.mem 0))).2 =
      .RPMB_RES_AUTH_FAILURE := fun t => (hmiss t _ hne).2
  have hb : ∀ t, ((env.rpmb_read_counter t (derive (seedSecret env st.mem 0))).1 = EFI_SUCCESS) =
      False := fun t => eq_false (hmiss t _ hne).1
  have hc : (RPMB_RESPONSE_RESULT.RPMB_RES_AUTH_FAILURE =
      RPMB_RESPONSE_RESULT.RPMB_RES_NO_AUTH_KEY_PROGRAM) = False := by simp
  have e1 : EFI_ERROR EFI_SUCCESS = false := rfl
  have e4 : ((0 + 1 : Nat) ≥ 4) = False := by simp
  simp only [e1, Bool.false_eq_true, if_false, probe_loop, List.getD_cons_zero, ha, hb, hc,
    emit_mem, List.getD_cons_succ, hhit, if_true, ne_eq, not_true_eq_false,
    BOOTLOADER_SEED_MAX_ENTRIES, e4]
  have key : ∀ X : St,
      (∃ evs2, X.log = st.log ++ evs2 ∧ (probes evs2).map (fun p => p.1) =
        [derive (seedSecret env st.mem 0), derive (seedSecret env st.mem 1)]) →
      ∃ evs, (osloader_rpmb_key_init_tail cfg env EFI_SUCCESS X).2.log = st.log ++ evs ∧
        (probes evs).map (fun p => p.1) =
          [derive (seedSecret env st.mem 0), derive (seedSecret env st.mem 1)] := by
    rintro X ⟨evs2, hX, hP⟩
    obtain ⟨evs3, hl3, hp3, -⟩ := osloader_rpmb_key_init_tail_log cfg env EFI_SUCCESS X
    exact ⟨evs2 ++ evs3, by rw [hl3, hX, List.append_assoc], by
      rw [probes_append, hp3, List.append_nil]; exact hP⟩
  apply key
  simp only [emit_log, List.append_assoc]
  refine ⟨_, rfl, ?_⟩
  rw [probes_append, hp1]
  rfl
/-- The probing discipline, on the whole log, when nothing was probed or
derived before `get_rpmb_derived_key` is called. -/
theorem osloader_rpmb_key_init_keys_total (cfg : Config) (env : Env) (st : St) (log : List Event)
    (hlog : (osloader_rpmb_key_init_keys cfg env st).2.log = log)
    (hp0 : probes st.log = []) (hk0 : kdfs st.log = [])
    (h1 : 1 ≤ st.mem.p_trusty_boot_params.num_seeds)
    (h4 : st.mem.p_trusty_boot_params.num_seeds ≤ 4) (hrows : st.mem.out_key.length = 4) :
    ((kdfs log).map (fun k => k.1) = (List.range (kdfs log).length).map (seedSecret env st.mem) ∧
      (probes log).length ≤ st.mem.p_trusty_boot_params.num_seeds ∧
      (probes log).map (fun p => some p.1) =
        ((kdfs log).map (fun k => k.2)).take (probes log).length ∧
      (probes log = [] ∨ ∃ front last, probes log = front ++ [last] ∧
        (∀ p ∈ front, reportsAuthFailure p) ∧
        ((probes log).length < st.mem.p_trusty_boot_params.num_seeds →
          ¬ reportsAuthFailure last)) ∧
      (((kdfs log).filterMap (fun k => k.2)).length = st.mem.p_trusty_boot_params.num_seeds →
        probes log ≠ [])) ∧
    (∀ derive : List Nat → List Nat,
      st.mem.p_trusty_boot_params.num_seeds = 3 →
      (∀ t, env.get_serial_number t ≠ none) →
      (∀ t secret salt info, env.HKDF t secret salt info = some (derive secret)) →
      derive (seedSecret env st.mem 0) ≠ derive (seedSecret env st.mem 1) →
      (∀ t, (env.rpmb_read_counter t (derive (seedSecret env st.mem 1))).1 = EFI_SUCCESS) →
      (∀ t key, key ≠ derive (seedSecret env st.mem 1) →
        reportsAuthFailure (key, env.rpmb_read_counter t key)) →
      (probes log).map (fun p => p.1) =
        [derive (seedSecret env st.mem 0), derive (seedSecret env st.mem 1)]) := by
  constructor
  · obtain ⟨evs, hl, h⟩ := osloader_rpmb_key_init_keys_order cfg env st h1 h4 hrows
    rw [hlog] at hl
    subst hl
    simpa only [probes_append, kdfs_append, hp0, hk0, List.nil_append] using h
  · intro derive h3 hserial hkdf hne hhit hmiss
    obtain ⟨evs, hl, h⟩ := osloader_rpmb_key_init_keys_second cfg env derive st h3 hrows hserial
      hkdf hne hhit hmiss
    rw [hlog] at hl
    subst hl
    simpa only [probes_append, hp0, List.nil_append] using h

/-- C1, the code at two inputs it can receive.  First: one seed, storage not
yet provisioned, and `program_rpmb_key` fails; the function returns through
`return ret` and both `key` and row 0 of `out_key` still hold the derived key.
Second: two seeds and the KDF fails on the second; the function returns right
after `get_rpmb_derived_key` and row 0 of `out_key` still holds the first
derived key. -/
theorem osloader_rpmb_key_init_early_return_keeps_keys :
    (osloader_rpmb_key_init sampleCfg envProgramFails (sampleSt 1)).1 = .error 7 ∧
    (osloader_rpmb_key_init sampleCfg envProgramFails (sampleSt 1)).2.mem.key =
      sampleKdf (List.replicate 32 1) ∧
    (osloader_rpmb_key_init sampleCfg envProgramFails (sampleSt 1)).2.mem.out_key =
      [sampleKdf (List.replicate 32 1), List.replicate 32 0, List.replicate 32 0,
        List.replicate 32 0] ∧
    ¬ allZero (osloader_rpmb_key_init sampleCfg envProgramFails (sampleSt 1)).2.mem.key ∧
    (osloader_rpmb_key_init sampleCfg envKdfFails (sampleSt 2)).1 = EFI_INVALID_PARAMETER ∧
    (osloader_rpmb_key_init sampleCfg envKdfFails (sampleSt 2)).2.mem.out_key =
      [sampleKdf (List.replicate 32 1), List.replicate 32 0, List.replicate 32 0,
        List.replicate 32 0] ∧
    ¬ allZero (sampleKdf (List.replicate 32 1)) := by
  decide

/-- C2, the code at an input it can receive: one seed, storage provisioned with
another key, so the only probe reports an authentication failure.  The loop
ends with `i = 1`, the test `i >= BOOTLOADER_SEED_MAX_ENTRIES` does not fire,
and the unmatched key is made the active key by `set_rpmb_key`. -/
theorem osloader_rpmb_key_init_unmatched_key_is_set :
    probes (osloader_rpmb_key_init sampleCfg envAuthFails (sampleSt 1)).2.log =
      [(sampleKdf (List.replicate 32 1), EFI_ABORTED, .RPMB_RES_AUTH_FAILURE)] ∧
    Call.set_rpmb_key (sampleKdf (List.replicate 32 1)) ∈
      callsOf (osloader_rpmb_key_init sampleCfg envAuthFails (sampleSt 1)).2.log ∧
    (osloader_rpmb_key_init sampleCfg envAuthFails (sampleSt 1)).1 = EFI_ABORTED := by
  decide


/-! ## VerifiedBootEngine -/

theorem cstr_nil : cstr [] = [] := rfl

theorem cstr_cons (a : Nat) (s : List Nat) :
    cstr (a :: s) = if a = 0 then [] else a :: cstr s := by
  by_cases h : a = 0 <;> simp [cstr, List.takeWhile, h]

/-- `StrCmp` returns zero exactly when the two buffers hold the same string. -/
theorem StrCmp_eq_zero_iff (s1 s2 : List Nat) : StrCmp s1 s2 = 0 ↔ cstr s1 = cstr s2 := by
  induction s1 generalizing s2 with
  | nil =>
    cases s2 with
    | nil => simp [StrCmp]
    | cons b t =>
      by_cases hb : b = 0 <;> simp [StrCmp, cstr_cons, cstr_nil, hb]
  | cons a s ih =>
    cases s2 with
    | nil =>
      by_cases ha : a = 0 <;> simp [StrCmp, cstr_cons, cstr_nil, ha]
    | cons b t =>
      by_cases ha : a = 0
      · by_cases hb : b = 0 <;> simp [StrCmp, cstr_cons, ha, hb]
      · by_cases hab : a = b
        · subst hab
          simp [StrCmp, cstr_cons, ha, ih]
        · by_cases hb : b = 0
          · simp [StrCmp, cstr_cons, ha, hb]
          · have : (a : Int) - (b : Int) ≠ 0 := by omega
            simp [StrCmp, cstr_cons, ha, hb, hab, this]

theorem label_differs_some (l target : List Nat) :
    label_differs (some l) target = true ↔ cstr l ≠ cstr target := by
  simp [label_differs, StrCmp_eq_zero_iff]

theorem cstr_L_slash_boot : cstr L_slash_boot = L_slash_boot := by decide

theorem cstr_L_slash_recovery : cstr L_slash_recovery = L_slash_recovery := by decide

/-- The state `validate_bootimage` returns, by the label rule of the code. -/
theorem validate_bootimage_fst (env : Env) (tgt : boot_target) (bootimage : Nat)
    (st : St) :
    (validate_bootimage env tgt bootimage st).1 =
      if label_accepted (env.recovery_in_boot_partition (st.now + 1)) tgt
          (cstr (env.verify_android_boot_image st.now bootimage).2.1)
      then (env.verify_android_boot_image st.now bootimage).1
      else .BOOT_STATE_RED := by
  unfold validate_bootimage
  simp only [emit_now]
  by_cases hred : (env.verify_android_boot_image st.now bootimage).1 = .BOOT_STATE_RED
  · simp only [hred, if_true]
    split <;> rfl
  · simp only [hred, if_false]
    have hb : label_differs (some L_slash_boot) (env.verify_android_boot_image st.now bootimage).2.1
        = true ↔ ¬ cstr (env.verify_android_boot_image st.now bootimage).2.1 = L_slash_boot := by
      rw [label_differs_some, cstr_L_slash_boot, ne_comm]
    have hr : label_differs (some L_slash_recovery)
        (env.verify_android_boot_image st.now bootimage).2.1
        = true ↔ ¬ cstr (env.verify_android_boot_image st.now bootimage).2.1 = L_slash_recovery := by
      rw [label_differs_some, cstr_L_slash_recovery, ne_comm]
    have hn : ∀ t, label_differs none t = true := fun _ => rfl
    have hne : ¬ L_slash_boot = L_slash_recovery := by decide
    have hne' : ¬ L_slash_recovery = L_slash_boot := by decide
    by_cases h1 : cstr (env.verify_android_boot_image st.now bootimage).2.1 = L_slash_boot <;>
    by_cases h2 : cstr (env.verify_android_boot_image st.now bootimage).2.1 = L_slash_recovery <;>
    by_cases hf : env.recovery_in_boot_partition (st.now + 1) = true <;>
    cases tgt <;>
    simp [expected_labels, label_accepted, hn, hb, hr, h1, h2, hf, hne, hne']

/-- C5 as amended.  `validate_bootimage` returns the verifier's classification
unchanged when the embedded label is accepted for the requested target and RED
otherwise, where NORMAL_BOOT accepts `/boot` and `/recovery`, RECOVERY accepts
`/boot` alone when recovery is folded into the boot partition and `/recovery`
alone when it is not, and no other target accepts any label. -/
theorem validate_bootimage_label_rule (env : Env) (tgt : boot_target) (bootimage : Nat)
    (st : St) :
    (validate_bootimage env tgt bootimage st).1 =
      if label_accepted (env.recovery_in_boot_partition (st.now + 1)) tgt
          (cstr (env.verify_android_boot_image st.now bootimage).2.1)
      then (env.verify_android_boot_image st.now bootimage).1
      else .BOOT_STATE_RED :=
  validate_bootimage_fst env tgt bootimage st

/-- C5, counterexample.  Recovery is folded into the boot partition, the
requested target is RECOVERY, the verifier says GREEN and the embedded label is
`/recovery`: the rule as the specification words it accepts the label, and
`validate_bootimage` returns RED. -/
theorem validate_bootimage_folded_recovery_label_red :
    (envFoldedRecovery.verify_android_boot_image 0 4096).1 = .BOOT_STATE_GREEN ∧
    label_accepted_spec (envFoldedRecovery.recovery_in_boot_partition 1) .RECOVERY
      (cstr (envFoldedRecovery.verify_android_boot_image 0 4096).2.1) ∧
    (validate_bootimage envFoldedRecovery .RECOVERY 4096 (sampleSt 1)).1 = .BOOT_STATE_RED := by
  decide

/-- C4.  Whatever target is requested and whatever the verifier's outcome
(GREEN and YELLOW included), `validate_bootimage` returns RED when the image's
embedded target label is neither `/boot` nor `/recovery`. -/
theorem validate_bootimage_foreign_label_red (env : Env) (tgt : boot_target) (bootimage : Nat)
    (st : St)
    (hb : cstr (env.verify_android_boot_image st.now bootimage).2.1 ≠ L_slash_boot)
    (hr : cstr (env.verify_android_boot_image st.now bootimage).2.1 ≠ L_slash_recovery) :
    (validate_bootimage env tgt bootimage st).1 = .BOOT_STATE_RED := by
  rw [validate_bootimage_fst]
  have : ¬ label_accepted (env.recovery_in_boot_partition (st.now + 1)) tgt
      (cstr (env.verify_android_boot_image st.now bootimage).2.1) := by
    unfold label_accepted
    cases tgt <;> simp [hb, hr]
  rw [if_neg this]

/-- C4, witness: an image that verifies YELLOW and carries the label `/system`. -/
theorem validate_bootimage_foreign_label_red_witness :
    (envForeignLabel.verify_android_boot_image 0 4096).1 = .BOOT_STATE_YELLOW ∧
    (validate_bootimage envForeignLabel .RECOVERY 4096 (sampleSt 1)).1 = .BOOT_STATE_RED :=
  ⟨rfl, validate_bootimage_foreign_label_red envForeignLabel .RECOVERY 4096 (sampleSt 1)
    (by decide) (by decide)⟩


/-! ## Chain-load -/

theorem LogGrows.emit_right {P : Event → Prop} {l : List Event} (st : St) (c : Call)
    (h : LogGrows P l st.log) (hc : P { call := c, mem := st.mem }) :
    LogGrows P l (st.emit c).log :=
  h.trans (LogGrows.emit st c hc)

@[simp] theorem callsOf_nil : callsOf [] = [] := rfl

@[simp] theorem callsOf_append (a b : List Event) : callsOf (a ++ b) = callsOf a ++ callsOf b := by
  simp [callsOf]

@[simp] theorem callsOf_cons (e : Event) (l : List Event) :
    callsOf (e :: l) = e.call :: callsOf l := rfl

theorem start_boot_image_chainload_grows (env : Env) (b : Nat) (s : boot_state)
    (tgt : boot_target) (st : St) :
    LogGrows (fun e => isStartCall s e.call) st.log
      (start_boot_image_chainload env b s tgt st).st.log ∧
    (start_boot_image_chainload env b s tgt st).st.mem = st.mem := by
  unfold start_boot_image_chainload
  simp only []
  split
  · exact ⟨LogGrows.emit _ _ trivial, rfl⟩
  · exact ⟨(LogGrows.emit _ _ trivial).emit_right _ _ trivial, rfl⟩

theorem start_boot_image_vars_grows (cfg : Config) (env : Env) (b : Nat) (s : boot_state)
    (tgt : boot_target) (st : St) :
    LogGrows (fun e => isStartCall s e.call) st.log
      (start_boot_image_vars cfg env b s tgt st).st.log ∧
    (start_boot_image_vars cfg env b s tgt st).st.mem = st.mem := by
  have h := fun X => start_boot_image_chainload_grows env b s tgt X
  unfold start_boot_image_vars
  simp only []
  repeat' split
  all_goals
    first
    | (refine ⟨?_, rfl⟩
       repeat' first | exact LogGrows.refl _ _ | apply LogGrows.emit_right | exact trivial | exact rfl
       done)
    | (refine ⟨LogGrows.trans ?_ (h _).1, (h _).2⟩
       repeat' first | exact LogGrows.refl _ _ | apply LogGrows.emit_right | exact trivial | exact rfl
       done)

theorem start_boot_image_red_grows (cfg : Config) (env : Env) (b : Nat) (s : boot_state)
    (tgt : boot_target) (st : St) :
    LogGrows (fun e => isStartCall s e.call) st.log
      (start_boot_image_red cfg env b s tgt st).st.log ∧
    (start_boot_image_red cfg env b s tgt st).st.mem = st.mem := by
  have h := fun X => start_boot_image_vars_grows cfg env b s tgt X
  unfold start_boot_image_red
  split
  · exact ⟨LogGrows.refl _ _, rfl⟩
  · exact h _

/-- `start_boot_image` only logs its own calls, with the boot state it was
given, and leaves the memory alone. -/
theorem start_boot_image_grows (cfg : Config) (env : Env) (b : Nat) (s : boot_state)
    (tgt : boot_target) (st : St) :
    LogGrows (fun e => isStartCall s e.call) st.log
      (start_boot_image cfg env b s tgt st).st.log ∧
    (start_boot_image cfg env b s tgt st).st.mem = st.mem := by
  have h := fun X => start_boot_image_red_grows cfg env b s tgt X
  unfold start_boot_image
  simp only []
  repeat' split
  all_goals
    first
    | (refine ⟨?_, rfl⟩
       repeat' first | exact LogGrows.refl _ _ | apply LogGrows.emit_right | exact trivial | exact rfl
       done)
    | (refine ⟨LogGrows.trans ?_ (h _).1, (h _).2⟩
       repeat' first | exact LogGrows.refl _ _ | apply LogGrows.emit_right | exact trivial | exact rfl
       done)


/-! ## The boot pipeline: what each part logs -/

theorem load_boot_image_loop_grows (env : Env) (tgt : boot_target) (fuel : Nat) (st : St) :
    LogGrows (fun e => isLoaderCall e.call) st.log (load_boot_image_loop env tgt fuel st).st.log ∧
    (load_boot_image_loop env tgt fuel st).st.mem = st.mem := by
  induction fuel generalizing st with
  | zero => exact ⟨LogGrows.refl _ _, rfl⟩
  | succ n ih =>
    unfold load_boot_image_loop
    simp only []
    repeat' split
    all_goals
      first
      | (refine ⟨?_, rfl⟩
         repeat' first | exact LogGrows.refl _ _ | apply LogGrows.emit_right | exact trivial
         done)
      | (refine ⟨LogGrows.trans ?_ (ih _).1, (ih _).2⟩
         repeat' first | exact LogGrows.refl _ _ | apply LogGrows.emit_right | exact trivial
         done)

/-- `load_boot_image` only logs partition loads and slot failures, and leaves
the memory alone. -/
theorem load_boot_image_grows (env : Env) (fuel : Nat) (tgt : boot_target) (b : Nat) (st : St) :
    LogGrows (fun e => isLoaderCall e.call) st.log (load_boot_image env fuel tgt b st).st.log ∧
    (load_boot_image env fuel tgt b st).st.mem = st.mem := by
  have h := fun X => load_boot_image_loop_grows env .NORMAL_BOOT fuel X
  unfold load_boot_image load_boot_image_normal
  repeat' split
  all_goals
    first
    | exact h _
    | (refine ⟨?_, rfl⟩
       repeat' first | exact LogGrows.refl _ _ | apply LogGrows.emit_right | exact trivial
       done)

theorem boot_android_start_grows (cfg : Config) (env : Env) (b : Nat) (s : boot_state)
    (tgt : boot_target) (st : St) :
    LogGrows (fun e => isStartCall s e.call) st.log (boot_android_start cfg env b s tgt st).st.log := by
  have h := (start_boot_image_grows cfg env b s tgt st).1
  unfold boot_android_start
  split
  · rename_i ret st' heq
    rw [heq] at h
    unfold boot_android_exit clear_startup_seeds
    repeat' split
    all_goals exact h
  · rename_i st' heq
    rw [heq] at h
    exact h
  · rename_i st' heq
    rw [heq] at h
    exact h

theorem isStartCall_isLaunchCall (s : boot_state) (c : Call) (h : isStartCall s c) :
    isLaunchCall s c := by
  cases c <;> first | exact h | exact trivial

theorem boot_android_launch_grows (cfg : Config) (env : Env) (b : Nat) (s : boot_state)
    (tgt : boot_target) (st : St) :
    LogGrows (fun e => isLaunchCall s e.call) st.log
      (boot_android_launch cfg env b s tgt st).st.log := by
  have h := fun X => (boot_android_start_grows cfg env b s tgt X).mono
    (fun e he => isStartCall_isLaunchCall s e.call he)
  unfold boot_android_launch launch_trusty_os boot_android_exit clear_startup_seeds
  simp only []
  repeat' split
  all_goals
    first
    | (refine LogGrows.trans ?_ (h _)
       repeat' first | exact LogGrows.refl _ _ | apply LogGrows.emit_right | exact trivial
       done)
    | (repeat' first | exact LogGrows.refl _ _ | apply LogGrows.emit_right | exact trivial)


/-! ## TrustedOSHandoff: a failed `init_trusty_startup_params` -/

theorem validate_bootimage_st (env : Env) (tgt : boot_target) (b : Nat) (st : St) :
    (validate_bootimage env tgt b st).2.2 =
      st.emit (.verify_android_boot_image b (env.verify_android_boot_image st.now b).1
        (env.verify_android_boot_image st.now b).2.1) := by
  unfold validate_bootimage
  simp only []
  repeat' split
  all_goals rfl

theorem call_init_trusty_startup_params_log (env : Env) (load_base sz : Nat) (st : St) :
    (call_init_trusty_startup_params env load_base sz st).2.log =
      st.log ++ [{ call := .init_trusty_startup_params
                     (call_init_trusty_startup_params env load_base sz st).1
                   mem := (call_init_trusty_startup_params env load_base sz st).2.mem }] := rfl

theorem call_get_rot_data_log (env : Env) (b : Nat) (s : boot_state) (st : St) :
    (call_get_rot_data env b s st).2.log =
      st.log ++ [{ call := .get_rot_data b s (call_get_rot_data env b s st).1
                   mem := (call_get_rot_data env b s st).2.mem }] := rfl

theorem InitFailStops_of_grows {P : Event → Prop} {st : St} {r : Run EFI_STATUS}
    (h : LogGrows P st.log r.st.log)
    (hP : ∀ e, P e → ∀ ret, e.call ≠ .init_trusty_startup_params ret) : InitFailStops st r := by
  obtain ⟨evs, hl, hp⟩ := h
  refine ⟨evs, hl, fun ret _ hin => ?_⟩
  simp only [callsOf, List.mem_map] at hin
  obtain ⟨e, he, hc⟩ := hin
  exact absurd hc (hP e (hp e he) ret)

theorem InitFailStops_extend {P : Event → Prop} {st X : St} {r : Run EFI_STATUS}
    (h : LogGrows P st.log X.log)
    (hP : ∀ e, P e → (∀ ret, e.call ≠ .init_trusty_startup_params ret) ∧
      ∀ p, e.call ≠ .launch_trusty_os p)
    (hr : InitFailStops X r) : InitFailStops st r := by
  obtain ⟨pre, hl, hp⟩ := h
  obtain ⟨evs, hl2, h2⟩ := hr
  have hpre : ∀ c ∈ callsOf pre, (∀ ret, c ≠ .init_trusty_startup_params ret) ∧
      ∀ p, c ≠ .launch_trusty_os p := by
    intro c hc
    simp only [callsOf, List.mem_map] at hc
    obtain ⟨e, he, rfl⟩ := hc
    exact hP e (hp e he)
  refine ⟨pre ++ evs, by rw [hl2, hl, List.append_assoc], fun ret hret hin => ?_⟩
  rw [callsOf_append, List.mem_append] at hin
  rcases hin with hin | hin
  · exact absurd rfl ((hpre _ hin).1 ret)
  · obtain ⟨h3, h4⟩ := h2 ret hret hin
    refine ⟨h3, fun p hp' => ?_⟩
    rw [callsOf_append, List.mem_append] at hp'
    rcases hp' with hp' | hp'
    · exact absurd rfl ((hpre _ hp').2 p)
    · exact h4 p hp'

theorem boot_android_init_stops (cfg : Config) (env : Env) (b : Nat) (s : boot_state)
    (tgt : boot_target) (load_base sz : Nat) (st : St) :
    InitFailStops st (boot_android_init cfg env b s tgt load_base sz st) := by
  unfold boot_android_init
  simp only []
  have hi := call_init_trusty_startup_params_log env load_base sz st
  generalize call_init_trusty_startup_params env load_base sz st = i at hi ⊢
  by_cases herr : EFI_ERROR i.1 = true
  · simp only [herr, if_true, boot_android_exit]
    refine ⟨_, by simp only [Run.st]; split <;> exact hi, fun ret _ hin => ?_⟩
    simp only [callsOf_cons, callsOf_nil, List.mem_singleton, Call.init_trusty_startup_params.injEq]
      at hin
    subst hin
    exact ⟨⟨_, rfl⟩, fun p hp => by simp at hp⟩
  · simp only [herr, Bool.false_eq_true, if_false]
    have hrest : LogGrows (fun e => isLaunchCall s e.call) i.2.log
        (if EFI_ERROR (call_get_rot_data env b s i.2).1 = true then
          boot_android_exit cfg (call_get_rot_data env b s i.2).1 (call_get_rot_data env b s i.2).2
        else boot_android_launch cfg env b s tgt (call_get_rot_data env b s i.2).2).st.log := by
      have hg : LogGrows (fun e => isLaunchCall s e.call) i.2.log
          (call_get_rot_data env b s i.2).2.log := ⟨_, call_get_rot_data_log env b s i.2, by
        intro e he
        simp only [List.mem_singleton] at he
        subst he
        trivial⟩
      split
      · simp only [boot_android_exit, Run.st]
        split
        · exact hg
        · exact hg
      · exact hg.trans (boot_android_launch_grows cfg env b s tgt _)
    obtain ⟨evs, hl, hp⟩ := hrest
    refine ⟨_ :: evs, by rw [hl, hi, List.append_assoc]; rfl, fun ret hret hin => ?_⟩
    simp only [callsOf_cons, List.mem_cons, Call.init_trusty_startup_params.injEq] at hin
    rcases hin with rfl | hin
    · exact absurd hret herr
    · simp only [callsOf, List.mem_map] at hin
      obtain ⟨e, he, hc⟩ := hin
      have := hp e he
      simp only [hc] at this
      exact absurd this (by simp [isLaunchCall, isStartCall])

theorem boot_android_trusty_stops (cfg : Config) (env : Env) (b : Nat) (s : boot_state)
    (tgt : boot_target) (st : St) :
    InitFailStops st (boot_android_trusty cfg env b s tgt st) := by
  have hclean : ∀ e : Event, (∃ x y, e.call = .load_tos_image x y) →
      (∀ ret, e.call ≠ .init_trusty_startup_params ret) ∧ ∀ p, e.call ≠ .launch_trusty_os p := by
    rintro e ⟨x, y, h⟩
    simp [h]
  have hg : LogGrows (fun e => ∃ x y, e.call = .load_tos_image x y) st.log
      (st.emit (.load_tos_image (env.load_tos_image st.now).1 (env.load_tos_image st.now).2)).log :=
    LogGrows.emit _ _ ⟨_, _, rfl⟩
  unfold boot_android_trusty
  simp only []
  split
  · exact InitFailStops_of_grows hg (fun e he => (hclean e he).1)
  · split
    · exact InitFailStops_of_grows hg (fun e he => (hclean e he).1)
    · exact InitFailStops_extend hg hclean (boot_android_init_stops _ _ _ _ _ _ _ _)

theorem boot_android_stops (cfg : Config) (env : Env) (fuel : Nat) (tgt : boot_target) (st : St) :
    InitFailStops st (boot_android cfg env fuel tgt st) := by
  have hl := load_boot_image_grows env fuel tgt 0 st
  unfold boot_android
  split
  · rename_i r st1 heq
    rw [heq] at hl
    simp only [Run.st] at hl
    split
    · exact InitFailStops_of_grows hl.1 (fun e he ret hc => by rw [hc] at he; exact he)
    · simp only [validate_bootimage_st]
      have hv : LogGrows (fun e => isLoaderCall e.call ∨ ∃ x y z,
          e.call = .verify_android_boot_image x y z) st.log
          (st1.emit (.verify_android_boot_image r.2 (env.verify_android_boot_image st1.now r.2).1
            (env.verify_android_boot_image st1.now r.2).2.1)).log :=
        (hl.1.mono (fun e he => Or.inl he)).emit_right _ _ (Or.inr ⟨_, _, _, rfl⟩)
      have hclean : ∀ e : Event, (isLoaderCall e.call ∨ ∃ x y z,
          e.call = .verify_android_boot_image x y z) →
          (∀ ret, e.call ≠ .init_trusty_startup_params ret) ∧
          ∀ p, e.call ≠ .launch_trusty_os p := by
        rintro e (h | ⟨x, y, z, h⟩)
        · constructor
          · intro ret hc; rw [hc] at h; exact h
          · intro p hc; rw [hc] at h; exact h
        · simp [h]
      split
      · exact InitFailStops_extend hv hclean (boot_android_trusty_stops _ _ _ _ _ _)
      · exact InitFailStops_extend hv hclean (InitFailStops_of_grows
          (boot_android_start_grows _ _ _ _ _ _) (fun e he ret hc => by rw [hc] at he; exact he))
  · rename_i st1 heq
    rw [heq] at hl
    exact InitFailStops_of_grows hl.1 (fun e he ret hc => by rw [hc] at he; exact he)
  · rename_i st1 heq
    rw [heq] at hl
    exact InitFailStops_of_grows hl.1 (fun e he ret hc => by rw [hc] at he; exact he)


theorem avb_boot_android_fail_grows (cfg : Config) (live : Bool) (ret : EFI_STATUS) (st : St) :
    LogGrows (fun e => e.call = .avb_slot_verify_data_free) st.log
      (avb_boot_android_fail cfg live ret st).st.log := by
  unfold avb_boot_android_fail clear_startup_seeds
  simp only []
  repeat' split
  all_goals
    repeat' first | exact LogGrows.refl _ _ | apply LogGrows.emit_right | exact rfl

theorem avb_boot_android_start_grows (cfg : Config) (env : Env) (b : Nat) (s : boot_state)
    (tgt : boot_target) (live : Bool) (st : St) :
    LogGrows (fun e => isLaunchCall s e.call) st.log
      (avb_boot_android_start cfg env b s tgt live st).st.log := by
  have hf := fun l r X => (avb_boot_android_fail_grows cfg l r X).mono
    (P := fun e => e.call = .avb_slot_verify_data_free) (Q := fun e => isLaunchCall s e.call)
    (fun e he => by
      have he' : e.call = .avb_slot_verify_data_free := he
      show isLaunchCall s e.call
      rw [he']; trivial)
  have hs := fun X => (start_boot_image_grows cfg env b s tgt X).1.mono
    (fun e he => isStartCall_isLaunchCall s e.call he)
  unfold avb_boot_android_start
  simp only []
  split
  · rename_i ret st' heq
    refine LogGrows.trans ?_ (hf _ _ _)
    have := hs (if s = .BOOT_STATE_GREEN then
      st.emit .avb_update_stored_rollback_indexes_for_slot else st)
    rw [heq] at this
    refine LogGrows.trans ?_ this
    split
    · exact LogGrows.emit _ _ trivial
    · exact LogGrows.refl _ _
  · rename_i st' heq
    have := hs (if s = .BOOT_STATE_GREEN then
      st.emit .avb_update_stored_rollback_indexes_for_slot else st)
    rw [heq] at this
    refine LogGrows.trans ?_ this
    split
    · exact LogGrows.emit _ _ trivial
    · exact LogGrows.refl _ _
  · rename_i st' heq
    have := hs (if s = .BOOT_STATE_GREEN then
      st.emit .avb_update_stored_rollback_indexes_for_slot else st)
    rw [heq] at this
    refine LogGrows.trans ?_ this
    split
    · exact LogGrows.emit _ _ trivial
    · exact LogGrows.refl _ _

theorem avb_boot_android_rot_grows (cfg : Config) (env : Env) (sd : AvbSlotVerifyData) (b : Nat)
    (s : boot_state) (tgt : boot_target) (st : St) :
    LogGrows (fun e => isLaunchCall s e.call) st.log
      (avb_boot_android_rot cfg env sd b s tgt st).st.log := by
  have hf := fun l r X => (avb_boot_android_fail_grows cfg l r X).mono
    (P := fun e => e.call = .avb_slot_verify_data_free) (Q := fun e => isLaunchCall s e.call)
    (fun e he => by
      have he' : e.call = .avb_slot_verify_data_free := he
      show isLaunchCall s e.call
      rw [he']; trivial)
  have hs := fun X => avb_boot_android_start_grows cfg env b s tgt false X
  unfold avb_boot_android_rot call_get_rot_data
  simp only []
  repeat' split
  all_goals
    first
    | (refine LogGrows.trans ?_ (hf _ _ _)
       repeat' first | exact LogGrows.refl _ _ | apply LogGrows.emit_right | exact trivial
       done)
    | (refine LogGrows.trans ?_ (hs _)
       repeat' first | exact LogGrows.refl _ _ | apply LogGrows.emit_right | exact trivial
       done)

theorem avb_boot_android_launch_grows (cfg : Config) (env : Env) (sd sdt : AvbSlotVerifyData)
    (b : Nat) (s : boot_state) (tgt : boot_target) (st : St) :
    LogGrows (fun e => isLaunchCall s e.call) st.log
      (avb_boot_android_launch cfg env sd sdt b s tgt st).st.log := by
  have hf := fun l r X => (avb_boot_android_fail_grows cfg l r X).mono
    (P := fun e => e.call = .avb_slot_verify_data_free) (Q := fun e => isLaunchCall s e.call)
    (fun e he => by
      have he' : e.call = .avb_slot_verify_data_free := he
      show isLaunchCall s e.call
      rw [he']; trivial)
  have hs := fun X => avb_boot_android_rot_grows cfg env sd b s tgt X
  unfold avb_boot_android_launch launch_trusty_os
  simp only []
  repeat' split
  all_goals
    first
    | (refine LogGrows.trans ?_ (hf _ _ _)
       repeat' first | exact LogGrows.refl _ _ | apply LogGrows.emit_right | exact trivial
       done)
    | (refine LogGrows.trans ?_ (hs _)
       repeat' first | exact LogGrows.refl _ _ | apply LogGrows.emit_right | exact trivial
       done)

theorem avb_boot_android_init_stops (cfg : Config) (env : Env) (sd sdt : AvbSlotVerifyData)
    (b : Nat) (s : boot_state) (tgt : boot_target) (st : St) :
    InitFailStops st (avb_boot_android_init cfg env sd sdt b s tgt st) := by
  unfold avb_boot_android_init
  simp only []
  have hi := call_init_trusty_startup_params_log env (sdt.data + sdt.header.page_size)
    sdt.header.kernel_size st
  generalize call_init_trusty_startup_params env (sdt.data + sdt.header.page_size)
    sdt.header.kernel_size st = i at hi ⊢
  by_cases herr : EFI_ERROR i.1 = true
  · simp only [herr, if_true]
    obtain ⟨evs, hl, hp⟩ := avb_boot_android_fail_grows cfg (!sdt.isNull) i.1 i.2
    refine ⟨_ :: evs, by rw [hl, hi, List.append_assoc]; rfl, fun ret _ hin => ?_⟩
    have hnot : ∀ c ∈ callsOf evs, c = Call.avb_slot_verify_data_free := by
      intro c hc
      simp only [callsOf, List.mem_map] at hc
      obtain ⟨e, he, rfl⟩ := hc
      exact hp e he
    simp only [callsOf_cons, List.mem_cons, Call.init_trusty_startup_params.injEq] at hin
    rcases hin with rfl | hin
    · refine ⟨?_, fun p hp' => ?_⟩
      · unfold avb_boot_android_fail
        split
        · exact ⟨_, rfl⟩
        · exact ⟨_, rfl⟩
      · simp only [callsOf_cons, List.mem_cons] at hp'
        rcases hp' with hp' | hp'
        · cases hp'
        · have := hnot _ hp'
          cases this
    · have := hnot _ hin
      cases this
  · simp only [herr, Bool.false_eq_true, if_false]
    obtain ⟨evs, hl, hp⟩ := avb_boot_android_launch_grows cfg env sd sdt b s tgt i.2
    refine ⟨_ :: evs, by rw [hl, hi, List.append_assoc]; rfl, fun ret hret hin => ?_⟩
    simp only [callsOf_cons, List.mem_cons, Call.init_trusty_startup_params.injEq] at hin
    rcases hin with rfl | hin
    · exact absurd hret herr
    · simp only [callsOf, List.mem_map] at hin
      obtain ⟨e, he, hc⟩ := hin
      have := hp e he
      simp only [hc] at this
      exact absurd this (by simp [isLaunchCall, isStartCall])

theorem isAvbVerifyCall_clean (e : Event) (h : isAvbVerifyCall e.call) :
    (∀ ret, e.call ≠ .init_trusty_startup_params ret) ∧ ∀ p, e.call ≠ .launch_trusty_os p := by
  constructor
  · intro ret hc; rw [hc] at h; exact h
  · intro p hc; rw [hc] at h; exact h

theorem avb_boot_android_fail_verify (cfg : Config) (live : Bool) (ret : EFI_STATUS) (st : St) :
    LogGrows (fun e => isAvbVerifyCall e.call) st.log
      (avb_boot_android_fail cfg live ret st).st.log :=
  (avb_boot_android_fail_grows cfg live ret st).mono (fun e he => by
      have he' : e.call = .avb_slot_verify_data_free := he
      show isAvbVerifyCall e.call
      rw [he']; trivial)

theorem avb_boot_android_trusty_stops (cfg : Config) (env : Env) (suffix : List Nat)
    (allow : Bool) (sd : AvbSlotVerifyData) (b : Nat) (s : boot_state) (tgt : boot_target)
    (st : St) :
    InitFailStops st (avb_boot_android_trusty cfg env suffix allow sd b s tgt st) := by
  have hf := fun l r X => avb_boot_android_fail_verify cfg l r X
  unfold avb_boot_android_trusty
  simp only []
  repeat' split
  all_goals
    first
    | (refine InitFailStops_of_grows (P := fun e => isAvbVerifyCall e.call)
         (LogGrows.trans ?_ (hf _ _ _)) (fun e he => (isAvbVerifyCall_clean e he).1)
       repeat' first | exact LogGrows.refl _ _ | apply LogGrows.emit_right | exact trivial
       done)
    | (refine InitFailStops_extend (P := fun e => isAvbVerifyCall e.call) ?_
         isAvbVerifyCall_clean (avb_boot_android_init_stops _ _ _ _ _ _ _ _)
       repeat' first | exact LogGrows.refl _ _ | apply LogGrows.emit_right | exact trivial
       done)

theorem avb_boot_android_stops (cfg : Config) (env : Env) (tgt : boot_target) (st : St) :
    InitFailStops st (avb_boot_android cfg env tgt st) := by
  have hf := fun l r X => avb_boot_android_fail_verify cfg l r X
  unfold avb_boot_android
  simp only []
  repeat' split
  all_goals
    first
    | (refine InitFailStops_of_grows (P := fun e => isAvbVerifyCall e.call)
         (LogGrows.trans ?_ (hf _ _ _)) (fun e he => (isAvbVerifyCall_clean e he).1)
       repeat' first | exact LogGrows.refl _ _ | apply LogGrows.emit_right | exact trivial
       done)
    | (refine InitFailStops_of_grows (P := fun e => isAvbVerifyCall e.call) ?_
         (fun e he => (isAvbVerifyCall_clean e he).1)
       repeat' first | exact LogGrows.refl _ _ | apply LogGrows.emit_right | exact trivial
       done)
    | (refine InitFailStops_extend (P := fun e => isAvbVerifyCall e.call) ?_
         isAvbVerifyCall_clean (avb_boot_android_trusty_stops _ _ _ _ _ _ _ _ _)
       repeat' first | exact LogGrows.refl _ _ | apply LogGrows.emit_right | exact trivial
       done)
    | (refine InitFailStops_extend (P := fun e => isAvbVerifyCall e.call) ?_
         isAvbVerifyCall_clean (InitFailStops_of_grows
           (avb_boot_android_start_grows _ _ _ _ _ _ _)
           (fun e he ret hc => by rw [hc] at he; exact he))
       repeat' first | exact LogGrows.refl _ _ | apply LogGrows.emit_right | exact trivial
       done)


/-- C6 as amended.  `init_trusty_startup_params` returns EFI_INVALID_PARAMETER
when the block pointer is null, the seed list is null, the seed count is 0 or
the seed count is above 4; when none of these holds and the device serial is
not resolvable it returns EFI_NOT_FOUND; otherwise it returns EFI_SUCCESS.
Whenever it returns an error inside `boot_android` or `avb_boot_android`, that
function returns this error and `launch_trusty_os` is never called. -/
theorem init_trusty_startup_params_failure (env : Env) (now : Nat)
    (param : Option trusty_startup_params_t) (base sz num : Nat)
    (seed_list : Option (List seed_info_t)) (cfg : Config) (fuel : Nat) (tgt : boot_target)
    (m : Mem) :
    ((init_trusty_startup_params env now param base sz num seed_list).1 =
      if param = none ∨ seed_list = none ∨ num > 4 ∨ num = 0 then EFI_INVALID_PARAMETER
      else if env.get_serial_number now = none then EFI_NOT_FOUND
      else EFI_SUCCESS) ∧
    (∀ ret, EFI_ERROR ret = true →
      Call.init_trusty_startup_params ret ∈
        callsOf (boot_android cfg env fuel tgt { mem := m, log := [] }).st.log →
      (∃ st', boot_android cfg env fuel tgt { mem := m, log := [] } = .ret ret st') ∧
      ∀ p, Call.launch_trusty_os p ∉
        callsOf (boot_android cfg env fuel tgt { mem := m, log := [] }).st.log) ∧
    (∀ ret, EFI_ERROR ret = true →
      Call.init_trusty_startup_params ret ∈
        callsOf (avb_boot_android cfg env tgt { mem := m, log := [] }).st.log →
      (∃ st', avb_boot_android cfg env tgt { mem := m, log := [] } = .ret ret st') ∧
      ∀ p, Call.launch_trusty_os p ∉
        callsOf (avb_boot_android cfg env tgt { mem := m, log := [] }).st.log) := by
  refine ⟨?_, ?_, ?_⟩
  · unfold init_trusty_startup_params
    cases param with
    | none => simp
    | some p =>
      cases seed_list with
      | none => simp
      | some sl =>
        simp only [BOOTLOADER_SEED_MAX_ENTRIES, reduceCtorEq, false_or]
        by_cases hnum : num > 4 ∨ num = 0
        · simp only [hnum, if_true]
        · simp only [hnum, if_false]
          cases hs : env.get_serial_number now <;> simp
  · obtain ⟨evs, hl, h⟩ := boot_android_stops cfg env fuel tgt { mem := m, log := [] }
    simp only [List.nil_append] at hl
    rw [hl]
    exact h
  · obtain ⟨evs, hl, h⟩ := avb_boot_android_stops cfg env tgt { mem := m, log := [] }
    simp only [List.nil_append] at hl
    rw [hl]
    exact h

/-- C6, counterexample.  With a valid block, a valid seed list and one seed, an
unresolvable device serial makes `init_trusty_startup_params` return
EFI_NOT_FOUND, which is not EFI_INVALID_PARAMETER. -/
theorem init_trusty_startup_params_no_serial_not_found :
    (init_trusty_startup_params envNoSerial 0 (some sampleBlock) 8192 100 1
      (some sampleSeeds)).1 = EFI_NOT_FOUND ∧
    (init_trusty_startup_params envNoSerial 0 (some sampleBlock) 8192 100 1
      (some sampleSeeds)).1 ≠ EFI_INVALID_PARAMETER := by
  decide

/-- C6, witness: with an unresolvable serial `boot_android` returns
EFI_NOT_FOUND and never calls `launch_trusty_os`. -/
theorem init_trusty_startup_params_failure_witness :
    (∃ st', boot_android sampleCfg envNoSerial 1 .NORMAL_BOOT (sampleSt 1) =
      .ret EFI_NOT_FOUND st') ∧
    ∀ p, Call.launch_trusty_os p ∉
      callsOf (boot_android sampleCfg envNoSerial 1 .NORMAL_BOOT (sampleSt 1)).st.log :=
  (init_trusty_startup_params_failure envNoSerial 0 none 0 0 0 none sampleCfg 1 .NORMAL_BOOT
    (sampleMem 1)).2.1 EFI_NOT_FOUND rfl (by decide)

/-- C9.  For a non-null block, a non-null list of four seed entries, a seed
count from 1 to 4 and a resolvable serial, `init_trusty_startup_params`
succeeds, the block's seed list is the supplied list as it was before the call,
entry for entry, and every byte of the supplied list is zero afterwards. -/
theorem init_trusty_startup_params_moves_seeds (env : Env) (now : Nat)
    (p : trusty_startup_params_t) (base sz num : Nat) (sl : List seed_info_t)
    (serialno : List Nat) (h1 : 1 ≤ num) (h4 : num ≤ 4) (hlen : sl.length = 4)
    (hs : env.get_serial_number now = some serialno) :
    ∃ p' sl', init_trusty_startup_params env now (some p) base sz num (some sl) =
        (EFI_SUCCESS, some p', some sl') ∧
      p'.seed_list = sl ∧ sl'.length = 4 ∧ ∀ s ∈ sl', s.isZero := by
  have hnum : ¬ (num > BOOTLOADER_SEED_MAX_ENTRIES ∨ num = 0) := by
    simp only [BOOTLOADER_SEED_MAX_ENTRIES]; omega
  unfold init_trusty_startup_params
  simp only [hnum, if_false, hs]
  refine ⟨_, _, rfl, ?_, ?_, ?_⟩
  · simp only [BOOTLOADER_SEED_MAX_ENTRIES]
    exact List.take_of_length_le (by omega)
  · simp [BOOTLOADER_SEED_MAX_ENTRIES, hlen]
  · intro s hsm
    simp only [BOOTLOADER_SEED_MAX_ENTRIES, List.mem_append, List.mem_map] at hsm
    rcases hsm with ⟨a, _, rfl⟩ | hsm
    · refine ⟨rfl, ?_, ?_⟩
      · intro b hb
        simp only [seed_info_t.clear, zeroBytes, List.mem_map] at hb
        obtain ⟨_, _, rfl⟩ := hb
        rfl
      · intro b hb
        simp only [seed_info_t.clear, zeroBytes, List.mem_map] at hb
        obtain ⟨_, _, rfl⟩ := hb
        rfl
    · rw [List.drop_of_length_le (by omega)] at hsm
      simp at hsm

/-- C9, witness: four seeds supplied, two announced. -/
theorem init_trusty_startup_params_moves_seeds_witness :
    ∃ p' sl', init_trusty_startup_params sampleEnv 0 (some sampleBlock) 8192 100 2
        (some sampleSeeds) = (EFI_SUCCESS, some p', some sl') ∧
      p'.seed_list = sampleSeeds ∧ sl'.length = 4 ∧ ∀ s ∈ sl', s.isZero :=
  init_trusty_startup_params_moves_seeds sampleEnv 0 sampleBlock 8192 100 2 sampleSeeds
    (List.replicate 15 65) (by decide) (by decide) (by decide) rfl


/-! ## A RED image on an enforcing production build -/

theorem RedRefused_of_grows {P : Event → Prop} {st : St} {r : Run EFI_STATUS}
    (h : LogGrows P st.log r.st.log)
    (hP : ∀ e, P e → ∀ b t, e.call ≠ .start_boot_image b .BOOT_STATE_RED t) :
    RedRefused st r := by
  obtain ⟨evs, hl, hp⟩ := h
  refine ⟨evs, hl, fun b t hin => ?_⟩
  simp only [callsOf, List.mem_map] at hin
  obtain ⟨e, he, hc⟩ := hin
  exact absurd hc (hP e (hp e he) b t)

theorem isQuietCall_clean (e : Event) (h : isQuietCall e.call) :
    (∀ b t, e.call ≠ .start_boot_image b .BOOT_STATE_RED t) ∧
    ∀ b t s x, e.call ≠ .android_image_start_buffer_abl b t s x := by
  constructor
  · intro b t hc; rw [hc] at h; exact h
  · intro b t s x hc; rw [hc] at h; exact h

theorem RedRefused_extend {st X : St} {r : Run EFI_STATUS}
    (h : LogGrows (fun e => isQuietCall e.call) st.log X.log)
    (hr : RedRefused X r) : RedRefused st r := by
  obtain ⟨pre, hl, hp⟩ := h
  obtain ⟨evs, hl2, h2⟩ := hr
  have hpre : ∀ c ∈ callsOf pre, isQuietCall c := by
    intro c hc
    simp only [callsOf, List.mem_map] at hc
    obtain ⟨e, he, rfl⟩ := hc
    exact hp e he
  refine ⟨pre ++ evs, by rw [hl2, hl, List.append_assoc], fun b t hin => ?_⟩
  rw [callsOf_append, List.mem_append] at hin
  rcases hin with hin | hin
  · exact absurd (hpre _ hin) (fun h => h)
  · obtain ⟨h3, h4⟩ := h2 b t hin
    refine ⟨fun b' t' s' x hp' => ?_, h4⟩
    rw [callsOf_append, List.mem_append] at hp'
    rcases hp' with hp' | hp'
    · exact absurd (hpre _ hp') (fun h => h)
    · exact h3 b' t' s' x hp'

/-- On a production build with ABL secure boot enabled, `start_boot_image` given
RED returns EFI_SECURITY_VIOLATION and does nothing else. -/
theorem start_boot_image_red_refuses (cfg : Config) (env : Env) (hU : cfg.USER = true)
    (hS : ∀ t, env.is_abl_secure_boot_enabled t = true) (b : Nat) (tgt : boot_target) (st : St) :
    start_boot_image cfg env b .BOOT_STATE_RED tgt st =
      .ret EFI_SECURITY_VIOLATION (st.emit (.start_boot_image b .BOOT_STATE_RED tgt)) := by
  simp [start_boot_image, start_boot_image_red, hU, hS]

theorem isStartCall_not_red (s : boot_state) (hs : s ≠ .BOOT_STATE_RED) (e : Event)
    (h : isStartCall s e.call) : ∀ b t, e.call ≠ .start_boot_image b .BOOT_STATE_RED t := by
  intro b t hc
  rw [hc] at h
  exact hs h.symm

theorem boot_android_start_red (cfg : Config) (env : Env) (hU : cfg.USER = true)
    (hS : ∀ t, env.is_abl_secure_boot_enabled t = true) (b : Nat) (s : boot_state)
    (tgt : boot_target) (st : St) :
    RedRefused st (boot_android_start cfg env b s tgt st) := by
  by_cases hs : s = .BOOT_STATE_RED
  · subst hs
    unfold boot_android_start
    rw [start_boot_image_red_refuses cfg env hU hS]
    have he : EFI_ERROR EFI_SECURITY_VIOLATION = true := rfl
    simp only [he, if_true, boot_android_exit]
    refine ⟨[_], by simp only [Run.st]; split <;> rfl, fun b' t' _ => ⟨?_, _, _, rfl, he⟩⟩
    intro b'' t'' s'' x hin
    simp at hin
  · exact RedRefused_of_grows (boot_android_start_grows cfg env b s tgt st)
      (isStartCall_not_red s hs)

theorem boot_android_launch_red (cfg : Config) (env : Env) (hU : cfg.USER = true)
    (hS : ∀ t, env.is_abl_secure_boot_enabled t = true) (b : Nat) (s : boot_state)
    (tgt : boot_target) (st : St) :
    RedRefused st (boot_android_launch cfg env b s tgt st) := by
  have hn := fun X => boot_android_start_red cfg env hU hS b s tgt X
  unfold boot_android_launch launch_trusty_os boot_android_exit clear_startup_seeds
  simp only []
  repeat' split
  all_goals
    first
    | (refine RedRefused_extend ?_ (hn _)
       repeat' first | exact LogGrows.refl _ _ | apply LogGrows.emit_right | exact trivial
       done)
    | (refine RedRefused_of_grows (P := fun e => isQuietCall e.call) ?_
         (fun e he => (isQuietCall_clean e he).1)
       repeat' first | exact LogGrows.refl _ _ | apply LogGrows.emit_right | exact trivial
       done)

theorem boot_android_init_red (cfg : Config) (env : Env) (hU : cfg.USER = true)
    (hS : ∀ t, env.is_abl_secure_boot_enabled t = true) (b : Nat) (s : boot_state)
    (tgt : boot_target) (load_base sz : Nat) (st : St) :
    RedRefused st (boot_android_init cfg env b s tgt load_base sz st) := by
  have hn := fun X => boot_android_launch_red cfg env hU hS b s tgt X
  unfold boot_android_init call_get_rot_data call_init_trusty_startup_params boot_android_exit
    clear_startup_seeds
  simp only []
  repeat' split
  all_goals
    first
    | (refine RedRefused_extend ?_ (hn _)
       repeat' first | exact LogGrows.refl _ _ | apply LogGrows.emit_right | exact trivial
       done)
    | (refine RedRefused_of_grows (P := fun e => isQuietCall e.call) ?_
         (fun e he => (isQuietCall_clean e he).1)
       repeat' first | exact LogGrows.refl _ _ | apply LogGrows.emit_right | exact trivial
       done)

theorem boot_android_trusty_red (cfg : Config) (env : Env) (hU : cfg.USER = true)
    (hS : ∀ t, env.is_abl_secure_boot_enabled t = true) (b : Nat) (s : boot_state)
    (tgt : boot_target) (st : St) :
    RedRefused st (boot_android_trusty cfg env b s tgt st) := by
  have hn := fun lb sz X => boot_android_init_red cfg env hU hS b s tgt lb sz X
  unfold boot_android_trusty
  simp only []
  repeat' split
  all_goals
    first
    | (refine RedRefused_extend ?_ (hn _ _ _)
       repeat' first | exact LogGrows.refl _ _ | apply LogGrows.emit_right | exact trivial
       done)
    | (refine RedRefused_of_grows (P := fun e => isQuietCall e.call) ?_
         (fun e he => (isQuietCall_clean e he).1)
       repeat' first | exact LogGrows.refl _ _ | apply LogGrows.emit_right | exact trivial
       done)

theorem isLoaderCall_quiet (e : Event) (h : isLoaderCall e.call) : isQuietCall e.call := by
  revert h
  cases e.call <;> intro h <;> first | exact trivial | exact h

theorem boot_android_red (cfg : Config) (env : Env) (hU : cfg.USER = true)
    (hS : ∀ t, env.is_abl_secure_boot_enabled t = true) (fuel : Nat) (tgt : boot_target)
    (st : St) :
    RedRefused st (boot_android cfg env fuel tgt st) := by
  have hl := (load_boot_image_grows env fuel tgt 0 st).1.mono isLoaderCall_quiet
  unfold boot_android
  split
  · rename_i r st1 heq
    rw [heq] at hl
    simp only [Run.st] at hl
    split
    · exact RedRefused_of_grows hl (fun e he => (isQuietCall_clean e he).1)
    · simp only [validate_bootimage_st]
      have hv := hl.emit_right (P := fun e => isQuietCall e.call) st1
        (.verify_android_boot_image r.2 (env.verify_android_boot_image st1.now r.2).1
            (env.verify_android_boot_image st1.now r.2).2.1) trivial
      split
      · exact RedRefused_extend hv (boot_android_trusty_red cfg env hU hS _ _ _ _)
      · exact RedRefused_extend hv (boot_android_start_red cfg env hU hS _ _ _ _)
  · rename_i st1 heq
    rw [heq] at hl
    exact RedRefused_of_grows hl (fun e he => (isQuietCall_clean e he).1)
  · rename_i st1 heq
    rw [heq] at hl
    exact RedRefused_of_grows hl (fun e he => (isQuietCall_clean e he).1)


theorem isLaunchCall_not_red (s : boot_state) (hs : s ≠ .BOOT_STATE_RED) (e : Event)
    (h : isLaunchCall s e.call) : ∀ b t, e.call ≠ .start_boot_image b .BOOT_STATE_RED t := by
  intro b t hc
  rw [hc] at h
  exact hs h.symm

theorem avb_boot_android_fail_quiet (cfg : Config) (live : Bool) (ret : EFI_STATUS) (st : St) :
    LogGrows (fun e => isQuietCall e.call) st.log
      (avb_boot_android_fail cfg live ret st).st.log :=
  (avb_boot_android_fail_grows cfg live ret st).mono (fun e he => by
    have he' : e.call = .avb_slot_verify_data_free := he
    show isQuietCall e.call
    rw [he']; trivial)

theorem avb_boot_android_fail_ret (cfg : Config) (live : Bool) (ret : EFI_STATUS) (st : St) :
    ∃ st', avb_boot_android_fail cfg live ret st = .ret ret st' := by
  unfold avb_boot_android_fail
  split
  · exact ⟨_, rfl⟩
  · exact ⟨_, rfl⟩

theorem avb_boot_android_start_red (cfg : Config) (env : Env) (hU : cfg.USER = true)
    (hS : ∀ t, env.is_abl_secure_boot_enabled t = true) (b : Nat) (s : boot_state)
    (tgt : boot_target) (live : Bool) (st : St) :
    RedRefused st (avb_boot_android_start cfg env b s tgt live st) := by
  by_cases hs : s = .BOOT_STATE_RED
  · subst hs
    unfold avb_boot_android_start
    have hg : (boot_state.BOOT_STATE_RED = boot_state.BOOT_STATE_GREEN) = False := by simp
    simp only [hg, if_false]
    rw [start_boot_image_red_refuses cfg env hU hS]
    simp only []
    have he : EFI_ERROR EFI_SECURITY_VIOLATION = true := rfl
    obtain ⟨evs, hl, hp⟩ := avb_boot_android_fail_quiet cfg live EFI_SECURITY_VIOLATION
      (st.emit (.start_boot_image b .BOOT_STATE_RED tgt))
    obtain ⟨st', hst'⟩ := avb_boot_android_fail_ret cfg live EFI_SECURITY_VIOLATION
      (st.emit (.start_boot_image b .BOOT_STATE_RED tgt))
    refine ⟨_ :: evs, by rw [hl, emit_log, List.append_assoc]; rfl,
      fun b' t' _ => ⟨?_, _, _, hst', he⟩⟩
    intro b'' t'' s'' x hin
    simp only [callsOf_cons, List.mem_cons, reduceCtorEq, false_or] at hin
    simp only [callsOf, List.mem_map] at hin
    obtain ⟨e, hem, hc⟩ := hin
    have := hp e hem
    simp only [hc] at this
    exact this
  · exact RedRefused_of_grows (avb_boot_android_start_grows cfg env b s tgt live st)
      (isLaunchCall_not_red s hs)

theorem avb_boot_android_rot_red (cfg : Config) (env : Env) (hU : cfg.USER = true)
    (hS : ∀ t, env.is_abl_secure_boot_enabled t = true) (sd : AvbSlotVerifyData) (b : Nat)
    (s : boot_state) (tgt : boot_target) (st : St) :
    RedRefused st (avb_boot_android_rot cfg env sd b s tgt st) := by
  have hn := fun X => avb_boot_android_start_red cfg env hU hS b s tgt false X
  have hf := fun l r X => avb_boot_android_fail_quiet cfg l r X
  unfold avb_boot_android_rot call_get_rot_data
  simp only []
  repeat' split
  all_goals
    first
    | (refine RedRefused_extend ?_ (hn _)
       repeat' first | exact LogGrows.refl _ _ | apply LogGrows.emit_right | exact trivial
       done)
    | (refine RedRefused_of_grows (P := fun e => isQuietCall e.call)
         (LogGrows.trans ?_ (hf _ _ _)) (fun e he => (isQuietCall_clean e he).1)
       repeat' first | exact LogGrows.refl _ _ | apply LogGrows.emit_right | exact trivial
       done)

theorem avb_boot_android_launch_red (cfg : Config) (env : Env) (hU : cfg.USER = true)
    (hS : ∀ t, env.is_abl_secure_boot_enabled t = true) (sd sdt : AvbSlotVerifyData) (b : Nat)
    (s : boot_state) (tgt : boot_target) (st : St) :
    RedRefused st (avb_boot_android_launch cfg env sd sdt b s tgt st) := by
  have hn := fun X => avb_boot_android_rot_red cfg env hU hS sd b s tgt X
  have hf := fun l r X => avb_boot_android_fail_quiet cfg l r X
  unfold avb_boot_android_launch launch_trusty_os
  simp only []
  repeat' split
  all_goals
    first
    | (refine RedRefused_extend ?_ (hn _)
       repeat' first | exact LogGrows.refl _ _ | apply LogGrows.emit_right | exact trivial
       done)
    | (refine RedRefused_of_grows (P := fun e => isQuietCall e.call)
         (LogGrows.trans ?_ (hf _ _ _)) (fun e he => (isQuietCall_clean e he).1)
       repeat' first | exact LogGrows.refl _ _ | apply LogGrows.emit_right | exact trivial
       done)

theorem avb_boot_android_init_red (cfg : Config) (env : Env) (hU : cfg.USER = true)
    (hS : ∀ t, env.is_abl_secure_boot_enabled t = true) (sd sdt : AvbSlotVerifyData) (b : Nat)
    (s : boot_state) (tgt : boot_target) (st : St) :
    RedRefused st (avb_boot_android_init cfg env sd sdt b s tgt st) := by
  have hn := fun X => avb_boot_android_launch_red cfg env hU hS sd sdt b s tgt X
  have hf := fun l r X => avb_boot_android_fail_quiet cfg l r X
  unfold avb_boot_android_init call_init_trusty_startup_params
  simp only []
  repeat' split
  all_goals
    first
    | (refine RedRefused_extend ?_ (hn _)
       repeat' first | exact LogGrows.refl _ _ | apply LogGrows.emit_right | exact trivial
       done)
    | (refine RedRefused_of_grows (P := fun e => isQuietCall e.call)
         (LogGrows.trans ?_ (hf _ _ _)) (fun e he => (isQuietCall_clean e he).1)
       repeat' first | exact LogGrows.refl _ _ | apply LogGrows.emit_right | exact trivial
       done)

theorem avb_boot_android_trusty_red (cfg : Config) (env : Env) (hU : cfg.USER = true)
    (hS : ∀ t, env.is_abl_secure_boot_enabled t = true) (suffix : List Nat) (allow : Bool)
    (sd : AvbSlotVerifyData) (b : Nat) (s : boot_state) (tgt : boot_target) (st : St) :
    RedRefused st (avb_boot_android_trusty cfg env suffix allow sd b s tgt st) := by
  have hn := fun sdt X => avb_boot_android_init_red cfg env hU hS sd sdt b s tgt X
  have hf := fun l r X => avb_boot_android_fail_quiet cfg l r X
  unfold avb_boot_android_trusty
  simp only []
  repeat' split
  all_goals
    first
    | (refine RedRefused_extend ?_ (hn _ _)
       repeat' first | exact LogGrows.refl _ _ | apply LogGrows.emit_right | exact trivial
       done)
    | (refine RedRefused_of_grows (P := fun e => isQuietCall e.call)
         (LogGrows.trans ?_ (hf _ _ _)) (fun e he => (isQuietCall_clean e he).1)
       repeat' first | exact LogGrows.refl _ _ | apply LogGrows.emit_right | exact trivial
       done)

theorem avb_boot_android_red (cfg : Config) (env : Env) (hU : cfg.USER = true)
    (hS : ∀ t, env.is_abl_secure_boot_enabled t = true) (tgt : boot_target) (st : St) :
    RedRefused st (avb_boot_android cfg env tgt st) := by
  have hn := fun su al sd b s X => avb_boot_android_trusty_red cfg env hU hS su al sd b s tgt X
  have hs := fun b s l X => avb_boot_android_start_red cfg env hU hS b s tgt l X
  have hf := fun l r X => avb_boot_android_fail_quiet cfg l r X
  unfold avb_boot_android
  simp only []
  repeat' split
  all_goals
    first
    | (refine RedRefused_extend ?_ (hn _ _ _ _ _ _)
       repeat' first | exact LogGrows.refl _ _ | apply LogGrows.emit_right | exact trivial
       done)
    | (refine RedRefused_extend ?_ (hs _ _ _ _)
       repeat' first | exact LogGrows.refl _ _ | apply LogGrows.emit_right | exact trivial
       done)
    | (refine RedRefused_of_grows (P := fun e => isQuietCall e.call)
         (LogGrows.trans ?_ (hf _ _ _)) (fun e he => (isQuietCall_clean e he).1)
       repeat' first | exact LogGrows.refl _ _ | apply LogGrows.emit_right | exact trivial
       done)
    | (refine RedRefused_of_grows (P := fun e => isQuietCall e.call) ?_
         (fun e he => (isQuietCall_clean e he).1)
       repeat' first | exact LogGrows.refl _ _ | apply LogGrows.emit_right | exact trivial
       done)

/-- C3.  On a production (USER) build with ABL secure boot enabled, every call
of `start_boot_image` with the boot state RED returns EFI_SECURITY_VIOLATION
having logged nothing but its own entry, so the chain-load call
`android_image_start_buffer_abl` is not made; and whenever the pipeline run by
the loop of `efi_main` (either backend) enters `start_boot_image` with RED, the
run contains no chain-load call, the pipeline returns, and the loop's next
target is FASTBOOT. -/
theorem red_never_chainloads (cfg : Config) (env : Env) (hU : cfg.USER = true)
    (hS : ∀ t, env.is_abl_secure_boot_enabled t = true) (b : Nat) (tgt : boot_target) (st : St)
    (fuel : Nat) (target : boot_target) (m : Mem) :
    start_boot_image cfg env b .BOOT_STATE_RED tgt st =
      .ret EFI_SECURITY_VIOLATION (st.emit (.start_boot_image b .BOOT_STATE_RED tgt)) ∧
    (∀ b' t', Call.start_boot_image b' .BOOT_STATE_RED t' ∈
        callsOf (efi_main_boot cfg env fuel target { mem := m, log := [] }).st.log →
      (∀ b'' t'' s'' x, Call.android_image_start_buffer_abl b'' t'' s'' x ∉
        callsOf (efi_main_boot cfg env fuel target { mem := m, log := [] }).st.log) ∧
      ∃ st', efi_main_boot cfg env fuel target { mem := m, log := [] } = .ret .FASTBOOT st') := by
  refine ⟨start_boot_image_red_refuses cfg env hU hS b tgt st, ?_⟩
  have key : ∀ r : Run EFI_STATUS, RedRefused { mem := m, log := [] } r →
      ∀ b' t', Call.start_boot_image b' .BOOT_STATE_RED t' ∈
        callsOf (efi_main_next target r).st.log →
      (∀ b'' t'' s'' x, Call.android_image_start_buffer_abl b'' t'' s'' x ∉
        callsOf (efi_main_next target r).st.log) ∧
      ∃ st', efi_main_next target r = .ret .FASTBOOT st' := by
    rintro r ⟨evs, hl, h⟩ b' t' hin
    simp only [List.nil_append] at hl
    have hlog : (efi_main_next target r).st.log = evs := by
      rw [← hl]; cases r <;> rfl
    rw [hlog] at hin ⊢
    obtain ⟨h1, ret, st', hr, he⟩ := h b' t' hin
    refine ⟨h1, st', ?_⟩
    subst hr
    simp [efi_main_next, he]
  unfold efi_main_boot
  split
  · exact key _ (avb_boot_android_red cfg env hU hS target _)
  · exact key _ (boot_android_red cfg env hU hS fuel target _)

/-- C3, witness: every image verifies RED; the production build with the TEE
enters `start_boot_image` with RED and the loop's next target is FASTBOOT. -/
theorem red_never_chainloads_witness :
    Call.start_boot_image 4096 .BOOT_STATE_RED .NORMAL_BOOT ∈
      callsOf (efi_main_boot sampleCfg envRed 1 .NORMAL_BOOT (sampleSt 1)).st.log ∧
    (∀ b'' t'' s'' x, Call.android_image_start_buffer_abl b'' t'' s'' x ∉
      callsOf (efi_main_boot sampleCfg envRed 1 .NORMAL_BOOT (sampleSt 1)).st.log) ∧
    ∃ st', efi_main_boot sampleCfg envRed 1 .NORMAL_BOOT (sampleSt 1) = .ret .FASTBOOT st' :=
  ⟨by decide,
   (red_never_chainloads sampleCfg envRed rfl (fun _ => rfl) 0 .NORMAL_BOOT (sampleSt 1) 1
      .NORMAL_BOOT (sampleMem 1)).2 4096 .NORMAL_BOOT (by decide)⟩


/-! ## The block at the time of `launch_trusty_os` -/

theorem allZero_zeroBytes (buf : List Nat) : allZero (zeroBytes buf) := by
  intro b hb
  simp only [zeroBytes, List.mem_map] at hb
  obtain ⟨_, _, rfl⟩ := hb
  rfl

theorem LaunchRotZero.quiet (e : Event) (h : isNotLaunch e.call) : LaunchRotZero e := by
  intro p hp
  rw [hp] at h
  exact absurd h (fun h => h)

theorem isStartCall_notLaunch (s : boot_state) (e : Event) (h : isStartCall s e.call) :
    isNotLaunch e.call := by
  revert h
  cases e.call <;> intro h <;> first | exact trivial | exact h

theorem isLoaderCall_notLaunch (e : Event) (h : isLoaderCall e.call) : isNotLaunch e.call := by
  revert h
  cases e.call <;> intro h <;> first | exact trivial | exact h

/-- After a successful `init_trusty_startup_params` the `RotData` field of the
block is all zero. -/
theorem call_init_trusty_startup_params_rot (env : Env) (load_base sz : Nat) (st : St)
    (h : EFI_ERROR (call_init_trusty_startup_params env load_base sz st).1 = false) :
    allZero (call_init_trusty_startup_params env load_base sz st).2.mem.trusty_startup_params.RotData
    := by
  revert h
  unfold call_init_trusty_startup_params init_trusty_startup_params
  simp only []
  split
  · intro h; simp [EFI_INVALID_PARAMETER, EFI_ERROR] at h
  · split
    · intro h; simp [EFI_NOT_FOUND, EFI_ERROR] at h
    · intro _
      exact allZero_zeroBytes _

theorem boot_android_start_notLaunch (cfg : Config) (env : Env) (b : Nat) (s : boot_state)
    (tgt : boot_target) (st : St) :
    LogGrows (fun e => isNotLaunch e.call) st.log (boot_android_start cfg env b s tgt st).st.log :=
  (boot_android_start_grows cfg env b s tgt st).mono (isStartCall_notLaunch s)

theorem boot_android_launch_rotzero (cfg : Config) (env : Env) (b : Nat) (s : boot_state)
    (tgt : boot_target) (st : St) (hz : allZero st.mem.trusty_startup_params.RotData) :
    LogGrows LaunchRotZero st.log (boot_android_launch cfg env b s tgt st).st.log := by
  have hn := fun X => (boot_android_start_notLaunch cfg env b s tgt X).mono LaunchRotZero.quiet
  have hlaunch : LaunchRotZero ⟨.launch_trusty_os st.mem.trusty_startup_params, st.mem⟩ := by
    intro p hp
    cases hp
    exact ⟨rfl, hz⟩
  unfold boot_android_launch launch_trusty_os boot_android_exit clear_startup_seeds
  simp only []
  repeat' split
  all_goals
    first
    | (refine LogGrows.trans ?_ (hn _)
       repeat' first | exact LogGrows.refl _ _ | apply LogGrows.emit_right | exact hlaunch
                     | exact LaunchRotZero.quiet _ trivial
       done)
    | (repeat' first | exact LogGrows.refl _ _ | apply LogGrows.emit_right | exact hlaunch
                     | exact LaunchRotZero.quiet _ trivial
       done)

theorem boot_android_init_rotzero (cfg : Config) (env : Env) (b : Nat) (s : boot_state)
    (tgt : boot_target) (load_base sz : Nat) (st : St) :
    LogGrows LaunchRotZero st.log (boot_android_init cfg env b s tgt load_base sz st).st.log := by
  unfold boot_android_init
  simp only []
  have hi : LogGrows LaunchRotZero st.log (call_init_trusty_startup_params env load_base sz st).2.log :=
    ⟨_, call_init_trusty_startup_params_log env load_base sz st, by
      intro e he
      simp only [List.mem_singleton] at he
      subst he
      exact LaunchRotZero.quiet _ trivial⟩
  have hz := call_init_trusty_startup_params_rot env load_base sz st
  generalize call_init_trusty_startup_params env load_base sz st = i at hi hz ⊢
  have hr : LogGrows LaunchRotZero i.2.log (call_get_rot_data env b s i.2).2.log :=
    ⟨_, call_get_rot_data_log env b s i.2, by
      intro e he
      simp only [List.mem_singleton] at he
      subst he
      exact LaunchRotZero.quiet _ trivial⟩
  have hx : ∀ r X, (boot_android_exit cfg r X).st.log = X.log := by
    intro r X
    unfold boot_android_exit
    simp only [Run.st]
    split <;> rfl
  split
  · rw [hx]; exact hi
  · rename_i herr
    split
    · rw [hx]; exact hi.trans hr
    · exact (hi.trans hr).trans (boot_android_launch_rotzero cfg env b s tgt _
        (hz (by simpa using herr)))

theorem boot_android_trusty_rotzero (cfg : Config) (env : Env) (b : Nat) (s : boot_state)
    (tgt : boot_target) (st : St) :
    LogGrows LaunchRotZero st.log (boot_android_trusty cfg env b s tgt st).st.log := by
  have hn := fun lb sz X => boot_android_init_rotzero cfg env b s tgt lb sz X
  unfold boot_android_trusty
  simp only []
  repeat' split
  all_goals
    first
    | (refine LogGrows.trans ?_ (hn _ _ _)
       repeat' first | exact LogGrows.refl _ _ | apply LogGrows.emit_right
                     | exact LaunchRotZero.quiet _ trivial
       done)
    | (repeat' first | exact LogGrows.refl _ _ | apply LogGrows.emit_right
                     | exact LaunchRotZero.quiet _ trivial
       done)

theorem boot_android_rotzero (cfg : Config) (env : Env) (fuel : Nat) (tgt : boot_target) (st : St) :
    LogGrows LaunchRotZero st.log (boot_android cfg env fuel tgt st).st.log := by
  have hl := ((load_boot_image_grows env fuel tgt 0 st).1.mono isLoaderCall_notLaunch).mono
    LaunchRotZero.quiet
  unfold boot_android
  split
  · rename_i r st1 heq
    rw [heq] at hl
    simp only [Run.st] at hl
    split
    · exact hl
    · simp only [validate_bootimage_st]
      have hv := hl.emit_right (P := LaunchRotZero) st1
        (.verify_android_boot_image r.2 (env.verify_android_boot_image st1.now r.2).1
            (env.verify_android_boot_image st1.now r.2).2.1) (LaunchRotZero.quiet _ trivial)
      split
      · exact hv.trans (boot_android_trusty_rotzero cfg env _ _ _ _)
      · exact hv.trans ((boot_android_start_notLaunch cfg env _ _ _ _).mono LaunchRotZero.quiet)
  · rename_i st1 heq
    rw [heq] at hl
    exact hl
  · rename_i st1 heq
    rw [heq] at hl
    exact hl


theorem avb_boot_android_fail_notLaunch (cfg : Config) (live : Bool) (ret : EFI_STATUS) (st : St) :
    LogGrows (fun e => isNotLaunch e.call) st.log
      (avb_boot_android_fail cfg live ret st).st.log :=
  (avb_boot_android_fail_grows cfg live ret st).mono (fun e he => by
    have he' : e.call = .avb_slot_verify_data_free := he
    show isNotLaunch e.call
    rw [he']; trivial)

theorem avb_boot_android_start_notLaunch (cfg : Config) (env : Env) (b : Nat) (s : boot_state)
    (tgt : boot_target) (live : Bool) (st : St) :
    LogGrows (fun e => isNotLaunch e.call) st.log
      (avb_boot_android_start cfg env b s tgt live st).st.log := by
  have hf := fun l r X => avb_boot_android_fail_notLaunch cfg l r X
  have hs := fun X => (start_boot_image_grows cfg env b s tgt X).1.mono
    (isStartCall_notLaunch s)
  have h0 : LogGrows (fun e => isNotLaunch e.call) st.log
      (if s = .BOOT_STATE_GREEN then
        st.emit .avb_update_stored_rollback_indexes_for_slot else st).log := by
    split
    · exact LogGrows.emit _ _ trivial
    · exact LogGrows.refl _ _
  have h1 := h0.trans (hs _)
  unfold avb_boot_android_start
  simp only []
  split
  · rename_i ret st' heq
    rw [heq] at h1
    exact h1.trans (hf _ _ _)
  · rename_i st' heq
    rw [heq] at h1
    exact h1
  · rename_i st' heq
    rw [heq] at h1
    exact h1

theorem avb_boot_android_rot_notLaunch (cfg : Config) (env : Env) (sd : AvbSlotVerifyData)
    (b : Nat) (s : boot_state) (tgt : boot_target) (st : St) :
    LogGrows (fun e => isNotLaunch e.call) st.log
      (avb_boot_android_rot cfg env sd b s tgt st).st.log := by
  have hf := fun l r X => avb_boot_android_fail_notLaunch cfg l r X
  have hs := fun X => avb_boot_android_start_notLaunch cfg env b s tgt false X
  unfold avb_boot_android_rot call_get_rot_data
  simp only []
  repeat' split
  all_goals
    first
    | (refine LogGrows.trans ?_ (hf _ _ _)
       repeat' first | exact LogGrows.refl _ _ | apply LogGrows.emit_right | exact trivial
       done)
    | (refine LogGrows.trans ?_ (hs _)
       repeat' first | exact LogGrows.refl _ _ | apply LogGrows.emit_right | exact trivial
       done)

theorem avb_boot_android_launch_rotzero (cfg : Config) (env : Env) (sd sdt : AvbSlotVerifyData)
    (b : Nat) (s : boot_state) (tgt : boot_target) (st : St)
    (hz : allZero st.mem.trusty_startup_params.RotData) :
    LogGrows LaunchRotZero st.log (avb_boot_android_launch cfg env sd sdt b s tgt st).st.log := by
  have hn := fun X => (avb_boot_android_rot_notLaunch cfg env sd b s tgt X).mono
    LaunchRotZero.quiet
  have hf := fun l r X => (avb_boot_android_fail_notLaunch cfg l r X).mono LaunchRotZero.quiet
  have hlaunch : LaunchRotZero ⟨.launch_trusty_os st.mem.trusty_startup_params, st.mem⟩ := by
    intro p hp
    cases hp
    exact ⟨rfl, hz⟩
  unfold avb_boot_android_launch launch_trusty_os
  simp only []
  repeat' split
  all_goals
    first
    | (refine LogGrows.trans ?_ (hn _)
       repeat' first | exact LogGrows.refl _ _ | apply LogGrows.emit_right | exact hlaunch
                     | exact LaunchRotZero.quiet _ trivial
       done)
    | (refine LogGrows.trans ?_ (hf _ _ _)
       repeat' first | exact LogGrows.refl _ _ | apply LogGrows.emit_right | exact hlaunch
                     | exact LaunchRotZero.quiet _ trivial
       done)

theorem avb_boot_android_init_rotzero (cfg : Config) (env : Env) (sd sdt : AvbSlotVerifyData)
    (b : Nat) (s : boot_state) (tgt : boot_target) (st : St) :
    LogGrows LaunchRotZero st.log (avb_boot_android_init cfg env sd sdt b s tgt st).st.log := by
  unfold avb_boot_android_init
  simp only []
  have hi : LogGrows LaunchRotZero st.log (call_init_trusty_startup_params env
      (sdt.data + sdt.header.page_size) sdt.header.kernel_size st).2.log :=
    ⟨_, call_init_trusty_startup_params_log env _ _ st, by
      intro e he
      simp only [List.mem_singleton] at he
      subst he
      exact LaunchRotZero.quiet _ trivial⟩
  have hz := call_init_trusty_startup_params_rot env (sdt.data + sdt.header.page_size)
    sdt.header.kernel_size st
  generalize call_init_trusty_startup_params env (sdt.data + sdt.header.page_size)
    sdt.header.kernel_size st = i at hi hz ⊢
  split
  · exact hi.trans ((avb_boot_android_fail_notLaunch cfg _ _ _).mono LaunchRotZero.quiet)
  · rename_i herr
    exact hi.trans (avb_boot_android_launch_rotzero cfg env sd sdt b s tgt _
      (hz (by simpa using herr)))

theorem avb_boot_android_trusty_rotzero (cfg : Config) (env : Env) (suffix : List Nat)
    (allow : Bool) (sd : AvbSlotVerifyData) (b : Nat) (s : boot_state) (tgt : boot_target)
    (st : St) :
    LogGrows LaunchRotZero st.log
      (avb_boot_android_trusty cfg env suffix allow sd b s tgt st).st.log := by
  have hn := fun sdt X => avb_boot_android_init_rotzero cfg env sd sdt b s tgt X
  have hf := fun l r X => (avb_boot_android_fail_notLaunch cfg l r X).mono LaunchRotZero.quiet
  unfold avb_boot_android_trusty
  simp only []
  repeat' split
  all_goals
    first
    | (refine LogGrows.trans ?_ (hn _ _)
       repeat' first | exact LogGrows.refl _ _ | apply LogGrows.emit_right
                     | exact LaunchRotZero.quiet _ trivial
       done)
    | (refine LogGrows.trans ?_ (hf _ _ _)
       repeat' first | exact LogGrows.refl _ _ | apply LogGrows.emit_right
                     | exact LaunchRotZero.quiet _ trivial
       done)

theorem avb_boot_android_rotzero (cfg : Config) (env : Env) (tgt : boot_target) (st : St) :
    LogGrows LaunchRotZero st.log (avb_boot_android cfg env tgt st).st.log := by
  have hn := fun suffix allow sd b s X =>
    avb_boot_android_trusty_rotzero cfg env suffix allow sd b s tgt X
  have hs := fun b s X => (avb_boot_android_start_notLaunch cfg env b s tgt false X).mono
    LaunchRotZero.quiet
  have hf := fun l r X => (avb_boot_android_fail_notLaunch cfg l r X).mono LaunchRotZero.quiet
  unfold avb_boot_android
  simp only []
  repeat' split
  all_goals
    first
    | (refine LogGrows.trans ?_ (hn _ _ _ _ _ _)
       repeat' first | exact LogGrows.refl _ _ | apply LogGrows.emit_right
                     | exact LaunchRotZero.quiet _ trivial
       done)
    | (refine LogGrows.trans ?_ (hs _ _ _)
       repeat' first | exact LogGrows.refl _ _ | apply LogGrows.emit_right
                     | exact LaunchRotZero.quiet _ trivial
       done)
    | (refine LogGrows.trans ?_ (hf _ _ _)
       repeat' first | exact LogGrows.refl _ _ | apply LogGrows.emit_right
                     | exact LaunchRotZero.quiet _ trivial
       done)
    | (repeat' first | exact LogGrows.refl _ _ | apply LogGrows.emit_right
                     | exact LaunchRotZero.quiet _ trivial
       done)


theorem mem_launches (log : List Event) (pm : trusty_startup_params_t × Mem)
    (h : pm ∈ launches log) : ∃ e ∈ log, e.call = .launch_trusty_os pm.1 ∧ e.mem = pm.2 := by
  simp only [launches, List.mem_filterMap] at h
  obtain ⟨e, he, hc⟩ := h
  refine ⟨e, he, ?_⟩
  split at hc
  · rename_i p hp
    simp only [Option.some.injEq] at hc
    subst hc
    exact ⟨hp, rfl⟩
  · cases hc

theorem launches_rotzero {l l' : List Event} (h : LogGrows LaunchRotZero l l') :
    ∃ evs, l' = l ++ evs ∧
      ∀ pm ∈ launches evs, pm.1 = pm.2.trusty_startup_params ∧ allZero pm.1.RotData := by
  obtain ⟨evs, hl, hp⟩ := h
  refine ⟨evs, hl, fun pm hpm => ?_⟩
  obtain ⟨e, he, hc, hm⟩ := mem_launches evs pm hpm
  have := hp e he pm.1 hc
  rw [hm] at this
  exact this

/-- C7, as amended: in `boot_android` and in `avb_boot_android`, from any state,
every call of `launch_trusty_os` is given the block `trusty_startup_params` as it
lies in memory at that moment, and the `RotData` field of that block is all zero:
`init_trusty_startup_params` clears the block and nothing writes the field
afterwards (the root-of-trust data is written to the global `g_rot_data`). -/
theorem launch_trusty_os_block_rot_data_zero (cfg : Config) (env : Env) (fuel : Nat)
    (tgt : boot_target) (st : St) :
    (∃ evs, (boot_android cfg env fuel tgt st).st.log = st.log ++ evs ∧
      ∀ pm ∈ launches evs, pm.1 = pm.2.trusty_startup_params ∧ allZero pm.1.RotData) ∧
    (∃ evs, (avb_boot_android cfg env tgt st).st.log = st.log ++ evs ∧
      ∀ pm ∈ launches evs, pm.1 = pm.2.trusty_startup_params ∧ allZero pm.1.RotData) :=
  ⟨launches_rotzero (boot_android_rotzero cfg env fuel tgt st),
   launches_rotzero (avb_boot_android_rotzero cfg env tgt st)⟩

/-- C7 as stated fails: with one seed announced and every step succeeding,
`boot_android` calls `launch_trusty_os` once, the `RotData` field of the block it
passes is 56 zero bytes, and the root-of-trust data built by `get_rot_data` for
this attempt (56 bytes of 7) lies in `g_rot_data`. -/
theorem boot_android_launch_rot_data_not_built :
    (launches (boot_android sampleCfg sampleEnv 1 .NORMAL_BOOT (sampleSt 1)).st.log).map
      (fun pm => (pm.1.RotData, pm.2.g_rot_data)) =
      [(List.replicate 56 0, List.replicate 56 7)] := by
  decide


/-! ## The seeds of the block after `launch_trusty_os` -/

theorem clear_startup_seeds_zero (st : St) :
    ∀ s ∈ (clear_startup_seeds st).mem.trusty_startup_params.seed_list, s.isZero := by
  intro s hs
  simp only [clear_startup_seeds, List.mem_map] at hs
  obtain ⟨x, _, rfl⟩ := hs
  exact ⟨rfl, allZero_zeroBytes _, allZero_zeroBytes _⟩

theorem ReturnsCleared.gone (st : St) : ReturnsCleared (.gone st) := by
  intro ret st' h
  cases h

theorem ReturnsCleared.stuck (st : St) : ReturnsCleared (.stuck st) := by
  intro ret st' h
  cases h

theorem SeedsClearedAtReturn_of_grows {st : St} {r : Run EFI_STATUS}
    (h : LogGrows (fun e => isNotLaunch e.call) st.log r.st.log) : SeedsClearedAtReturn st r := by
  obtain ⟨evs, hl, hp⟩ := h
  refine ⟨evs, hl, fun ret st' _ hin => ?_⟩
  obtain ⟨p, hin⟩ := hin
  simp only [callsOf, List.mem_map] at hin
  obtain ⟨e, he, hc⟩ := hin
  have := hp e he
  simp only [hc] at this
  exact absurd this (fun h => h)

theorem SeedsClearedAtReturn.of_cleared {P : Event → Prop} {st : St} {r : Run EFI_STATUS}
    (h : LogGrows P st.log r.st.log) (hc : ReturnsCleared r) : SeedsClearedAtReturn st r := by
  obtain ⟨evs, hl, _⟩ := h
  exact ⟨evs, hl, fun ret st' hr _ => hc ret st' hr⟩

theorem SeedsClearedAtReturn_extend {st X : St} {r : Run EFI_STATUS}
    (h : LogGrows (fun e => isNotLaunch e.call) st.log X.log)
    (hr : SeedsClearedAtReturn X r) : SeedsClearedAtReturn st r := by
  obtain ⟨pre, hl, hp⟩ := h
  obtain ⟨evs, hl2, h2⟩ := hr
  refine ⟨pre ++ evs, by rw [hl2, hl, List.append_assoc], fun ret st' hret hin => ?_⟩
  refine h2 ret st' hret ?_
  obtain ⟨p, hin⟩ := hin
  rw [callsOf_append, List.mem_append] at hin
  rcases hin with hin | hin
  · simp only [callsOf, List.mem_map] at hin
    obtain ⟨e, he, hc⟩ := hin
    have := hp e he
    simp only [hc] at this
    exact absurd this (fun h => h)
  · exact ⟨p, hin⟩

theorem boot_android_exit_cleared (cfg : Config) (hT : cfg.USE_TRUSTY = true) (ret : EFI_STATUS)
    (st : St) : ReturnsCleared (boot_android_exit cfg ret st) := by
  intro ret' st' h
  unfold boot_android_exit at h
  simp only [hT, if_true, Run.ret.injEq] at h
  rw [← h.2]
  exact clear_startup_seeds_zero st

theorem boot_android_start_cleared (cfg : Config) (env : Env) (hT : cfg.USE_TRUSTY = true)
    (b : Nat) (s : boot_state) (tgt : boot_target) (st : St) :
    ReturnsCleared (boot_android_start cfg env b s tgt st) := by
  unfold boot_android_start
  repeat' split
  all_goals
    first
    | exact boot_android_exit_cleared cfg hT _ _
    | exact ReturnsCleared.gone _
    | exact ReturnsCleared.stuck _

theorem boot_android_launch_cleared (cfg : Config) (env : Env) (hT : cfg.USE_TRUSTY = true)
    (b : Nat) (s : boot_state) (tgt : boot_target) (st : St) :
    ReturnsCleared (boot_android_launch cfg env b s tgt st) := by
  unfold boot_android_launch
  simp only []
  repeat' split
  all_goals
    first
    | exact boot_android_exit_cleared cfg hT _ _
    | exact boot_android_start_cleared cfg env hT _ _ _ _

theorem boot_android_init_cleared (cfg : Config) (env : Env) (hT : cfg.USE_TRUSTY = true)
    (b : Nat) (s : boot_state) (tgt : boot_target) (load_base sz : Nat) (st : St) :
    ReturnsCleared (boot_android_init cfg env b s tgt load_base sz st) := by
  unfold boot_android_init
  simp only []
  repeat' split
  all_goals
    first
    | exact boot_android_exit_cleared cfg hT _ _
    | exact boot_android_launch_cleared cfg env hT _ _ _ _

theorem boot_android_trusty_seeds (cfg : Config) (env : Env) (hT : cfg.USE_TRUSTY = true)
    (b : Nat) (s : boot_state) (tgt : boot_target) (st : St) :
    SeedsClearedAtReturn st (boot_android_trusty cfg env b s tgt st) := by
  have hn := fun lb sz X => SeedsClearedAtReturn.of_cleared
    (boot_android_init_rotzero cfg env b s tgt lb sz X)
    (boot_android_init_cleared cfg env hT b s tgt lb sz X)
  unfold boot_android_trusty
  simp only []
  repeat' split
  all_goals
    first
    | (refine SeedsClearedAtReturn_extend ?_ (hn _ _ _)
       repeat' first | exact LogGrows.refl _ _ | apply LogGrows.emit_right | exact trivial
       done)
    | (refine SeedsClearedAtReturn_of_grows ?_
       repeat' first | exact LogGrows.refl _ _ | apply LogGrows.emit_right | exact trivial
       done)

theorem boot_android_seeds (cfg : Config) (env : Env) (fuel : Nat) (tgt : boot_target)
    (st : St) : SeedsClearedAtReturn st (boot_android cfg env fuel tgt st) := by
  have hl := (load_boot_image_grows env fuel tgt 0 st).1.mono isLoaderCall_notLaunch
  unfold boot_android
  split
  · rename_i r st1 heq
    rw [heq] at hl
    simp only [Run.st] at hl
    split
    · exact SeedsClearedAtReturn_of_grows hl
    · simp only [validate_bootimage_st]
      have hv := hl.emit_right (P := fun e => isNotLaunch e.call) st1
        (.verify_android_boot_image r.2 (env.verify_android_boot_image st1.now r.2).1
            (env.verify_android_boot_image st1.now r.2).2.1) trivial
      split
      · rename_i hc
        have hT : cfg.USE_TRUSTY = true := by
          simp only [Bool.and_eq_true] at hc
          exact hc.1
        exact SeedsClearedAtReturn_extend hv (boot_android_trusty_seeds cfg env hT _ _ _ _)
      · exact SeedsClearedAtReturn_of_grows
          (hv.trans (boot_android_start_notLaunch cfg env _ _ _ _))
  · rename_i st1 heq
    rw [heq] at hl
    exact SeedsClearedAtReturn_of_grows hl
  · rename_i st1 heq
    rw [heq] at hl
    exact SeedsClearedAtReturn_of_grows hl

theorem avb_boot_android_fail_cleared (cfg : Config) (hT : cfg.USE_TRUSTY = true) (live : Bool)
    (ret : EFI_STATUS) (st : St) : ReturnsCleared (avb_boot_android_fail cfg live ret st) := by
  intro ret' st' h
  unfold avb_boot_android_fail at h
  simp only [hT, if_true, Run.ret.injEq] at h
  rw [← h.2]
  exact clear_startup_seeds_zero _

theorem avb_boot_android_start_cleared (cfg : Config) (env : Env) (hT : cfg.USE_TRUSTY = true)
    (b : Nat) (s : boot_state) (tgt : boot_target) (live : Bool) (st : St) :
    ReturnsCleared (avb_boot_android_start cfg env b s tgt live st) := by
  unfold avb_boot_android_start
  simp only []
  split
  · exact avb_boot_android_fail_cleared cfg hT _ _ _
  · exact ReturnsCleared.gone _
  · exact ReturnsCleared.stuck _

theorem avb_boot_android_rot_cleared (cfg : Config) (env : Env) (hT : cfg.USE_TRUSTY = true)
    (sd : AvbSlotVerifyData) (b : Nat) (s : boot_state) (tgt : boot_target) (st : St) :
    ReturnsCleared (avb_boot_android_rot cfg env sd b s tgt st) := by
  unfold avb_boot_android_rot
  simp only []
  repeat' split
  all_goals
    first
    | exact avb_boot_android_fail_cleared cfg hT _ _ _
    | exact avb_boot_android_start_cleared cfg env hT _ _ _ _ _

theorem avb_boot_android_launch_cleared (cfg : Config) (env : Env) (hT : cfg.USE_TRUSTY = true)
    (sd sdt : AvbSlotVerifyData) (b : Nat) (s : boot_state) (tgt : boot_target) (st : St) :
    ReturnsCleared (avb_boot_android_launch cfg env sd sdt b s tgt st) := by
  unfold avb_boot_android_launch
  simp only []
  split
  · exact avb_boot_android_fail_cleared cfg hT _ _ _
  · exact avb_boot_android_rot_cleared cfg env hT _ _ _ _ _

theorem avb_boot_android_init_cleared (cfg : Config) (env : Env) (hT : cfg.USE_TRUSTY = true)
    (sd sdt : AvbSlotVerifyData) (b : Nat) (s : boot_state) (tgt : boot_target) (st : St) :
    ReturnsCleared (avb_boot_android_init cfg env sd sdt b s tgt st) := by
  unfold avb_boot_android_init
  simp only []
  split
  · exact avb_boot_android_fail_cleared cfg hT _ _ _
  · exact avb_boot_android_launch_cleared cfg env hT _ _ _ _ _ _

theorem avb_boot_android_trusty_cleared (cfg : Config) (env : Env) (hT : cfg.USE_TRUSTY = true)
    (suffix : List Nat) (allow : Bool) (sd : AvbSlotVerifyData) (b : Nat) (s : boot_state)
    (tgt : boot_target) (st : St) :
    ReturnsCleared (avb_boot_android_trusty cfg env suffix allow sd b s tgt st) := by
  unfold avb_boot_android_trusty
  simp only []
  repeat' split
  all_goals
    first
    | exact avb_boot_android_fail_cleared cfg hT _ _ _
    | exact avb_boot_android_init_cleared cfg env hT _ _ _ _ _ _

theorem avb_boot_android_seeds (cfg : Config) (env : Env) (tgt : boot_target) (st : St) :
    SeedsClearedAtReturn st (avb_boot_android cfg env tgt st) := by
  by_cases hc : (cfg.USE_TRUSTY && decide (tgt = .NORMAL_BOOT)) = true
  · have hT : cfg.USE_TRUSTY = true := by
      simp only [Bool.and_eq_true] at hc
      exact hc.1
    have hn := fun suffix allow sd b s X => SeedsClearedAtReturn.of_cleared
      (avb_boot_android_trusty_rotzero cfg env suffix allow sd b s tgt X)
      (avb_boot_android_trusty_cleared cfg env hT suffix allow sd b s tgt X)
    have hf := fun l r X => avb_boot_android_fail_notLaunch cfg l r X
    unfold avb_boot_android
    simp only [hc, if_true]
    repeat' split
    all_goals
      first
      | (refine SeedsClearedAtReturn_extend ?_ (hn _ _ _ _ _ _)
         repeat' first | exact LogGrows.refl _ _ | apply LogGrows.emit_right | exact trivial
         done)
      | (refine SeedsClearedAtReturn_of_grows (LogGrows.trans ?_ (hf _ _ _))
         repeat' first | exact LogGrows.refl _ _ | apply LogGrows.emit_right | exact trivial
         done)
      | (refine SeedsClearedAtReturn_of_grows ?_
         repeat' first | exact LogGrows.refl _ _ | apply LogGrows.emit_right | exact trivial
         done)
  · have hs := fun b s X => avb_boot_android_start_notLaunch cfg env b s tgt false X
    have hf := fun l r X => avb_boot_android_fail_notLaunch cfg l r X
    unfold avb_boot_android
    simp only [hc, Bool.false_eq_true, if_false]
    repeat' split
    all_goals
      first
      | (refine SeedsClearedAtReturn_of_grows (LogGrows.trans ?_ (hs _ _ _))
         repeat' first | exact LogGrows.refl _ _ | apply LogGrows.emit_right | exact trivial
         done)
      | (refine SeedsClearedAtReturn_of_grows (LogGrows.trans ?_ (hf _ _ _))
         repeat' first | exact LogGrows.refl _ _ | apply LogGrows.emit_right | exact trivial
         done)
      | (refine SeedsClearedAtReturn_of_grows ?_
         repeat' first | exact LogGrows.refl _ _ | apply LogGrows.emit_right | exact trivial
         done)

/-- The paths that return: when `boot_android` or `avb_boot_android` returns
after it has called `launch_trusty_os`, every seed entry of the block
`trusty_startup_params` is zero in the memory it leaves. -/
theorem seed_list_cleared_at_return (cfg : Config) (env : Env) (fuel : Nat)
    (tgt : boot_target) (st : St) :
    SeedsClearedAtReturn st (boot_android cfg env fuel tgt st) ∧
    SeedsClearedAtReturn st (avb_boot_android cfg env tgt st) :=
  ⟨boot_android_seeds cfg env fuel tgt st, avb_boot_android_seeds cfg env tgt st⟩

/-- With one seed announced and every step up to the chain-load succeeding, the
block still holds the four seed entries of the firmware when `boot_android`
calls `trusty_ipc_init`, the first step after `launch_trusty_os`. -/
theorem boot_android_seeds_live_at_handshake :
    (entriesOf .trusty_ipc_init
      (boot_android sampleCfg sampleEnv 1 .NORMAL_BOOT (sampleSt 1)).st.log).map
      (fun e => e.mem.trusty_startup_params.seed_list) = [sampleSeeds] := by
  decide

/-- C8, the code against the claim.  Both boot functions clear the seed list of
the block only at their label `exit` (`fail`): on every path on which they
return after `launch_trusty_os` the seed list is zero at the return.  They do
not clear it before the later steps: at `trusty_ipc_init`, the first step after
`launch_trusty_os`, the block still holds the four seed entries.  And when the
chain-load takes, the label is never reached: `boot_android` and
`avb_boot_android` end inside the booted image, after `launch_trusty_os`, with
the four seed entries still in the block. -/
theorem boot_android_booted_image_finds_seeds :
    (∀ (cfg : Config) (env : Env) (fuel : Nat) (tgt : boot_target) (st : St),
      SeedsClearedAtReturn st (boot_android cfg env fuel tgt st) ∧
      SeedsClearedAtReturn st (avb_boot_android cfg env tgt st)) ∧
    (entriesOf .trusty_ipc_init
      (boot_android sampleCfg sampleEnv 1 .NORMAL_BOOT (sampleSt 1)).st.log).map
      (fun e => e.mem.trusty_startup_params.seed_list) = [sampleSeeds] ∧
    (boot_android sampleCfg envBoots 1 .NORMAL_BOOT (sampleSt 1)).isGone = true ∧
    (launches (boot_android sampleCfg envBoots 1 .NORMAL_BOOT (sampleSt 1)).st.log).length = 1 ∧
    (boot_android sampleCfg envBoots 1 .NORMAL_BOOT
      (sampleSt 1)).st.mem.trusty_startup_params.seed_list = sampleSeeds ∧
    (avb_boot_android sampleCfgAvb envBoots .NORMAL_BOOT (sampleSt 1)).isGone = true ∧
    (launches (avb_boot_android sampleCfgAvb envBoots .NORMAL_BOOT (sampleSt 1)).st.log).length
      = 1 ∧
    (avb_boot_android sampleCfgAvb envBoots .NORMAL_BOOT
      (sampleSt 1)).st.mem.trusty_startup_params.seed_list = sampleSeeds ∧
    ¬ (∀ s ∈ sampleSeeds, s.isZero) := by
  refine ⟨fun cfg env fuel tgt st =>
    ⟨boot_android_seeds cfg env fuel tgt st, avb_boot_android_seeds cfg env tgt st⟩,
    by decide, by decide, by decide, by decide, by decide, by decide, by decide, by decide⟩

/-! ## The key handed to storage -/

theorem handoffs_append (a b : List Event) : handoffs (a ++ b) = handoffs a ++ handoffs b := by
  simp [handoffs, callsOf]

theorem handoffs_nil : handoffs [] = [] := rfl

theorem derive_rpmb_key_with_index_handoffs (env : Env) (st : St) (i : Nat) (kbuf : List Nat) :
    ∃ evs, (derive_rpmb_key_with_index env st i kbuf).2.2.log = st.log ++ evs ∧
      handoffs evs = [] := by
  unfold derive_rpmb_key_with_index
  cases env.get_serial_number st.now with
  | none => exact ⟨[], by simp, rfl⟩
  | some serialno =>
    simp only []
    split
    · generalize env.HKDF st.now (seedSecret env st.mem i) crypo_uuid
        (cleared_serial serialno) = out
      cases out <;> exact ⟨[_], rfl, rfl⟩
    · exact ⟨[], by simp, rfl⟩

theorem get_rpmb_derived_key_loop_handoffs (env : Env) (n : Nat) :
    ∀ (i : Nat) (kbuf : List (List Nat)) (st : St),
      ∃ evs, (get_rpmb_derived_key_loop env n i kbuf st).2.2.log = st.log ++ evs ∧
        handoffs evs = [] := by
  induction n with
  | zero => intro i kbuf st; exact ⟨[], by simp [get_rpmb_derived_key_loop], rfl⟩
  | succ n ih =>
    intro i kbuf st
    obtain ⟨evs1, hl1, hh1⟩ := derive_rpmb_key_with_index_handoffs env st (i % 256) (kbuf.getD i [])
    simp only [get_rpmb_derived_key_loop]
    generalize derive_rpmb_key_with_index env st (i % 256) (kbuf.getD i []) = d at hl1
    obtain ⟨ret, row, st1⟩ := d
    simp only at hl1 ⊢
    split
    · exact ⟨evs1, hl1, hh1⟩
    · obtain ⟨evs2, hl2, hh2⟩ := ih (i + 1) (kbuf.set i row) st1
      exact ⟨evs1 ++ evs2, by rw [hl2, hl1, List.append_assoc], by
        rw [handoffs_append, hh1, hh2]; rfl⟩

theorem probeHit_not_authFailure (p : Probe) (h : probeHit p) : ¬ reportsAuthFailure p := by
  rintro ⟨h1, h2⟩
  rcases h with h | h
  · exact h1 h
  · rw [h2] at h
    cases h

/-- How the probing loop is left after a probe that hits: not through the error
label, with `i` at the index of that probe and `key` holding the probed key. -/
theorem probe_loop_hit (env : Env) (n : Nat) :
    ∀ (i : Nat) (ret : EFI_STATUS) (st : St) (e : ProbeExit),
      probe_loop env n i ret st = e →
      ∃ evs, e.st.log = st.log ++ evs ∧ handoffs evs = [] ∧
        ∀ front last, probes evs = front ++ [last] → probeHit last →
          e.toErr = false ∧ e.i = i + front.length ∧ e.st.mem.key = last.1 := by
  induction n with
  | zero =>
    intro i ret st e he
    simp only [probe_loop] at he
    subst he
    refine ⟨[], by simp, rfl, ?_⟩
    intro front last h
    simp [probes] at h
  | succ n ih =>
    intro i ret st e he
    simp only [probe_loop] at he
    generalize hr : env.rpmb_read_counter
      (St.now { mem := { st.mem with key := st.mem.out_key.getD i [] }, log := st.log })
      (st.mem.out_key.getD i []) = r at he
    have hone : ∀ (ev : Event) (a : EFI_STATUS) (b : RPMB_RESPONSE_RESULT),
        ev.call = .rpmb_read_counter (st.mem.out_key.getD i []) a b →
        ∀ front last, probes [ev] = front ++ [last] →
          front = [] ∧ last = (st.mem.out_key.getD i [], a, b) := by
      intro ev a b hev front last h
      rw [(probes_one ev _ _ _ hev).1] at h
      match front, h with
      | [], h =>
        simp only [List.nil_append] at h
        exact ⟨rfl, (List.singleton_inj.mp h).symm⟩
      | _ :: f, h =>
        simp only [List.cons_append, List.cons.injEq] at h
        have := congrArg List.length h.2
        simp at this
    by_cases h1 : r.1 = EFI_SUCCESS
    · simp only [h1, if_true] at he
      subst he
      refine ⟨[_], rfl, rfl, ?_⟩
      intro front last h _
      obtain ⟨hf, hlast⟩ := hone _ _ _ rfl front last h
      subst hf hlast
      exact ⟨rfl, rfl, rfl⟩
    · by_cases h2 : r.2 = .RPMB_RES_NO_AUTH_KEY_PROGRAM
      · simp only [h1, h2, if_true, if_false] at he
        subst he
        refine ⟨[_], rfl, rfl, ?_⟩
        intro front last h _
        obtain ⟨hf, hlast⟩ := hone _ _ _ rfl front last h
        subst hf hlast
        exact ⟨rfl, rfl, rfl⟩
      · by_cases h3 : r.2 = .RPMB_RES_AUTH_FAILURE
        · simp only [h1, h2, h3, ne_eq, not_true_eq_false, if_false] at he
          obtain ⟨evs2, hl2, hh2, hx2⟩ := ih (i + 1) _ _ e he
          simp only [emit_log] at hl2
          refine ⟨_ :: evs2, by rw [hl2, List.append_assoc]; rfl, ?_, ?_⟩
          · rw [← List.singleton_append, handoffs_append, hh2]; rfl
          · intro front last h hhit
            rw [(probes_cons_one _ evs2 _ _ _ rfl).1] at h
            match front, h with
            | [], h =>
              simp only [List.nil_append, List.cons.injEq] at h
              rw [← h.1] at hhit
              rcases hhit with hhit | hhit
              · exact absurd hhit h1
              · cases hhit
            | p :: f, h =>
              simp only [List.cons_append, List.cons.injEq] at h
              obtain ⟨a, b, c⟩ := hx2 f last h.2 hhit
              refine ⟨a, ?_, c⟩
              rw [b]
              simp only [List.length_cons]
              omega
        · simp only [h1, h2, h3, ne_eq, not_false_eq_true, if_true, if_false] at he
          subst he
          refine ⟨[_], rfl, rfl, ?_⟩
          intro front last h hhit
          obtain ⟨hf, hlast⟩ := hone _ _ _ rfl front last h
          subst hf hlast
          rcases hhit with hhit | hhit
          · exact absurd hhit h1
          · exact absurd hhit h2

/-- The tail of `osloader_rpmb_key_init` hands `key` to storage once: through
`set_rpmb_key` when `is_rpmb_programed()` says yes, through `program_rpmb_key`
when it says no. -/
theorem osloader_rpmb_key_init_tail_handoff (cfg : Config) (env : Env) (ret : EFI_STATUS)
    (st : St) (b : Bool) (hb : ∀ t, env.is_rpmb_programed t = b) :
    ∃ evs, (osloader_rpmb_key_init_tail cfg env ret st).2.log = st.log ++ evs ∧
      probes evs = [] ∧
      (b = true → handoffs evs = [.set_rpmb_key st.mem.key]) ∧
      (b = false → ∃ r, handoffs evs = [.program_rpmb_key st.mem.key r]) := by
  unfold osloader_rpmb_key_init_tail
  cases b with
  | true =>
    simp only [hb, Bool.not_true, Bool.false_eq_true, if_false]
    refine ⟨[{ call := .set_rpmb_key st.mem.key, mem := st.mem }], ?_, rfl, fun _ => rfl, ?_⟩
    · split <;> rfl
    · intro h
      exact absurd h (by simp)
  | false =>
    simp only [hb, Bool.not_false, if_true]
    refine ⟨[{ call := .program_rpmb_key st.mem.key (env.program_rpmb_key st.now st.mem.key)
               mem := st.mem }], ?_, rfl, ?_, fun _ => ⟨_, rfl⟩⟩
    · repeat' split
      all_goals rfl
    · intro h
      exact absurd h (by simp)

/-- The key handed to storage by `osloader_rpmb_key_init`, from the call of
`get_rpmb_derived_key` on, when the last probe hits. -/
theorem osloader_rpmb_key_init_keys_handoff (cfg : Config) (env : Env) (st : St)
    (h4 : st.mem.p_trusty_boot_params.num_seeds ≤ 4) (hrows : st.mem.out_key.length = 4)
    (b : Bool) (hb : ∀ t, env.is_rpmb_programed t = b) :
    ∃ evs, (osloader_rpmb_key_init_keys cfg env st).2.log = st.log ++ evs ∧
      ∀ front last, probes evs = front ++ [last] → probeHit last →
        (b = true → handoffs evs = [.set_rpmb_key last.1]) ∧
        (b = false → ∃ r, handoffs evs = [.program_rpmb_key last.1 r]) := by
  unfold osloader_rpmb_key_init_keys get_rpmb_derived_key
  have hsz : ¬ (BOOTLOADER_SEED_MAX_ENTRIES * env.RPMB_KEY_SIZE <
      st.mem.p_trusty_boot_params.num_seeds * env.RPMB_KEY_SIZE % 2 ^ 32) := by
    have := Nat.mod_le (st.mem.p_trusty_boot_params.num_seeds * env.RPMB_KEY_SIZE) (2 ^ 32)
    have := Nat.mul_le_mul_right env.RPMB_KEY_SIZE h4
    simp only [BOOTLOADER_SEED_MAX_ENTRIES]
    omega
  simp only [hsz, if_false]
  obtain ⟨evs1, hst1, hp1, -, -, -, -, -, -⟩ :=
    get_rpmb_derived_key_loop_spec env st.mem.p_trusty_boot_params.num_seeds 0 st.mem.out_key st _
      rfl (by omega) (by omega) (by omega)
  obtain ⟨evs1', hl1', hh1⟩ :=
    get_rpmb_derived_key_loop_handoffs env st.mem.p_trusty_boot_params.num_seeds 0
      st.mem.out_key st
  generalize get_rpmb_derived_key_loop env st.mem.p_trusty_boot_params.num_seeds 0
    st.mem.out_key st = d at hst1 hl1'
  obtain ⟨ret, kbuf, st1⟩ := d
  simp only at hst1 hl1' ⊢
  subst hst1
  have : evs1' = evs1 := (List.append_cancel_left hl1').symm
  subst this
  split
  · refine ⟨evs1', rfl, ?_⟩
    intro front last h
    rw [hp1] at h
    simp at h
  · obtain ⟨evs2, hl2, hh2, hx2⟩ :=
      probe_loop_hit env st.mem.p_trusty_boot_params.num_seeds 0 ret
        { mem := { st.mem with out_key := kbuf }, log := st.log ++ evs1' } _ rfl
    obtain ⟨evs2', hl2', -, -, -, hlen2, -, -⟩ :=
      probe_loop_spec env st.mem.p_trusty_boot_params.num_seeds 0 ret
        { mem := { st.mem with out_key := kbuf }, log := st.log ++ evs1' } _ rfl
    have : evs2' = evs2 := List.append_cancel_left (hl2'.symm.trans hl2)
    subst this
    generalize probe_loop env st.mem.p_trusty_boot_params.num_seeds 0 ret
      { mem := { st.mem with out_key := kbuf }, log := st.log ++ evs1' } = e at hl2 hx2
    simp only at hl2
    split
    · refine ⟨evs1' ++ evs2', by simp [err_get_rpmb_key, hl2], ?_⟩
      intro front last h hhit
      rw [probes_append, hp1, List.nil_append] at h
      have := (hx2 front last h hhit).1
      simp_all
    · split
      · rename_i hi
        refine ⟨evs1' ++ evs2', by simp [err_get_rpmb_key, hl2], ?_⟩
        intro front last h hhit
        rw [probes_append, hp1, List.nil_append] at h
        have h2 := (hx2 front last h hhit).2.1
        rw [h] at hlen2
        simp only [List.length_append, List.length_cons, List.length_nil,
          BOOTLOADER_SEED_MAX_ENTRIES] at hlen2 hi
        omega
      · obtain ⟨evs3, hl3, hp3, hset, hprog⟩ :=
          osloader_rpmb_key_init_tail_handoff cfg env e.ret e.st b hb
        refine ⟨evs1' ++ evs2' ++ evs3, by rw [hl3, hl2]; simp only [List.append_assoc], ?_⟩
        intro front last h hhit
        rw [probes_append, probes_append, hp1, hp3, List.nil_append, List.append_nil] at h
        have hkey := (hx2 front last h hhit).2.2
        rw [handoffs_append, handoffs_append, hh1, hh2, List.nil_append, List.nil_append,
          ← hkey]
        exact ⟨hset, hprog⟩


theorem kdfs_at_probe (log : List Event) (secret : Nat → List Nat) (front : List Probe)
    (last : Probe) (hp : probes log = front ++ [last])
    (hA : (kdfs log).map (fun k => k.1) = (List.range (kdfs log).length).map secret)
    (hC : (probes log).map (fun p => some p.1) =
      ((kdfs log).map (fun k => k.2)).take (probes log).length) :
    (kdfs log)[front.length]? = some (secret front.length, some last.1) := by
  have h1 := congrArg (fun l => l[front.length]?) hC
  simp only [hp, List.map_append, List.map_cons, List.map_nil, List.length_append,
    List.length_cons, List.length_nil, List.length_map, Nat.lt_irrefl, not_false_eq_true,
    List.getElem?_append_right, Nat.le_refl, Nat.sub_self, List.getElem?_cons_zero,
    List.getElem?_take, Nat.zero_add, Nat.lt_add_one, if_true, List.getElem?_map] at h1
  cases hk : (kdfs log)[front.length]? with
  | none => rw [hk] at h1; simp at h1
  | some k =>
    rw [hk] at h1
    simp only [Option.map_some', Option.some.injEq] at h1
    have hlt : front.length < (kdfs log).length := by
      by_contra hge
      rw [List.getElem?_eq_none (by omega)] at hk
      cases hk
    have h2 := congrArg (fun l => l[front.length]?) hA
    simp only [List.getElem?_map, hk, Option.map_some', List.getElem?_range hlt] at h2
    simp only [Option.some.injEq] at h2
    obtain ⟨k1, k2⟩ := k
    simp only at h1 h2
    rw [← h1, h2]

theorem osloader_rpmb_key_init_keys_handoff_total (cfg : Config) (env : Env) (st : St)
    (log : List Event) (hlog : (osloader_rpmb_key_init_keys cfg env st).2.log = log)
    (hp0 : probes st.log = []) (hk0 : kdfs st.log = []) (hh0 : handoffs st.log = [])
    (h1 : 1 ≤ st.mem.p_trusty_boot_params.num_seeds)
    (h4 : st.mem.p_trusty_boot_params.num_seeds ≤ 4) (hrows : st.mem.out_key.length = 4)
    (front : List Probe) (last : Probe) (hp : probes log = front ++ [last])
    (hhit : probeHit last) (b : Bool) (hb : ∀ t, env.is_rpmb_programed t = b) :
    front.length < st.mem.p_trusty_boot_params.num_seeds ∧
    (kdfs log)[front.length]? = some (seedSecret env st.mem front.length, some last.1) ∧
    (b = true → handoffs log = [.set_rpmb_key last.1]) ∧
    (b = false → ∃ r, handoffs log = [.program_rpmb_key last.1 r]) := by
  obtain ⟨hA, hlen, hC, -, -⟩ :=
    (osloader_rpmb_key_init_keys_total cfg env st log hlog hp0 hk0 h1 h4 hrows).1
  refine ⟨?_, kdfs_at_probe log _ front last hp hA hC, ?_⟩
  · rw [hp] at hlen
    simp only [List.length_append, List.length_cons, List.length_nil] at hlen
    omega
  · obtain ⟨evs, hl, h⟩ := osloader_rpmb_key_init_keys_handoff cfg env st h4 hrows b hb
    rw [hlog] at hl
    subst hl
    rw [probes_append, hp0, List.nil_append] at hp
    rw [handoffs_append, hh0, List.nil_append]
    exact h front last hp hhit

/-- C11, as amended.  With 1 to 4 seeds announced, when the last probe of
`osloader_rpmb_key_init` succeeds or reports that no key is programmed, after
`front` earlier probes (all of them authentication failures), its index
`i = front.length` is below the seed count, the probed key is derived[i] (the
output of the i-th KDF call, made on seed i), and exactly one key is handed to
storage, which is that key: through `set_rpmb_key` when `is_rpmb_programed()`
answers yes and through `program_rpmb_key` when it answers no.  The choice of
the call follows `is_rpmb_programed()`, not the result of the probe. -/
theorem osloader_rpmb_key_init_hands_probed_key (cfg : Config) (env : Env) (m : Mem)
    (log : List Event)
    (hlog : (osloader_rpmb_key_init cfg env { mem := m, log := [] }).2.log = log)
    (hT : cfg.USE_TRUSTY = true)
    (h1 : 1 ≤ m.p_trusty_boot_params.num_seeds) (h4 : m.p_trusty_boot_params.num_seeds ≤ 4)
    (hrows : m.out_key.length = 4)
    (front : List Probe) (last : Probe) (hp : probes log = front ++ [last])
    (hfront : ∀ p ∈ front, reportsAuthFailure p) (hhit : probeHit last)
    (b : Bool) (hb : ∀ t, env.is_rpmb_programed t = b) :
    front.length < m.p_trusty_boot_params.num_seeds ∧
    (kdfs log)[front.length]? = some (seedSecret env m front.length, some last.1) ∧
    (b = true → handoffs log = [.set_rpmb_key last.1]) ∧
    (b = false → ∃ r, handoffs log = [.program_rpmb_key last.1 r]) := by
  have _ := hfront
  unfold osloader_rpmb_key_init at hlog
  simp only [hT, if_true] at hlog
  by_cases heom : env.is_eom_and_secureboot_enabled
      (St.now { mem := { m with key := List.replicate env.RPMB_KEY_SIZE 0 }, log := [] }) = true
  · simp only [heom, if_true] at hlog
    by_cases herr : EFI_ERROR (env.clear_teedata_flag
        (St.now { mem := { m with key := List.replicate env.RPMB_KEY_SIZE 0 }, log := [] })) = true
    · simp only [herr, if_true] at hlog
      subst hlog
      simp [probes] at hp
    · simp only [herr, Bool.false_eq_true, if_false] at hlog
      exact osloader_rpmb_key_init_keys_handoff_total cfg env _ log hlog rfl rfl rfl h1 h4 hrows
        front last hp hhit b hb
  · simp only [heom, Bool.false_eq_true, if_false] at hlog
    exact osloader_rpmb_key_init_keys_handoff_total cfg env _ log hlog rfl rfl rfl h1 h4 hrows
      front last hp hhit b hb

/-- C11, witness: three seeds, storage keyed to the key of the second seed and
programmed; the second derived key, and no other, is made the active key. -/
theorem osloader_rpmb_key_init_hands_probed_key_witness :
    handoffs (osloader_rpmb_key_init sampleCfg envKeyedSecond (sampleSt 3)).2.log =
      [.set_rpmb_key (sampleKdf (List.replicate 32 2))] :=
  (osloader_rpmb_key_init_hands_probed_key sampleCfg envKeyedSecond (sampleMem 3) _ rfl rfl
    (by decide) (by decide) (by decide)
    [(sampleKdf (List.replicate 32 1), EFI_ABORTED, .RPMB_RES_AUTH_FAILURE)]
    (sampleKdf (List.replicate 32 2), EFI_SUCCESS, .RPMB_RES_OK) (by decide) (by decide)
    (by decide) true (fun _ => rfl)).2.2.1 rfl

/-- C11 as stated fails: one seed, the probe of its key succeeds, and
`is_rpmb_programed()` answers no; the key is handed over through
`program_rpmb_key`, and `set_rpmb_key` is not called. -/
theorem osloader_rpmb_key_init_probe_ok_programs :
    probes (osloader_rpmb_key_init sampleCfg envProbeOkUnprogrammed (sampleSt 1)).2.log =
      [(sampleKdf (List.replicate 32 1), EFI_SUCCESS, .RPMB_RES_OK)] ∧
    handoffs (osloader_rpmb_key_init sampleCfg envProbeOkUnprogrammed (sampleSt 1)).2.log =
      [.program_rpmb_key (sampleKdf (List.replicate 32 1)) EFI_SUCCESS] ∧
    Call.set_rpmb_key (sampleKdf (List.replicate 32 1)) ∉
      callsOf (osloader_rpmb_key_init sampleCfg envProbeOkUnprogrammed (sampleSt 1)).2.log := by
  decide


/-! ## ORANGE and the memory clear -/

/-- C20.  On a production (USER) build, `start_boot_image` given ORANGE calls
`android_clear_memory` before anything else (its own entry is the only log
entry before that call); when the call fails, `start_boot_image` returns that
error having logged nothing more, so the boot-state variable is not written,
the slot is not touched and no chain-load is made; when it does not fail, only
calls of `start_boot_image` follow. -/
theorem start_boot_image_orange_clears_memory_first (cfg : Config) (env : Env)
    (hU : cfg.USER = true) (b : Nat) (tgt : boot_target) (st : St) :
    ∃ rest, (start_boot_image cfg env b .BOOT_STATE_ORANGE tgt st).st.log =
        st.log ++ ({ call := .start_boot_image b .BOOT_STATE_ORANGE tgt, mem := st.mem } ::
          { call := .android_clear_memory (env.android_clear_memory (st.now + 1))
            mem := st.mem } :: rest) ∧
      (∀ e ∈ rest, isStartCall .BOOT_STATE_ORANGE e.call) ∧
      (EFI_ERROR (env.android_clear_memory (st.now + 1)) = true →
        rest = [] ∧
        start_boot_image cfg env b .BOOT_STATE_ORANGE tgt st =
          .ret (env.android_clear_memory (st.now + 1))
            ((st.emit (.start_boot_image b .BOOT_STATE_ORANGE tgt)).emit
              (.android_clear_memory (env.android_clear_memory (st.now + 1))))) := by
  unfold start_boot_image
  simp only [hU, Bool.true_and, decide_True, if_true, emit_now]
  by_cases herr : EFI_ERROR (env.android_clear_memory (st.now + 1)) = true
  · simp only [herr, if_true]
    exact ⟨[], by simp [Run.st], by simp, fun _ => ⟨rfl, trivial⟩⟩
  · simp only [herr, Bool.false_eq_true, if_false]
    obtain ⟨⟨evs, hl, hp⟩, -⟩ := start_boot_image_red_grows cfg env b .BOOT_STATE_ORANGE tgt
      ((st.emit (.start_boot_image b .BOOT_STATE_ORANGE tgt)).emit
        (.android_clear_memory (env.android_clear_memory (st.now + 1))))
    refine ⟨evs, ?_, hp, fun h => False.elim h⟩
    rw [hl]
    simp

/-- C20, witness: the production build, an image that verifies ORANGE, and a
memory clear that fails with EFI_OUT_OF_RESOURCES: the log of `start_boot_image`
is its entry and the failed clear, and the error is returned. -/
theorem start_boot_image_orange_clears_memory_first_witness :
    callsOf (start_boot_image sampleCfg envOrangeClearFails 4096 .BOOT_STATE_ORANGE .NORMAL_BOOT
      (sampleSt 1)).st.log =
      [.start_boot_image 4096 .BOOT_STATE_ORANGE .NORMAL_BOOT,
       .android_clear_memory EFI_OUT_OF_RESOURCES] ∧
    Run.val (start_boot_image sampleCfg envOrangeClearFails 4096 .BOOT_STATE_ORANGE .NORMAL_BOOT
      (sampleSt 1)) = some EFI_OUT_OF_RESOURCES := by
  obtain ⟨rest, hl, -, h⟩ := start_boot_image_orange_clears_memory_first sampleCfg
    envOrangeClearFails rfl 4096 .NORMAL_BOOT (sampleSt 1)
  obtain ⟨hr, hret⟩ := h rfl
  subst hr
  exact ⟨by rw [hl]; rfl, by rw [hret]; rfl⟩


/-! ## Load failure -/

/-- When every load fails and no slot is active from time `T` on, the loop of
`load_boot_image` returns an error, given fuel for the rounds up to `T`. -/
theorem load_boot_image_loop_fails (env : Env) (tgt : boot_target) (T : Nat)
    (hfail : ∀ t label, EFI_ERROR (env.android_image_load_partition t label).1 = true)
    (hslots : ∀ t, T ≤ t → env.slot_get_active t = none) :
    ∀ (fuel : Nat) (st : St), T < st.now + (fuel + 1) →
      ∃ r st', load_boot_image_loop env tgt (fuel + 1) st = .ret r st' ∧ EFI_ERROR r.1 = true := by
  intro fuel
  induction fuel with
  | zero =>
    intro st hT
    unfold load_boot_image_loop
    simp only [hfail, Bool.true_and, emit_now]
    split
    · rw [hslots _ (by simp only [emit_now]; omega)]
      simp only [Option.isSome_none, Bool.false_eq_true, if_false]
      exact ⟨_, _, rfl, hfail _ _⟩
    · rw [hslots _ (by simp only [emit_now]; omega)]
      simp only [Option.isSome_none, Bool.false_eq_true, if_false]
      exact ⟨_, _, rfl, hfail _ _⟩
  | succ n ih =>
    intro st hT
    unfold load_boot_image_loop
    simp only [hfail, Bool.true_and, emit_now]
    split
    · split
      · exact ih _ (by simp only [emit_now]; omega)
      · exact ⟨_, _, rfl, hfail _ _⟩
    · split
      · exact ih _ (by simp only [emit_now]; omega)
      · exact ⟨_, _, rfl, hfail _ _⟩

/-- When every load fails and the slots run out, `load_boot_image` returns an
error. -/
theorem load_boot_image_fails (env : Env) (tgt : boot_target) (T fuel : Nat) (b : Nat) (st : St)
    (hfail : ∀ t label, EFI_ERROR (env.android_image_load_partition t label).1 = true)
    (hslots : ∀ t, T ≤ t → env.slot_get_active t = none) (hfuel : T < fuel) :
    ∃ r st', load_boot_image env fuel tgt b st = .ret r st' ∧ EFI_ERROR r.1 = true := by
  obtain ⟨f, rfl⟩ : ∃ f, fuel = f + 1 := ⟨fuel - 1, by omega⟩
  have hloop := load_boot_image_loop_fails env .NORMAL_BOOT T hfail hslots f
  unfold load_boot_image load_boot_image_normal
  repeat' split
  all_goals
    first
    | exact hloop _ (by omega)
    | exact ⟨_, _, rfl, rfl⟩
    | exact ⟨_, _, rfl, hfail _ _⟩

/-- C12.  In the build without USE_AVB, when every load of a partition fails
and the slot subsystem runs out of active slots (none is active from time `T`
on, and the loop of `load_boot_image` is given fuel beyond `T`), `boot_android`
returns an error for any target, NORMAL_BOOT and RECOVERY in particular; the
calls it made are those of `load_boot_image` alone, so no image was validated
and no chain-load was made; and the loop of `efi_main` sets the next target to
FASTBOOT. -/
theorem load_failure_routes_to_fastboot (cfg : Config) (env : Env) (hA : cfg.USE_AVB = false)
    (T fuel : Nat) (tgt : boot_target) (st : St)
    (hfail : ∀ t label, EFI_ERROR (env.android_image_load_partition t label).1 = true)
    (hslots : ∀ t, T ≤ t → env.slot_get_active t = none) (hfuel : T < fuel) :
    ∃ ret st' evs, boot_android cfg env fuel tgt st = .ret ret st' ∧ EFI_ERROR ret = true ∧
      st'.log = st.log ++ evs ∧
      (∀ e ∈ evs, isLoaderCall e.call) ∧
      (∀ i s l, Call.verify_android_boot_image i s l ∉ callsOf evs) ∧
      (∀ i t s x, Call.android_image_start_buffer_abl i t s x ∉ callsOf evs) ∧
      efi_main_boot cfg env fuel tgt st = .ret .FASTBOOT st' := by
  obtain ⟨r, st', hr, herr⟩ := load_boot_image_fails env tgt T fuel 0 st hfail hslots hfuel
  obtain ⟨evs, hl, hp⟩ := (load_boot_image_grows env fuel tgt 0 st).1
  rw [hr] at hl
  simp only [Run.st] at hl
  have hb : boot_android cfg env fuel tgt st = .ret r.1 st' := by
    unfold boot_android
    rw [hr]
    simp only [herr, if_true]
  have hnot : ∀ c ∈ callsOf evs, isLoaderCall c := by
    intro c hc
    simp only [callsOf, List.mem_map] at hc
    obtain ⟨e, he, rfl⟩ := hc
    exact hp e he
  refine ⟨r.1, st', evs, hb, herr, hl, hp, ?_, ?_, ?_⟩
  · intro i s l hin
    exact hnot _ hin
  · intro i t s x hin
    exact hnot _ hin
  · unfold efi_main_boot
    simp only [hA, Bool.false_eq_true, if_false, hb, efi_main_next, herr, if_true]

/-- C12, witness: every load fails with EFI_NOT_FOUND and no slot is active;
for RECOVERY `boot_android` returns EFI_NOT_FOUND after the one failed load and
the next target is FASTBOOT. -/
theorem load_failure_routes_to_fastboot_witness :
    Run.val (boot_android sampleCfg envLoadFails 1 .RECOVERY (sampleSt 1)) = some EFI_NOT_FOUND ∧
    callsOf (boot_android sampleCfg envLoadFails 1 .RECOVERY (sampleSt 1)).st.log =
      [.android_image_load_partition RECOVERY_LABEL EFI_NOT_FOUND 0] ∧
    Run.val (efi_main_boot sampleCfg envLoadFails 1 .RECOVERY (sampleSt 1)) = some .FASTBOOT := by
  obtain ⟨ret, st', evs, hb, -, -, -, -, -, hm⟩ :=
    load_failure_routes_to_fastboot sampleCfg envLoadFails rfl 0 1 .RECOVERY (sampleSt 1)
      (fun _ _ => rfl) (fun _ _ => rfl) (by decide)
  refine ⟨by decide, by decide, ?_⟩
  rw [hm]
  rfl


/-! ## What the pipeline reports when it returns -/

theorem ReturnsError.of_gone (st : St) : ReturnsError (.gone st) := by
  intro ret st' h
  cases h

theorem ReturnsError.of_stuck (st : St) : ReturnsError (.stuck st) := by
  intro ret st' h
  cases h

theorem ReturnsError.of_ret (ret : EFI_STATUS) (st : St) (h : EFI_ERROR ret = true) :
    ReturnsError (.ret ret st) := by
  intro ret' st' heq
  cases heq
  exact h

theorem boot_android_exit_error (cfg : Config) (ret : EFI_STATUS) (st : St)
    (h : EFI_ERROR ret = true) : ReturnsError (boot_android_exit cfg ret st) :=
  ReturnsError.of_ret _ _ h

theorem boot_android_start_error (cfg : Config) (env : Env) (b : Nat) (s : boot_state)
    (tgt : boot_target) (st : St) : ReturnsError (boot_android_start cfg env b s tgt st) := by
  unfold boot_android_start
  repeat' split
  all_goals
    first
    | exact boot_android_exit_error cfg _ _ (by assumption)
    | exact boot_android_exit_error cfg _ _ rfl
    | exact ReturnsError.of_gone _
    | exact ReturnsError.of_stuck _

theorem boot_android_launch_error (cfg : Config) (env : Env) (b : Nat) (s : boot_state)
    (tgt : boot_target) (st : St) : ReturnsError (boot_android_launch cfg env b s tgt st) := by
  unfold boot_android_launch
  simp only []
  repeat' split
  all_goals
    first
    | exact boot_android_exit_error cfg _ _ (by assumption)
    | exact boot_android_start_error cfg env _ _ _ _

theorem boot_android_init_error (cfg : Config) (env : Env) (b : Nat) (s : boot_state)
    (tgt : boot_target) (load_base sz : Nat) (st : St) :
    ReturnsError (boot_android_init cfg env b s tgt load_base sz st) := by
  unfold boot_android_init
  simp only []
  repeat' split
  all_goals
    first
    | exact boot_android_exit_error cfg _ _ (by assumption)
    | exact boot_android_launch_error cfg env _ _ _ _

theorem boot_android_trusty_error (cfg : Config) (env : Env) (b : Nat) (s : boot_state)
    (tgt : boot_target) (st : St) : ReturnsError (boot_android_trusty cfg env b s tgt st) := by
  unfold boot_android_trusty
  simp only []
  repeat' split
  all_goals
    first
    | exact ReturnsError.of_ret _ _ (by assumption)
    | exact ReturnsError.of_ret _ _ rfl
    | exact boot_android_init_error cfg env _ _ _ _ _ _

/-- Whenever `boot_android` returns, it returns an error. -/
theorem boot_android_error (cfg : Config) (env : Env) (fuel : Nat) (tgt : boot_target)
    (st : St) : ReturnsError (boot_android cfg env fuel tgt st) := by
  unfold boot_android
  repeat' split
  all_goals
    first
    | exact ReturnsError.of_ret _ _ (by assumption)
    | exact boot_android_trusty_error cfg env _ _ _ _
    | exact boot_android_start_error cfg env _ _ _ _
    | exact ReturnsError.of_gone _
    | exact ReturnsError.of_stuck _

/-- C13, the code on both backends.  Whenever `boot_android` returns, it returns
an error (after `start_boot_image` it sets `ret = EFI_INVALID_PARAMETER`), so
the next target is FASTBOOT.  `avb_boot_android` has no such statement: in the
USE_AVB build, with an image that verifies GREEN, a chain-load that comes back
with an error and a `slot_boot_failed` that succeeds, `start_boot_image` returns
the EFI_SUCCESS of `slot_boot_failed`, `avb_boot_android` returns EFI_SUCCESS,
and the loop of `efi_main` keeps the target NORMAL_BOOT. -/
theorem avb_boot_android_failed_chainload_reports_success :
    (∀ (cfg : Config) (env : Env) (fuel : Nat) (tgt : boot_target) (st : St) (ret : EFI_STATUS),
      Run.val (boot_android cfg env fuel tgt st) = some ret → EFI_ERROR ret = true) ∧
    Call.android_image_start_buffer_abl 4096 .NORMAL_BOOT .BOOT_STATE_GREEN (some (.error 1)) ∈
      callsOf (avb_boot_android sampleCfgAvb sampleEnv .NORMAL_BOOT (sampleSt 1)).st.log ∧
    Run.val (avb_boot_android sampleCfgAvb sampleEnv .NORMAL_BOOT (sampleSt 1)) =
      some EFI_SUCCESS ∧
    Run.val (efi_main_boot sampleCfgAvb sampleEnv 1 .NORMAL_BOOT (sampleSt 1)) =
      some .NORMAL_BOOT ∧
    Run.val (efi_main_boot sampleCfg sampleEnv 1 .NORMAL_BOOT (sampleSt 1)) = some .FASTBOOT := by
  refine ⟨?_, by decide, by decide, by decide, by decide⟩
  intro cfg env fuel tgt st ret h
  have := boot_android_error cfg env fuel tgt st
  cases hr : boot_android cfg env fuel tgt st with
  | ret v st' =>
    rw [hr] at h
    simp only [Run.val, Option.some.injEq] at h
    subst h
    exact this v st' hr
  | gone st' => rw [hr] at h; cases h
  | stuck st' => rw [hr] at h; cases h


/-! ## The diagnostic service -/

/-- The loop of `enter_crashmode` when `adb_run` fails in round `k` and every
round before it ran without delivering a target: with fuel for the rounds left
it ends with the status of that `adb_run`; `*target` is as the loop found it
when no round ran before, and UNKNOWN_TARGET otherwise. -/
theorem enter_crashmode_loop_fails (adb : Adb) (k : Nat)
    (hk : EFI_ERROR (adb.adb_run k) = true)
    (hpre : ∀ j, j < k → EFI_ERROR (adb.adb_run j) = false ∧
      adb.adb_get_boot_target j = .UNKNOWN_TARGET) :
    ∀ (d j fuel : Nat) (target : boot_target), j + d = k → d < fuel →
      enter_crashmode_loop adb fuel j target =
        some (adb.adb_run k, if d = 0 then target else .UNKNOWN_TARGET) := by
  intro d
  induction d with
  | zero =>
    intro j fuel target hj hf
    obtain ⟨f, rfl⟩ : ∃ f, fuel = f + 1 := ⟨fuel - 1, by omega⟩
    have : j = k := by omega
    subst this
    simp [enter_crashmode_loop, hk]
  | succ d ih =>
    intro j fuel target hj hf
    obtain ⟨f, rfl⟩ : ∃ f, fuel = f + 1 := ⟨fuel - 1, by omega⟩
    obtain ⟨h1, h2⟩ := hpre j (by omega)
    have := ih (j + 1) f .UNKNOWN_TARGET (by omega) (by omega)
    simp only [enter_crashmode_loop, h1, h2, Bool.false_eq_true, if_false, ne_eq,
      not_true_eq_false, this]
    by_cases hd : d = 0 <;> simp [hd]

/-- The status `enter_crashmode` returns and the target it leaves, by the place
of the failure.  When `adb_init` fails, or `adb_run` fails in its first round,
the target is still CRASHMODE.  When `adb_run` fails in a later round `k` (every
round before it ran and delivered UNKNOWN_TARGET), the target is UNKNOWN_TARGET,
whose arm is the fastboot service.  In each case `enter_crashmode` returns the
failing status, given fuel for the rounds. -/
theorem enter_crashmode_failure_next_arm (cfg : Config) (hC : cfg.CRASHMODE_USE_ADB = true)
    (adb : Adb) (fuel : Nat) :
    efi_main_arm cfg .CRASHMODE = .enter_crashmode ∧
    (EFI_ERROR adb.adb_init = true →
      enter_crashmode adb fuel .CRASHMODE = some (adb.adb_init, .CRASHMODE) ∧
      efi_main_crashmode adb fuel .CRASHMODE = some .CRASHMODE) ∧
    (EFI_ERROR adb.adb_init = false → EFI_ERROR (adb.adb_run 0) = true → 0 < fuel →
      enter_crashmode adb fuel .CRASHMODE = some (adb.adb_run 0, .CRASHMODE) ∧
      efi_main_crashmode adb fuel .CRASHMODE = some .CRASHMODE) ∧
    (∀ k, EFI_ERROR adb.adb_init = false → 0 < k → EFI_ERROR (adb.adb_run k) = true →
      (∀ j, j < k → EFI_ERROR (adb.adb_run j) = false ∧
        adb.adb_get_boot_target j = .UNKNOWN_TARGET) → k < fuel →
      enter_crashmode adb fuel .CRASHMODE = some (adb.adb_run k, .UNKNOWN_TARGET) ∧
      efi_main_crashmode adb fuel .CRASHMODE = some .UNKNOWN_TARGET ∧
      efi_main_arm cfg .UNKNOWN_TARGET = .enter_fastboot_mode) := by
  refine ⟨by simp [efi_main_arm, hC], ?_, ?_, ?_⟩
  · intro h
    simp [efi_main_crashmode, enter_crashmode, h]
  · intro h0 h1 hf
    have := enter_crashmode_loop_fails adb 0 h1 (fun j hj => absurd hj (by omega)) 0 0 fuel
      .CRASHMODE rfl hf
    simp [efi_main_crashmode, enter_crashmode, h0, this]
  · intro k h0 hk h1 hpre hf
    have := enter_crashmode_loop_fails adb k h1 hpre k 0 fuel .CRASHMODE (by omega) hf
    have hk0 : k ≠ 0 := by omega
    simp [efi_main_crashmode, enter_crashmode, h0, this, hk0, efi_main_arm]

/-- An instance: `adb_run` fails in its third round after two rounds without a
target; the next iteration enters the fastboot service. -/
theorem enter_crashmode_failure_next_arm_witness :
    efi_main_crashmode adbRunFailsLater 3 .CRASHMODE = some .UNKNOWN_TARGET ∧
    efi_main_arm sampleCfgAdb .UNKNOWN_TARGET = .enter_fastboot_mode :=
  ((enter_crashmode_failure_next_arm sampleCfgAdb rfl adbRunFailsLater 3).2.2.2 2 rfl
    (by decide) rfl (fun j hj => by
      have : j = 0 ∨ j = 1 := by omega
      rcases this with rfl | rfl <;> exact ⟨rfl, rfl⟩) (by decide)).2

/-- C14, the code against the claim.  In the build with the diagnostic (ADB)
backend the arm for CRASHMODE calls `enter_crashmode` and drops the status it
returns.  When `adb_init` fails, `enter_crashmode` returns that error and leaves
`*target` as it was: the target is still CRASHMODE, the next iteration takes
the arm of the diagnostic service again, and so does every iteration after it,
whatever the number of iterations; the fastboot service is never entered.  The
arm for NORMAL_BOOT does read the status of its pipeline and sets FASTBOOT on
an error, and a failure of `adb_run` in a later round does lead to the fastboot
service, because `adb_get_boot_target` has by then stored UNKNOWN_TARGET. -/
theorem enter_crashmode_init_failure_stays_in_crashmode :
    efi_main_arm sampleCfgAdb .CRASHMODE = .enter_crashmode ∧
    enter_crashmode adbInitFails 1 .CRASHMODE = some (.error 7, .CRASHMODE) ∧
    EFI_ERROR (.error 7) = true ∧
    efi_main_crashmode adbInitFails 1 .CRASHMODE = some .CRASHMODE ∧
    (efi_main_crashmode adbInitFails 1 .CRASHMODE).map (efi_main_arm sampleCfgAdb) =
      some .enter_crashmode ∧
    (∀ (adb : Adb) (fuel n : Nat), EFI_ERROR adb.adb_init = true →
      Nat.iterate (fun t => Option.bind t (efi_main_crashmode adb fuel)) n (some .CRASHMODE) =
        some .CRASHMODE) ∧
    Run.val (efi_main_boot sampleCfg envLoadFails 1 .NORMAL_BOOT (sampleSt 1)) =
      some .FASTBOOT ∧
    efi_main_crashmode adbRunFailsLater 3 .CRASHMODE = some .UNKNOWN_TARGET ∧
    efi_main_arm sampleCfgAdb .UNKNOWN_TARGET = .enter_fastboot_mode := by
  refine ⟨by decide, by decide, by decide, by decide, by decide, ?_, by decide, by decide,
    by decide⟩
  intro adb fuel n h
  induction n with
  | zero => rfl
  | succ n ih =>
    rw [Function.iterate_succ_apply', ih]
    simp [efi_main_crashmode, enter_crashmode, h]


/-! ## TargetResolver: the BCB -/

/-- `strncmpa` against a string without a zero byte, over its whole length: zero
exactly when the buffer starts with that string. -/
theorem strncmpa_eq_zero_iff (p : List Nat) (hp : ∀ c ∈ p, c ≠ 0) :
    ∀ s : List Nat, strncmpa s p p.length = 0 ↔ p <+: s := by
  induction p with
  | nil => intro s; simp [strncmpa]
  | cons a p ih =>
    intro s
    have ha : a ≠ 0 := hp a (by simp)
    have ih' := ih (fun c hc => hp c (by simp [hc]))
    cases s with
    | nil =>
      simp only [List.length_cons, strncmpa, List.headD_nil, ne_eq, not_true_eq_false, false_and,
        if_false, List.headD_cons]
      constructor
      · intro h
        have : (a : Int) = 0 := by omega
        exact absurd (by exact_mod_cast this) ha
      · intro h
        simp at h
    | cons b s =>
      simp only [List.length_cons, strncmpa, List.headD_cons, List.tail_cons]
      by_cases hb : b ≠ 0 ∧ b = a
      · rw [if_pos hb]
        obtain ⟨-, rfl⟩ := hb
        rw [ih' s]
        simp [List.cons_prefix_cons]
      · rw [if_neg hb]
        have hne : b ≠ a := by
          intro h
          subst h
          exact hb ⟨ha, rfl⟩
        constructor
        · intro h
          have : (b : Int) = a := by omega
          exact absurd (by exact_mod_cast this) hne
        · intro h
          rw [List.cons_prefix_cons] at h
          exact absurd h.1.symm hne

theorem ascii_boot_dash : ascii "boot-" = [98, 111, 111, 116, 45] := by decide

theorem ascii_bootonce_dash : ascii "bootonce-" = [98, 111, 111, 116, 111, 110, 99, 101, 45] := by
  decide

theorem strncmpa_boot (s : List Nat) : strncmpa s (ascii "boot-") 5 = 0 ↔ ascii "boot-" <+: s := by
  have := strncmpa_eq_zero_iff (ascii "boot-") (by decide) s
  rw [ascii_boot_dash] at this ⊢
  exact this

theorem strncmpa_bootonce (s : List Nat) :
    strncmpa s (ascii "bootonce-") 9 = 0 ↔ ascii "bootonce-" <+: s := by
  have := strncmpa_eq_zero_iff (ascii "bootonce-") (by decide) s
  rw [ascii_bootonce_dash] at this ⊢
  exact this

theorem bootonce_not_boot (s : List Nat) (h : ascii "bootonce-" <+: s) : ¬ ascii "boot-" <+: s := by
  rw [ascii_bootonce_dash] at h
  rw [ascii_boot_dash]
  obtain ⟨t, rfl⟩ := h
  intro h2
  obtain ⟨u, hu⟩ := h2
  simp at hu

/-- A command whose first byte is zero starts with neither prefix. -/
theorem cleared_command_no_prefix (cmd : List Nat) :
    ¬ ascii "boot-" <+: cmd.set 0 0 ∧ ¬ ascii "bootonce-" <+: cmd.set 0 0 := by
  rw [ascii_boot_dash, ascii_bootonce_dash]
  cases cmd with
  | nil => simp
  | cons a t => simp [List.cons_prefix_cons]

/-- What `check_bcb` does, by the case of the command. -/
theorem check_bcb_cases (lib : Lib) (ret : EFI_STATUS) (bcb : bootloader_message)
    (hret : EFI_ERROR ret = false) :
    (ascii "boot-" <+: bcb.command →
      check_bcb lib (ret, bcb) =
        { t := match lib.stra_to_str (cstr (bcb.command.drop 5)) with
            | none => .NORMAL_BOOT
            | some name =>
              if lib.name_to_boot_target name ≠ .UNKNOWN_TARGET then lib.name_to_boot_target name
              else .NORMAL_BOOT
          oneshot := false
          write_bcb := if bcb.status.headD 0 ≠ 0 then
            some { bcb with status := bcb.status.set 0 0 } else none }) ∧
    (ascii "bootonce-" <+: bcb.command →
      check_bcb lib (ret, bcb) =
        { t := match lib.stra_to_str (cstr (bcb.command.drop 9)) with
            | none => .NORMAL_BOOT
            | some name =>
              if lib.name_to_boot_target name ≠ .UNKNOWN_TARGET then lib.name_to_boot_target name
              else .NORMAL_BOOT
          oneshot := true
          write_bcb := some { command := bcb.command.set 0 0, status := bcb.status.set 0 0 } }) ∧
    (¬ ascii "boot-" <+: bcb.command → ¬ ascii "bootonce-" <+: bcb.command →
      check_bcb lib (ret, bcb) =
        { t := .NORMAL_BOOT, oneshot := false
          write_bcb := if bcb.status.headD 0 ≠ 0 then
            some { bcb with status := bcb.status.set 0 0 } else none }) := by
  refine ⟨?_, ?_, ?_⟩
  · intro h
    have h1 := (strncmpa_boot bcb.command).mpr h
    unfold check_bcb
    simp only [hret, Bool.false_eq_true, if_false, h1, if_true]
    cases lib.stra_to_str (cstr (bcb.command.drop 5)) with
    | none => simp
    | some name => by_cases hn : lib.name_to_boot_target name = .UNKNOWN_TARGET <;> simp [hn]
  · intro h
    have h1 : ¬ strncmpa bcb.command (ascii "boot-") 5 = 0 :=
      fun h0 => bootonce_not_boot _ h ((strncmpa_boot bcb.command).mp h0)
    have h2 := (strncmpa_bootonce bcb.command).mpr h
    unfold check_bcb
    simp only [hret, Bool.false_eq_true, if_false, h1, h2, if_true]
    cases lib.stra_to_str (cstr (bcb.command.drop 9)) with
    | none => simp
    | some name => by_cases hn : lib.name_to_boot_target name = .UNKNOWN_TARGET <;> simp [hn]
  · intro hb ho
    have h1 : ¬ strncmpa bcb.command (ascii "boot-") 5 = 0 :=
      fun h0 => hb ((strncmpa_boot bcb.command).mp h0)
    have h2 : ¬ strncmpa bcb.command (ascii "bootonce-") 9 = 0 :=
      fun h0 => ho ((strncmpa_bootonce bcb.command).mp h0)
    unfold check_bcb
    simp only [hret, Bool.false_eq_true, if_false, h1, h2]
    simp


/-- `check_bcb` never returns UNKNOWN_TARGET. -/
theorem check_bcb_known (lib : Lib) (read_bcb : EFI_STATUS × bootloader_message) :
    (check_bcb lib read_bcb).t ≠ .UNKNOWN_TARGET := by
  obtain ⟨ret, bcb⟩ := read_bcb
  by_cases hret : EFI_ERROR ret = true
  · simp [check_bcb, hret]
  · obtain ⟨c1, c2, c3⟩ := check_bcb_cases lib ret bcb (by simpa using hret)
    by_cases hb : ascii "boot-" <+: bcb.command
    · rw [c1 hb]
      simp only
      cases lib.stra_to_str (cstr (bcb.command.drop 5)) with
      | none => simp
      | some name =>
        by_cases hn : lib.name_to_boot_target name = .UNKNOWN_TARGET <;> simp [hn]
    · by_cases ho : ascii "bootonce-" <+: bcb.command
      · rw [c2 ho]
        simp only
        cases lib.stra_to_str (cstr (bcb.command.drop 9)) with
        | none => simp
        | some name =>
          by_cases hn : lib.name_to_boot_target name = .UNKNOWN_TARGET <;> simp [hn]
      · rw [c3 hb ho]
        simp

/-- C15.  In a build without __FORCE_FASTBOOT (the only one that calls
`check_bcb`), once `slot_init` has succeeded, the first target `efi_main`
chooses is RECOVERY when `check_bcb` returns RECOVERY, and is the target
`check_command_line` returned otherwise, whatever else `check_bcb` returns. -/
theorem efi_main_target_bcb_recovery_only (cfg : Config) (lib : Lib)
    (argv : Option (List (List Nat))) (g : Statics) (slot_init : EFI_STATUS)
    (read_bcb : EFI_STATUS × bootloader_message) (hF : cfg.FORCE_FASTBOOT = false)
    (hs : EFI_ERROR slot_init = false) :
    efi_main_target cfg lib argv g slot_init read_bcb =
      some (if (check_bcb lib read_bcb).t = .RECOVERY then .RECOVERY
        else (check_command_line cfg lib argv (MAX_CMD_BUF - 1) g).target) := by
  unfold efi_main_target
  simp only [hs, hF, Bool.false_eq_true, if_false]
  by_cases h : (check_bcb lib read_bcb).t = .RECOVERY <;> simp [h]

/-- C16.  For a record whose command is `bootonce-` followed by a name that
`name_to_boot_target` knows as `T`, `check_bcb` returns `T` with `*oneshot`
set and hands `write_bcb` a record whose command is the empty string and
whose status byte is zero; on that record, whatever `read_bcb` answers,
`check_bcb` returns NORMAL_BOOT with `*oneshot` clear and does not call
`write_bcb`. -/
theorem check_bcb_bootonce_one_shot (lib : Lib) (ret : EFI_STATUS) (bcb : bootloader_message)
    (name : List Nat) (T : boot_target) (hret : EFI_ERROR ret = false)
    (hcmd : ascii "bootonce-" <+: bcb.command)
    (hname : lib.stra_to_str (cstr (bcb.command.drop 9)) = some name)
    (hT : lib.name_to_boot_target name = T) (hknown : T ≠ .UNKNOWN_TARGET) :
    (check_bcb lib (ret, bcb)).t = T ∧ (check_bcb lib (ret, bcb)).oneshot = true ∧
    ∃ stored, (check_bcb lib (ret, bcb)).write_bcb = some stored ∧
      cstr stored.command = [] ∧ stored.status.headD 0 = 0 ∧
      ∀ ret2, check_bcb lib (ret2, stored) =
        { t := .NORMAL_BOOT, oneshot := false, write_bcb := none } := by
  rw [(check_bcb_cases lib ret bcb hret).2.1 hcmd]
  simp only [hname, hT, ne_eq, hknown, not_false_eq_true, if_true, true_and]
  refine ⟨_, rfl, ?_, ?_, ?_⟩
  · cases bcb.command <;> simp [cstr]
  · cases bcb.status <;> simp
  · intro ret2
    by_cases h2 : EFI_ERROR ret2 = true
    · simp [check_bcb, h2]
    · obtain ⟨hb, ho⟩ := cleared_command_no_prefix bcb.command
      rw [(check_bcb_cases lib ret2 _ (by simpa using h2)).2.2 hb ho]
      have : (bcb.status.set 0 0).headD 0 = 0 := by cases bcb.status <;> simp
      simp only [this, ne_eq, not_true_eq_false, if_false]

/-- C16, witness: the record `bootonce-recovery` resolves to RECOVERY once, and
the record it leaves resolves to NORMAL_BOOT. -/
theorem check_bcb_bootonce_one_shot_witness :
    (check_bcb sampleLib (EFI_SUCCESS, bcbBootonceRecovery)).t = .RECOVERY ∧
    (check_bcb sampleLib (EFI_SUCCESS, bcbBootonceRecovery)).oneshot = true ∧
    ∃ stored, (check_bcb sampleLib (EFI_SUCCESS, bcbBootonceRecovery)).write_bcb = some stored ∧
      cstr stored.command = [] ∧ stored.status.headD 0 = 0 ∧
      ∀ ret2, check_bcb sampleLib (ret2, stored) =
        { t := .NORMAL_BOOT, oneshot := false, write_bcb := none } :=
  check_bcb_bootonce_one_shot sampleLib EFI_SUCCESS bcbBootonceRecovery (ascii "recovery")
    .RECOVERY rfl (by decide) (by decide) (by decide) (by decide)

/-- C17.  `check_bcb` never returns UNKNOWN_TARGET.  It returns NORMAL_BOOT when
`read_bcb` fails, when the command starts with neither `boot-` nor
`bootonce-`, and when the name after the prefix is no boot target that
`name_to_boot_target` knows (or cannot be converted); and then, in a build
without __FORCE_FASTBOOT and once `slot_init` has succeeded, the first target
of `efi_main` is the one `check_command_line` returned. -/
theorem check_bcb_degrades_to_normal_boot (lib : Lib)
    (read_bcb : EFI_STATUS × bootloader_message) :
    (check_bcb lib read_bcb).t ≠ .UNKNOWN_TARGET ∧
    ((EFI_ERROR read_bcb.1 = true ∨
      (¬ ascii "boot-" <+: read_bcb.2.command ∧ ¬ ascii "bootonce-" <+: read_bcb.2.command) ∨
      (ascii "boot-" <+: read_bcb.2.command ∧
        ∀ name, lib.stra_to_str (cstr (read_bcb.2.command.drop 5)) = some name →
          lib.name_to_boot_target name = .UNKNOWN_TARGET) ∨
      (ascii "bootonce-" <+: read_bcb.2.command ∧
        ∀ name, lib.stra_to_str (cstr (read_bcb.2.command.drop 9)) = some name →
          lib.name_to_boot_target name = .UNKNOWN_TARGET)) →
      (check_bcb lib read_bcb).t = .NORMAL_BOOT ∧
      ∀ (cfg : Config) (argv : Option (List (List Nat))) (g : Statics) (slot_init : EFI_STATUS),
        cfg.FORCE_FASTBOOT = false → EFI_ERROR slot_init = false →
        efi_main_target cfg lib argv g slot_init read_bcb =
          some (check_command_line cfg lib argv (MAX_CMD_BUF - 1) g).target) := by
  refine ⟨check_bcb_known lib read_bcb, fun hbad => ?_⟩
  have ht : (check_bcb lib read_bcb).t = .NORMAL_BOOT := by
    obtain ⟨ret, bcb⟩ := read_bcb
    by_cases hret : EFI_ERROR ret = true
    · simp [check_bcb, hret]
    · have hret' : EFI_ERROR ret = false := by simpa using hret
      obtain ⟨c1, c2, c3⟩ := check_bcb_cases lib ret bcb hret'
      rcases hbad with h | ⟨hb, ho⟩ | ⟨hb, hn⟩ | ⟨ho, hn⟩
      · exact absurd h hret
      · rw [c3 hb ho]
      · rw [c1 hb]
        simp only at hn ⊢
        cases hx : lib.stra_to_str (cstr (bcb.command.drop 5)) with
        | none => rfl
        | some name => simp [hn name hx]
      · rw [c2 ho]
        simp only at hn ⊢
        cases hx : lib.stra_to_str (cstr (bcb.command.drop 9)) with
        | none => rfl
        | some name => simp [hn name hx]
  refine ⟨ht, fun cfg argv g slot_init hF hs => ?_⟩
  unfold efi_main_target
  simp [hs, hF, ht]

/-- C17, witness: a record with the command `boot-nowhere`, a name the library
does not know, resolves to NORMAL_BOOT. -/
theorem check_bcb_degrades_to_normal_boot_witness :
    (check_bcb sampleLib
      (EFI_SUCCESS, { command := sampleField "boot-nowhere", status := sampleField "" })).t =
      .NORMAL_BOOT :=
  ((check_bcb_degrades_to_normal_boot sampleLib
    (EFI_SUCCESS, { command := sampleField "boot-nowhere", status := sampleField "" })).2
    (Or.inr (Or.inr (Or.inl ⟨by decide, fun name h => by
      have hn : name = ascii "nowhere" := by
        have h' : some (ascii "nowhere") = some name := h
        exact (Option.some.inj h').symm
      subst hn
      decide⟩)))).1


/-- C15, witness: the command line says NORMAL_BOOT; a BCB that names recovery
makes the first target RECOVERY, a BCB that names fastboot leaves it
NORMAL_BOOT. -/
theorem efi_main_target_bcb_recovery_only_witness :
    efi_main_target sampleCfg sampleLib (some [ascii "ABL.boot=0"]) sampleStatics EFI_SUCCESS
      (EFI_SUCCESS, bcbBootonceRecovery) = some .RECOVERY ∧
    efi_main_target sampleCfg sampleLib (some [ascii "ABL.boot=0"]) sampleStatics EFI_SUCCESS
      (EFI_SUCCESS, { command := sampleField "boot-fastboot", status := sampleField "" }) =
      some .NORMAL_BOOT :=
  ⟨(efi_main_target_bcb_recovery_only sampleCfg sampleLib (some [ascii "ABL.boot=0"])
      sampleStatics EFI_SUCCESS (EFI_SUCCESS, bcbBootonceRecovery) rfl rfl).trans (by decide),
   (efi_main_target_bcb_recovery_only sampleCfg sampleLib (some [ascii "ABL.boot=0"])
      sampleStatics EFI_SUCCESS
      (EFI_SUCCESS, { command := sampleField "boot-fastboot", status := sampleField "" })
      rfl rfl).trans (by decide)⟩


/-! ## TargetResolver: the command line -/

theorem crashmodeToken_eq : crashmodeToken =
    [65, 66, 76, 46, 98, 111, 111, 116, 95, 116, 97, 114, 103, 101, 116, 61,
      67, 82, 65, 83, 72, 77, 79, 68, 69] := by
  decide

theorem boot_target_str_eq : boot_target_str =
    [65, 66, 76, 46, 98, 111, 111, 116, 95, 116, 97, 114, 103, 101, 116, 61] := by
  decide

theorem ascii_CRASHMODE : ascii "CRASHMODE" = [67, 82, 65, 83, 72, 77, 79, 68, 69] := by
  decide

/-- The loop of `check_command_line` is left by `break` only with the target
CRASHMODE. -/
theorem check_command_line_arg_break (cfg : Config) (lib : Lib) (max_cmd_size : Nat)
    (s : CmdLine) (arg : List Nat)
    (h : (check_command_line_arg cfg lib max_cmd_size s arg).2 = true) :
    (check_command_line_arg cfg lib max_cmd_size s arg).1.target = .CRASHMODE := by
  revert h
  unfold check_command_line_arg check_command_line_parse
  simp only []
  repeat' split
  all_goals
    first
    | (intro h; cases h; done)
    | (intro _; rfl)

/-- The body of the loop on the token `ABL.boot_target=CRASHMODE`, when the
forwarded buffer has room for it: the target is CRASHMODE and the loop is
left. -/
theorem check_command_line_arg_override (cfg : Config) (lib : Lib) (max_cmd_size : Nat)
    (s : CmdLine)
    (hconv : ∀ dst, ∃ rest, lib.str_to_stra dst crashmodeToken 26 = crashmodeToken ++ 0 :: rest)
    (hroom : s.cmd_len + 25 + 1 < max_cmd_size) :
    (check_command_line_arg cfg lib max_cmd_size s crashmodeToken).2 = true ∧
    (check_command_line_arg cfg lib max_cmd_size s crashmodeToken).1.target = .CRASHMODE := by
  obtain ⟨rest, hr⟩ := hconv s.arg8
  have hlen : (cstr crashmodeToken).length = 25 := by decide
  have h1 : strncmp (crashmodeToken ++ 0 :: rest) boot_target_str boot_target_str.length = 0 := by
    rw [crashmodeToken_eq, boot_target_str_eq]
    simp [strncmp]
  have h2 : strcmp ((crashmodeToken ++ 0 :: rest).drop boot_target_str.length)
      (ascii "CRASHMODE") = 0 := by
    rw [crashmodeToken_eq, boot_target_str_eq, ascii_CRASHMODE]
    simp [strcmp]
  have h3 : 25 > boot_target_str.length := by decide
  have h4 : (check_command_line_space
      { s with arg8 := crashmodeToken ++ 0 :: rest }).arg8 = crashmodeToken ++ 0 :: rest := by
    unfold check_command_line_space
    split <;> rfl
  unfold check_command_line_arg check_command_line_parse
  simp only [hlen, show ¬ (25 > 256 - 2) by decide, if_false, hr, hroom, if_true, h4, h1, h2, h3,
    and_self]


/-- The loop on a list of tokens that holds the override token with room for
it: the tokens after the override do not matter and the target is CRASHMODE. -/
theorem check_command_line_loop_override (cfg : Config) (lib : Lib) (max_cmd_size : Nat)
    (post : List (List Nat))
    (hconv : ∀ dst, ∃ rest, lib.str_to_stra dst crashmodeToken 26 = crashmodeToken ++ 0 :: rest) :
    ∀ (pre : List (List Nat)) (s : CmdLine),
      (check_command_line_loop cfg lib max_cmd_size s pre).cmd_len + 25 + 1 < max_cmd_size →
      check_command_line_loop cfg lib max_cmd_size s (pre ++ crashmodeToken :: post) =
        check_command_line_loop cfg lib max_cmd_size s (pre ++ [crashmodeToken]) ∧
      (check_command_line_loop cfg lib max_cmd_size s (pre ++ crashmodeToken :: post)).target =
        .CRASHMODE := by
  intro pre
  induction pre with
  | nil =>
    intro s hroom
    simp only [check_command_line_loop] at hroom
    obtain ⟨hb, ht⟩ := check_command_line_arg_override cfg lib max_cmd_size s hconv hroom
    simp only [List.nil_append, check_command_line_loop]
    generalize check_command_line_arg cfg lib max_cmd_size s crashmodeToken = r at hb ht
    obtain ⟨s1, brk⟩ := r
    simp only at hb ht
    subst hb
    exact ⟨rfl, ht⟩
  | cons a pre ih =>
    intro s hroom
    have hbrk := check_command_line_arg_break cfg lib max_cmd_size s a
    simp only [List.cons_append, check_command_line_loop] at hroom ⊢
    generalize check_command_line_arg cfg lib max_cmd_size s a = r at hbrk hroom
    obtain ⟨s1, brk⟩ := r
    cases brk with
    | true => exact ⟨rfl, hbrk rfl⟩
    | false => exact ih s1 hroom

/-- C18, as amended.  When the token `ABL.boot_target=CRASHMODE` stands in the
command line where the forwarded buffer still has room for it (the tokens
before it leave `cmd_len + 25 + 1 < max_cmd_size`) and the library converts it
to the same characters, `check_command_line` returns CRASHMODE whatever tokens
stand before or after it, and the tokens after it are not examined: the
function leaves the same state as on the command line cut after the override.
A token that finds no room is skipped, the override like any other. -/
theorem check_command_line_crashmode_override (cfg : Config) (lib : Lib)
    (pre post : List (List Nat)) (max_cmd_size : Nat) (g : Statics)
    (hconv : ∀ dst, ∃ rest, lib.str_to_stra dst crashmodeToken 26 = crashmodeToken ++ 0 :: rest)
    (hroom : (check_command_line cfg lib (some pre) max_cmd_size g).cmd_len + 25 + 1 <
      max_cmd_size) :
    (check_command_line cfg lib (some (pre ++ crashmodeToken :: post)) max_cmd_size g).target =
      .CRASHMODE ∧
    check_command_line cfg lib (some (pre ++ crashmodeToken :: post)) max_cmd_size g =
      check_command_line cfg lib (some (pre ++ [crashmodeToken])) max_cmd_size g := by
  have hne : ∀ l : List (List Nat), ¬ (cfg.KERNELFLINGER_BUILD_FOR_SLIMBOOT = true ∧
      (pre ++ crashmodeToken :: l).length ≤ 0) := by
    intro l h
    have := h.2
    simp at this
  by_cases hpre : cfg.KERNELFLINGER_BUILD_FOR_SLIMBOOT = true ∧ pre.length ≤ 0
  · have hnil : pre = [] := by
      have := hpre.2
      cases pre with
      | nil => rfl
      | cons a t => simp at this
    subst hnil
    have hroom' : (0 : Nat) + 25 + 1 < max_cmd_size := by
      unfold check_command_line at hroom
      simp only [] at hroom
      rw [if_pos hpre] at hroom
      exact hroom
    have h := check_command_line_loop_override cfg lib max_cmd_size post hconv []
      { target := .FASTBOOT, cmd_len := 0, arg8 := List.replicate 256 0
        cmd_buf := fun j => if j = 0 then 0 else g.cmd_buf j, bootMode := g.bootMode
        p_trusty_boot_params := g.p_trusty_boot_params, set_abl_secure_boot := [] } hroom'
    unfold check_command_line
    simp only []
    rw [if_neg (hne post), if_neg (hne [])]
    exact ⟨h.2, h.1⟩
  · unfold check_command_line at hroom ⊢
    simp only [hpre, if_false] at hroom
    simp only [hne post, hne [], if_false]
    have h := check_command_line_loop_override cfg lib max_cmd_size post hconv pre _ hroom
    exact ⟨h.2, h.1⟩


/-- C18, witness: the override between a boot-mode word and another token. -/
theorem check_command_line_crashmode_override_witness :
    (check_command_line sampleCfg sampleLib
      (some ([ascii "ABL.boot=0"] ++ crashmodeToken :: [ascii "ABL.boot=1"]))
      (MAX_CMD_BUF - 1) sampleStatics).target = .CRASHMODE :=
  (check_command_line_crashmode_override sampleCfg sampleLib [ascii "ABL.boot=0"]
    [ascii "ABL.boot=1"] (MAX_CMD_BUF - 1) sampleStatics (fun _ => ⟨[], rfl⟩)
    (by decide)).1

set_option maxRecDepth 1000000 in
/-- C18 as stated fails: with the buffer size `efi_main` passes, sixteen tokens
of 254 characters leave no room for a seventeenth token, the token
`ABL.boot_target=CRASHMODE` is skipped, and `check_command_line` returns
FASTBOOT. -/
theorem check_command_line_crashmode_override_skipped :
    crashmodeToken ∈ argvLongThenCrashmode ∧
    (check_command_line sampleCfg sampleLib (some argvLongThenCrashmode) (MAX_CMD_BUF - 1)
      sampleStatics).target = .FASTBOOT := by
  decide


theorem check_command_line_space_agree (s s' : CmdLine) (h : s.agree s') :
    (check_command_line_space s).agree (check_command_line_space s') := by
  obtain ⟨ht, hl, ha, hb⟩ := h
  unfold check_command_line_space
  rw [hb]
  split
  · exact ⟨ht, by simp only [hl], ha, by simp only [strncpy, hl, hb]⟩
  · exact ⟨ht, hl, ha, hb⟩

theorem check_command_line_append_agree (s s' : CmdLine) (arglen : Nat) (h : s.agree s') :
    (check_command_line_append s arglen).agree (check_command_line_append s' arglen) := by
  obtain ⟨ht, hl, ha, hb⟩ := h
  exact ⟨ht, by simp only [check_command_line_append, hl], ha,
    by simp only [check_command_line_append, strncpy, hl, ha, hb]⟩

theorem check_command_line_parse_agree (cfg : Config) (lib : Lib) (s s' : CmdLine) (arglen : Nat)
    (h : s.agree s') :
    (check_command_line_parse cfg lib s arglen).2 = (check_command_line_parse cfg lib s' arglen).2 ∧
    (check_command_line_parse cfg lib s arglen).1.agree
      (check_command_line_parse cfg lib s' arglen).1 := by
  obtain ⟨t, l, a, b, m, p, q⟩ := s
  obtain ⟨t', l', a', b', m', p', q'⟩ := s'
  obtain ⟨ht, hl, ha, hb⟩ := h
  simp only at ht hl ha hb
  subst ht hl ha
  unfold check_command_line_parse
  simp only []
  by_cases c1 : arglen > boot_target_str.length ∧
      strncmp a boot_target_str boot_target_str.length = 0
  · rw [if_pos c1, if_pos c1]
    by_cases c2 : strcmp (a.drop boot_target_str.length) (ascii "CRASHMODE") = 0
    · rw [if_pos c2, if_pos c2]
      exact ⟨rfl, rfl, rfl, rfl, hb⟩
    · rw [if_neg c2, if_neg c2]
      exact ⟨rfl, rfl, rfl, rfl, hb⟩
  · rw [if_neg c1, if_neg c1]
    by_cases c3 : arglen > bootmode_info_str.length ∧
        strncmp a bootmode_info_str bootmode_info_str.length = 0
    · rw [if_pos c3, if_pos c3]
      exact ⟨rfl, check_command_line_append_agree _ _ _ ⟨rfl, rfl, rfl, hb⟩⟩
    · rw [if_neg c3, if_neg c3]
      by_cases c4 : cfg.USE_TRUSTY = true ∧ arglen > LENGTH_TRUSTY_PARAM_STRING ∧
          strncmp a TRUSTY_PARAM_STRING LENGTH_TRUSTY_PARAM_STRING = 0
      · rw [if_pos c4, if_pos c4]
        exact ⟨rfl, rfl, rfl, rfl, hb⟩
      · rw [if_neg c4, if_neg c4]
        by_cases c5 : arglen > secureboot_str.length ∧
            strncmp a secureboot_str secureboot_str.length = 0
        · rw [if_pos c5, if_pos c5]
          exact ⟨rfl, check_command_line_append_agree _ _ _ ⟨rfl, rfl, rfl, hb⟩⟩
        · rw [if_neg c5, if_neg c5]
          exact ⟨rfl, check_command_line_append_agree _ _ _ ⟨rfl, rfl, rfl, hb⟩⟩

/-- What the loop of `check_command_line` reads of its state: the locals and
the first byte of `cmd_buf`. -/
theorem check_command_line_arg_reads (cfg : Config) (lib : Lib) (max_cmd_size : Nat)
    (s s' : CmdLine) (arg : List Nat) (h : s.agree s') :
    (check_command_line_arg cfg lib max_cmd_size s arg).2 =
      (check_command_line_arg cfg lib max_cmd_size s' arg).2 ∧
    (check_command_line_arg cfg lib max_cmd_size s arg).1.agree
      (check_command_line_arg cfg lib max_cmd_size s' arg).1 := by
  obtain ⟨t, l, a, b, m, p, q⟩ := s
  obtain ⟨t', l', a', b', m', p', q'⟩ := s'
  obtain ⟨ht, hl, ha, hb⟩ := h
  simp only at ht hl ha hb
  subst ht hl ha
  unfold check_command_line_arg
  simp only []
  generalize (if (cstr arg).length > 256 - 2 then 256 - 2 else (cstr arg).length) = arglen
  by_cases hroom : l + arglen + 1 < max_cmd_size
  · rw [if_pos hroom, if_pos hroom]
    exact check_command_line_parse_agree cfg lib _ _ _
      (check_command_line_space_agree _ _ ⟨rfl, rfl, rfl, hb⟩)
  · rw [if_neg hroom, if_neg hroom]
    exact ⟨rfl, rfl, rfl, rfl, hb⟩

/-- The target the loop leaves depends on the state it starts from only through
what it reads of it. -/
theorem check_command_line_loop_reads (cfg : Config) (lib : Lib) (max_cmd_size : Nat) :
    ∀ (argv : List (List Nat)) (s s' : CmdLine), s.agree s' →
      (check_command_line_loop cfg lib max_cmd_size s argv).target =
        (check_command_line_loop cfg lib max_cmd_size s' argv).target := by
  intro argv
  induction argv with
  | nil => intro s s' h; exact h.1
  | cons a argv ih =>
    intro s s' h
    obtain ⟨h1, h2⟩ := check_command_line_arg_reads cfg lib max_cmd_size s s' a h
    simp only [check_command_line_loop]
    generalize check_command_line_arg cfg lib max_cmd_size s a = r at h1 h2
    generalize check_command_line_arg cfg lib max_cmd_size s' a = r' at h1 h2
    obtain ⟨s1, brk⟩ := r
    obtain ⟨s1', brk'⟩ := r'
    simp only at h1 h2
    subst h1
    cases brk with
    | true => exact h2.1
    | false => exact ih s1 s1' h2

/-- C19.  The target `check_command_line` returns does not depend on the statics
it starts from (`cmd_buf`, the `bootMode` word, the pointer
`p_trusty_boot_params`): for the same arguments and buffer size it is the same
from any two sets of statics, and so a second run, started from the statics the
first run left, returns the target the first run returned. -/
theorem check_command_line_idempotent (cfg : Config) (lib : Lib)
    (argv : Option (List (List Nat))) (max_cmd_size : Nat) (g : Statics) :
    (∀ g' : Statics, (check_command_line cfg lib argv max_cmd_size g').target =
      (check_command_line cfg lib argv max_cmd_size g).target) ∧
    (check_command_line cfg lib argv max_cmd_size
      (check_command_line cfg lib argv max_cmd_size g).statics).target =
      (check_command_line cfg lib argv max_cmd_size g).target := by
  have key : ∀ g' : Statics, (check_command_line cfg lib argv max_cmd_size g').target =
      (check_command_line cfg lib argv max_cmd_size g).target := by
    intro g'
    unfold check_command_line
    cases argv with
    | none => rfl
    | some argv =>
      simp only []
      split
      · rfl
      · exact check_command_line_loop_reads cfg lib max_cmd_size argv _ _ ⟨rfl, rfl, rfl, rfl⟩
  exact ⟨key, key _⟩

/-! ## SlotFailoverLoader: the result of an exhausted search -/

theorem loadStatuses_append (a b : List Call) :
    loadStatuses (a ++ b) = loadStatuses a ++ loadStatuses b := by
  induction a with
  | nil => rfl
  | cons c a ih => cases c <;> simp [loadStatuses, ih]

theorem marksFailed_append (a b : List Call) :
    marksFailed (a ++ b) = marksFailed a + marksFailed b := by
  induction a with
  | nil => simp [marksFailed]
  | cons c a ih => cases c <;> simp [marksFailed, ih, Nat.add_right_comm]

theorem failedLoads_append (a b : List Call) :
    failedLoads (a ++ b) = failedLoads a + failedLoads b := by
  simp [failedLoads, loadStatuses_append]

theorem getLast?_cons_of_some {α : Type} (a : α) (l : List α) (x : α)
    (h : l.getLast? = some x) : (a :: l).getLast? = some x := by
  cases l with
  | nil => simp at h
  | cons b l => simpa [List.getLast?_cons_cons] using h

/-- When the loop of `load_boot_image` returns, its result is the status of the
last load it attempted; when that is an error, every load it attempted failed
and no slot is active any more. -/
theorem load_boot_image_loop_last (env : Env) (tgt : boot_target) :
    ∀ (fuel : Nat) (st : St) (r : EFI_STATUS × Nat) (st' : St),
      load_boot_image_loop env tgt fuel st = .ret r st' →
      ∃ evs, st'.log = st.log ++ evs ∧
        (loadStatuses (callsOf evs)).getLast? = some r.1 ∧
        (EFI_ERROR r.1 = true →
          (∀ s ∈ loadStatuses (callsOf evs), EFI_ERROR s = true) ∧
          env.slot_get_active st'.now = none) := by
  intro fuel
  induction fuel with
  | zero =>
    intro st r st' h
    simp [load_boot_image_loop] at h
  | succ n ih =>
    intro st r st' h
    unfold load_boot_image_loop at h
    simp only [] at h
    split at h <;> split at h
    · rename_i hu hc
      obtain ⟨evs, hl, hlast, hall⟩ := ih _ r st' h
      simp only [Bool.and_eq_true] at hc
      refine ⟨_, by rw [hl, emit_log, emit_log, List.append_assoc, List.append_assoc], ?_, ?_⟩
      · simp only [callsOf_append, callsOf_cons, callsOf_nil, List.cons_append, List.nil_append, loadStatuses]
        exact getLast?_cons_of_some _ _ _ hlast
      · intro he
        obtain ⟨h1, h2⟩ := hall he
        refine ⟨?_, h2⟩
        intro s hs
        simp only [callsOf_append, callsOf_cons, callsOf_nil, List.cons_append, List.nil_append, loadStatuses, List.mem_cons] at hs
        rcases hs with rfl | hs
        · exact hc.1
        · exact h1 s hs
    · rename_i hu hc
      injection h with hr hst
      subst hr
      subst hst
      refine ⟨_, by rw [emit_log, emit_log, List.append_assoc], by simp [loadStatuses], ?_⟩
      intro he
      simp only [] at he
      refine ⟨by simpa [loadStatuses] using he, ?_⟩
      simpa [he] using hc
    · rename_i hu hc
      obtain ⟨evs, hl, hlast, hall⟩ := ih _ r st' h
      simp only [Bool.and_eq_true] at hc
      refine ⟨_, by rw [hl, emit_log, List.append_assoc], ?_, ?_⟩
      · simp only [callsOf_append, callsOf_cons, callsOf_nil, List.cons_append, List.nil_append, loadStatuses]
        exact getLast?_cons_of_some _ _ _ hlast
      · intro he
        obtain ⟨h1, h2⟩ := hall he
        refine ⟨?_, h2⟩
        intro s hs
        simp only [callsOf_append, callsOf_cons, callsOf_nil, List.cons_append, List.nil_append, loadStatuses, List.mem_cons] at hs
        rcases hs with rfl | hs
        · exact hc.1
        · exact h1 s hs
    · rename_i hu hc
      injection h with hr hst
      subst hr
      subst hst
      refine ⟨_, by rw [emit_log], by simp [loadStatuses], ?_⟩
      intro he
      simp only [] at he
      refine ⟨by simpa [loadStatuses] using he, ?_⟩
      simpa [he] using hc


/-- C21, as amended.  `load_boot_image` returns EFI_NOT_FOUND without attempting
a load in two cases: for NORMAL_BOOT when multi-slot mode is on and no slot is
active at entry, and for RECOVERY, with a distinct recovery partition in
multi-slot mode, when the recovery-tries-remaining counter is zero.  In every
other case of NORMAL_BOOT it attempts at least one load and, whenever it
returns, returns the status of the last load it attempted: when that is an
error, every load it attempted failed and no slot is active any more, and the
result is EFI_NOT_FOUND exactly when that last load reported EFI_NOT_FOUND.
When every load fails and the slots run out it does return, with an error.  In
every other case of RECOVERY with a distinct recovery partition it attempts one
load of the recovery partition and returns its status; with recovery folded
into the boot partition it does what it does for NORMAL_BOOT. -/
theorem load_boot_image_exhaustion (env : Env) (fuel : Nat) (b : Nat) (st : St) :
    (env.use_slot st.now = true → env.slot_get_active st.now = none →
      load_boot_image env fuel .NORMAL_BOOT b st = .ret (EFI_NOT_FOUND, b) st) ∧
    (¬ (env.use_slot st.now = true ∧ env.slot_get_active st.now = none) →
      ∀ r st', load_boot_image env fuel .NORMAL_BOOT b st = .ret r st' →
        ∃ evs, st'.log = st.log ++ evs ∧
          (loadStatuses (callsOf evs)).getLast? = some r.1 ∧
          (r.1 = EFI_NOT_FOUND ↔
            (loadStatuses (callsOf evs)).getLast? = some EFI_NOT_FOUND) ∧
          (EFI_ERROR r.1 = true →
            (∀ s ∈ loadStatuses (callsOf evs), EFI_ERROR s = true) ∧
            env.slot_get_active st'.now = none)) ∧
    (∀ T, (∀ t label, EFI_ERROR (env.android_image_load_partition t label).1 = true) →
      (∀ t, T ≤ t → env.slot_get_active t = none) → T < fuel →
      ∃ r st', load_boot_image env fuel .NORMAL_BOOT b st = .ret r st' ∧
        EFI_ERROR r.1 = true) ∧
    (env.recovery_in_boot_partition st.now = false → env.use_slot st.now = true →
      env.slot_recovery_tries_remaining st.now = 0 →
      load_boot_image env fuel .RECOVERY b st = .ret (EFI_NOT_FOUND, b) st) ∧
    (env.recovery_in_boot_partition st.now = false →
      ¬ (env.use_slot st.now = true ∧ env.slot_recovery_tries_remaining st.now = 0) →
      load_boot_image env fuel .RECOVERY b st =
        .ret (env.android_image_load_partition st.now RECOVERY_LABEL)
          (st.emit (.android_image_load_partition RECOVERY_LABEL
            (env.android_image_load_partition st.now RECOVERY_LABEL).1
            (env.android_image_load_partition st.now RECOVERY_LABEL).2))) ∧
    (env.recovery_in_boot_partition st.now = true →
      load_boot_image env fuel .RECOVERY b st =
        load_boot_image env fuel .NORMAL_BOOT b st) := by
  refine ⟨?_, ?_, ?_, ?_, ?_, ?_⟩
  · intro hu ha
    simp [load_boot_image, load_boot_image_normal, hu, ha]
  · intro hn r st' h
    have hc : (env.use_slot st.now && (env.slot_get_active st.now).isNone) = false := by
      cases hu : env.use_slot st.now
      · rfl
      · cases ha : env.slot_get_active st.now
        · exact absurd ⟨hu, ha⟩ hn
        · rfl
    simp only [load_boot_image, load_boot_image_normal, hc] at h
    obtain ⟨evs, h1, h2, h3⟩ := load_boot_image_loop_last env .NORMAL_BOOT fuel st r st' h
    refine ⟨evs, h1, h2, ?_, h3⟩
    rw [h2]
    exact ⟨fun h => by rw [h], fun h => Option.some.inj h⟩
  · intro T hfail hslots hfuel
    exact load_boot_image_fails env .NORMAL_BOOT T fuel b st hfail hslots hfuel
  · intro hr hu ht
    simp [load_boot_image, hr, hu, ht]
  · intro hr hn
    have hc : (env.use_slot st.now && decide (env.slot_recovery_tries_remaining st.now = 0))
        = false := by
      cases hu : env.use_slot st.now
      · rfl
      · by_cases ht : env.slot_recovery_tries_remaining st.now = 0
        · exact absurd ⟨hu, ht⟩ hn
        · simp [ht]
    simp [load_boot_image, hr, hc]
  · intro hr
    simp [load_boot_image, hr]

/-- C21, witness: no slot at entry; two slots that both fail to load; a recovery
with no tries left; a recovery whose one load reports EFI_NOT_FOUND. -/
theorem load_boot_image_exhaustion_witness :
    load_boot_image envNoSlotLeft 3 .NORMAL_BOOT 0 (sampleSt 0)
      = .ret (EFI_NOT_FOUND, 0) (sampleSt 0) ∧
    (∀ r st', load_boot_image envSlotsExhaust 5 .NORMAL_BOOT 0 (sampleSt 0) = .ret r st' →
      ∃ evs, st'.log = (sampleSt 0).log ++ evs ∧
        (loadStatuses (callsOf evs)).getLast? = some r.1 ∧
        (r.1 = EFI_NOT_FOUND ↔
          (loadStatuses (callsOf evs)).getLast? = some EFI_NOT_FOUND) ∧
        (EFI_ERROR r.1 = true →
          (∀ s ∈ loadStatuses (callsOf evs), EFI_ERROR s = true) ∧
          envSlotsExhaust.slot_get_active st'.now = none)) ∧
    (∃ r st', load_boot_image envSlotsExhaust 5 .NORMAL_BOOT 0 (sampleSt 0) = .ret r st' ∧
      EFI_ERROR r.1 = true) ∧
    load_boot_image envRecoveryNoTries 3 .RECOVERY 0 (sampleSt 0)
      = .ret (EFI_NOT_FOUND, 0) (sampleSt 0) ∧
    load_boot_image envLoadFails 3 .RECOVERY 0 (sampleSt 0)
      = .ret (EFI_NOT_FOUND, 0)
          ((sampleSt 0).emit (.android_image_load_partition RECOVERY_LABEL EFI_NOT_FOUND 0)) :=
  ⟨(load_boot_image_exhaustion envNoSlotLeft 3 0 (sampleSt 0)).1 rfl rfl,
   (load_boot_image_exhaustion envSlotsExhaust 5 0 (sampleSt 0)).2.1 (by decide),
   (load_boot_image_exhaustion envSlotsExhaust 5 0 (sampleSt 0)).2.2.1 4
     (fun _ _ => rfl) (fun t ht => if_neg (by omega)) (by decide),
   (load_boot_image_exhaustion envRecoveryNoTries 3 0 (sampleSt 0)).2.2.2.1 rfl rfl rfl,
   (load_boot_image_exhaustion envLoadFails 3 0 (sampleSt 0)).2.2.2.2.1 rfl (by decide)⟩

/-- C21 as stated fails: with two slots whose loads both fail with
EFI_DEVICE_ERROR, `load_boot_image(NORMAL_BOOT)` tries both, marks both failed,
finds no slot left, and returns EFI_DEVICE_ERROR, not EFI_NOT_FOUND. -/
theorem load_boot_image_exhausted_returns_load_error :
    (load_boot_image envSlotsExhaust 5 .NORMAL_BOOT 0 (sampleSt 0)).val
      = some (.error 7, 0) ∧
    loadStatuses (callsOf (load_boot_image envSlotsExhaust 5 .NORMAL_BOOT 0 (sampleSt 0)).st.log)
      = [.error 7, .error 7] ∧
    marksFailed (callsOf (load_boot_image envSlotsExhaust 5 .NORMAL_BOOT 0 (sampleSt 0)).st.log)
      = 2 ∧
    envSlotsExhaust.slot_get_active
      (load_boot_image envSlotsExhaust 5 .NORMAL_BOOT 0 (sampleSt 0)).st.now = none ∧
    EFI_STATUS.error 7 ≠ EFI_NOT_FOUND := by
  decide

/-! ## SlotFailoverLoader: marking the failed slots -/

theorem marksFollowLoads_failed (tgt : boot_target) (l : List Nat) (r : EFI_STATUS) (i : Nat)
    (x : EFI_STATUS) (cs : List Call) (h : EFI_ERROR r = true) :
    marksFollowLoads tgt (.android_image_load_partition l r i :: .slot_boot_failed tgt x :: cs)
      = marksFollowLoads tgt cs := by
  simp [marksFollowLoads, h]

theorem marksFollowLoads_loaded (tgt : boot_target) (l : List Nat) (r : EFI_STATUS) (i : Nat)
    (h : EFI_ERROR r = false) :
    marksFollowLoads tgt [.android_image_load_partition l r i] = true := by
  simp [marksFollowLoads, h]

theorem failedLoads_failed (l : List Nat) (r : EFI_STATUS) (i : Nat) (x : EFI_STATUS)
    (tgt : boot_target) (cs : List Call) (h : EFI_ERROR r = true) :
    failedLoads (.android_image_load_partition l r i :: .slot_boot_failed tgt x :: cs)
      = failedLoads cs + 1 := by
  simp [failedLoads, loadStatuses, h]

theorem failedLoads_loaded (l : List Nat) (r : EFI_STATUS) (i : Nat)
    (h : EFI_ERROR r = false) :
    failedLoads [.android_image_load_partition l r i] = 0 := by
  simp [failedLoads, loadStatuses, h]

/-- In multi-slot mode the calls of the loop pair every failed load with the
`slot_boot_failed` that follows it. -/
theorem load_boot_image_loop_marks (env : Env) (tgt : boot_target)
    (hslot : ∀ t, env.use_slot t = true) :
    ∀ (fuel : Nat) (st : St),
      ∃ evs, (load_boot_image_loop env tgt fuel st).st.log = st.log ++ evs ∧
        marksFollowLoads tgt (callsOf evs) = true ∧
        marksFailed (callsOf evs) = failedLoads (callsOf evs) := by
  intro fuel
  induction fuel with
  | zero =>
    intro st
    exact ⟨[], by simp [load_boot_image_loop, Run.st], rfl, rfl⟩
  | succ n ih =>
    intro st
    unfold load_boot_image_loop
    simp only [hslot, Bool.and_true, emit_now]
    generalize env.slot_label st.now BOOT_LABEL = lab
    generalize env.android_image_load_partition st.now lab = r
    generalize env.slot_boot_failed (st.now + 1) tgt = x
    cases he : EFI_ERROR r.1
    · simp only [Bool.false_and, Bool.false_eq_true, if_false, Run.st]
      exact ⟨[⟨.android_image_load_partition lab r.1 r.2, st.mem⟩], rfl,
        marksFollowLoads_loaded tgt lab r.1 r.2 he,
        (failedLoads_loaded lab r.1 r.2 he).symm⟩
    · simp only [Bool.true_and, if_true]
      split
      · obtain ⟨evs, hl, hm, hc⟩ := ih
          ((st.emit (.android_image_load_partition lab r.1 r.2)).emit (.slot_boot_failed tgt x))
        refine ⟨⟨.android_image_load_partition lab r.1 r.2, st.mem⟩ ::
          ⟨.slot_boot_failed tgt x, st.mem⟩ :: evs, ?_, ?_, ?_⟩
        · rw [hl, emit_log, emit_log, List.append_assoc, List.append_assoc]
          rfl
        · rw [callsOf_cons, callsOf_cons, marksFollowLoads_failed tgt lab r.1 r.2 x _ he]
          exact hm
        · rw [callsOf_cons, callsOf_cons, failedLoads_failed lab r.1 r.2 x tgt _ he, ← hc]
          rfl
      · simp only [Run.st]
        refine ⟨[⟨.android_image_load_partition lab r.1 r.2, st.mem⟩,
          ⟨.slot_boot_failed tgt x, st.mem⟩], ?_, ?_, ?_⟩
        · rw [emit_log, emit_log, List.append_assoc]
          rfl
        · exact marksFollowLoads_failed tgt lab r.1 r.2 x [] he
        · exact (failedLoads_failed lab r.1 r.2 x tgt [] he).symm

/-- With multi-slot mode disabled the loop marks no slot failed. -/
theorem load_boot_image_loop_no_marks (env : Env) (tgt : boot_target)
    (hslot : ∀ t, env.use_slot t = false) :
    ∀ (fuel : Nat) (st : St),
      ∃ evs, (load_boot_image_loop env tgt fuel st).st.log = st.log ++ evs ∧
        marksFailed (callsOf evs) = 0 := by
  intro fuel
  induction fuel with
  | zero =>
    intro st
    exact ⟨[], by simp [load_boot_image_loop, Run.st], rfl⟩
  | succ n ih =>
    intro st
    unfold load_boot_image_loop
    simp only [hslot, Bool.and_false, Bool.false_eq_true, if_false]
    generalize env.slot_label st.now BOOT_LABEL = lab
    generalize env.android_image_load_partition st.now lab = r
    split
    · obtain ⟨evs, hl, hm⟩ := ih (st.emit (.android_image_load_partition lab r.1 r.2))
      refine ⟨⟨.android_image_load_partition lab r.1 r.2, st.mem⟩ :: evs, ?_, ?_⟩
      · rw [hl, emit_log, List.append_assoc]
        rfl
      · rw [callsOf_cons]
        exact hm
    · exact ⟨[⟨.android_image_load_partition lab r.1 r.2, st.mem⟩], rfl, rfl⟩

/-- With multi-slot mode disabled, and so no active slot, the loop makes one load
attempt and returns. -/
theorem load_boot_image_loop_single (env : Env) (tgt : boot_target)
    (hslot : ∀ t, env.use_slot t = false) (hact : ∀ t, env.slot_get_active t = none)
    (fuel : Nat) (st : St) :
    ∃ r st', load_boot_image_loop env tgt (fuel + 1) st = .ret r st' ∧
      ∃ e, st'.log = st.log ++ [e] ∧ (loadStatuses (callsOf [e])).length = 1 := by
  unfold load_boot_image_loop
  simp only [hslot, hact, Bool.and_false, Bool.false_eq_true, if_false, Option.isSome_none]
  exact ⟨_, _, rfl, _, rfl, rfl⟩

/-- C22.  The calls `load_boot_image(NORMAL_BOOT)` adds to the log, on every run,
finished or not: in multi-slot mode every failed partition load is directly
followed by exactly one `slot_boot_failed(NORMAL_BOOT)`, before any further
load, and no `slot_boot_failed` follows a load that succeeded, so the number of
`slot_boot_failed` calls equals the number of failed loads; with multi-slot mode
disabled there is no `slot_boot_failed` call, and, there being no active slot
then, exactly one load attempt, after which the function returns. -/
theorem load_boot_image_marks_each_failed_load (env : Env) (fuel b : Nat) (st : St) :
    ∃ evs, (load_boot_image env fuel .NORMAL_BOOT b st).st.log = st.log ++ evs ∧
      ((∀ t, env.use_slot t = true) →
        marksFollowLoads .NORMAL_BOOT (callsOf evs) = true ∧
        marksFailed (callsOf evs) = failedLoads (callsOf evs)) ∧
      ((∀ t, env.use_slot t = false) →
        marksFailed (callsOf evs) = 0 ∧
        ((∀ t, env.slot_get_active t = none) → 0 < fuel →
          (loadStatuses (callsOf evs)).length = 1 ∧
          ∃ r st', load_boot_image env fuel .NORMAL_BOOT b st = .ret r st')) := by
  cases hc : (env.use_slot st.now && (env.slot_get_active st.now).isNone)
  · simp only [load_boot_image, load_boot_image_normal, hc, Bool.false_eq_true, if_false]
    obtain ⟨evs, hl, -⟩ := (load_boot_image_loop_grows env .NORMAL_BOOT fuel st).1
    refine ⟨evs, hl, ?_, ?_⟩
    · intro hslot
      obtain ⟨evs', hl', hm, hn⟩ := load_boot_image_loop_marks env .NORMAL_BOOT hslot fuel st
      have he : evs' = evs := List.append_cancel_left (hl'.symm.trans hl)
      subst he
      exact ⟨hm, hn⟩
    · intro hslot
      refine ⟨?_, ?_⟩
      · obtain ⟨evs', hl', hm⟩ := load_boot_image_loop_no_marks env .NORMAL_BOOT hslot fuel st
        have he : evs' = evs := List.append_cancel_left (hl'.symm.trans hl)
        subst he
        exact hm
      · intro hact hfuel
        obtain ⟨f, rfl⟩ : ∃ f, fuel = f + 1 := ⟨fuel - 1, by omega⟩
        obtain ⟨r, st', hr, e, hl', hs⟩ :=
          load_boot_image_loop_single env .NORMAL_BOOT hslot hact f st
        rw [hr] at hl
        have he : [e] = evs := List.append_cancel_left (hl'.symm.trans hl)
        subst he
        exact ⟨hs, r, st', hr⟩
  · simp only [load_boot_image, load_boot_image_normal, hc, if_true]
    refine ⟨[], by simp [Run.st], fun _ => ⟨rfl, rfl⟩, ?_⟩
    intro hslot
    rw [hslot] at hc
    simp at hc

/-- C22, witness: in multi-slot mode two slots fail in turn and each is marked
failed once; with multi-slot mode disabled one failing load is attempted and
nothing is marked. -/
theorem load_boot_image_marks_each_failed_load_witness :
    (∃ evs, (load_boot_image envSlotsExhaust 5 .NORMAL_BOOT 0 (sampleSt 0)).st.log
        = (sampleSt 0).log ++ evs ∧
      marksFollowLoads .NORMAL_BOOT (callsOf evs) = true ∧
      marksFailed (callsOf evs) = failedLoads (callsOf evs)) ∧
    (∃ evs, (load_boot_image envLoadFails 5 .NORMAL_BOOT 0 (sampleSt 0)).st.log
        = (sampleSt 0).log ++ evs ∧
      marksFailed (callsOf evs) = 0 ∧
      (loadStatuses (callsOf evs)).length = 1 ∧
      ∃ r st', load_boot_image envLoadFails 5 .NORMAL_BOOT 0 (sampleSt 0) = .ret r st') := by
  refine ⟨?_, ?_⟩
  · obtain ⟨evs, hl, h1, -⟩ :=
      load_boot_image_marks_each_failed_load envSlotsExhaust 5 0 (sampleSt 0)
    exact ⟨evs, hl, h1 (fun _ => rfl)⟩
  · obtain ⟨evs, hl, -, h2⟩ :=
      load_boot_image_marks_each_failed_load envLoadFails 5 0 (sampleSt 0)
    exact ⟨evs, hl, (h2 (fun _ => rfl)).1,
      (h2 (fun _ => rfl)).2 (fun _ => rfl) (by decide)⟩

/-! ## TargetResolver: the bound on the forwarded command line -/

theorem check_command_line_space_bound (s : CmdLine) :
    (check_command_line_space s).target = s.target ∧
    (check_command_line_space s).arg8 = s.arg8 ∧
    s.cmd_len ≤ (check_command_line_space s).cmd_len ∧
    (check_command_line_space s).cmd_len ≤ s.cmd_len + 1 ∧
    ∀ j, (check_command_line_space s).cmd_len ≤ j →
      (check_command_line_space s).cmd_buf j = s.cmd_buf j := by
  unfold check_command_line_space
  split
  · refine ⟨rfl, rfl, Nat.le_succ _, Nat.le_refl _, ?_⟩
    intro j hj
    simp only [strncpy]
    rw [if_neg]
    simp only at hj
    omega
  · exact ⟨rfl, rfl, Nat.le_refl _, Nat.le_succ _, fun _ _ => rfl⟩

theorem check_command_line_append_bound (s : CmdLine) (arglen : Nat) :
    (check_command_line_append s arglen).target = s.target ∧
    (check_command_line_append s arglen).cmd_len = s.cmd_len + arglen ∧
    ∀ j, (check_command_line_append s arglen).cmd_len ≤ j →
      (check_command_line_append s arglen).cmd_buf j = s.cmd_buf j := by
  unfold check_command_line_append
  refine ⟨rfl, rfl, ?_⟩
  intro j hj
  simp only [strncpy]
  rw [if_neg]
  simp only at hj
  omega

theorem check_command_line_parse_bound (cfg : Config) (lib : Lib) (s : CmdLine) (arglen : Nat) :
    s.cmd_len ≤ (check_command_line_parse cfg lib s arglen).1.cmd_len ∧
    (check_command_line_parse cfg lib s arglen).1.cmd_len ≤ s.cmd_len + arglen ∧
    ∀ j, (check_command_line_parse cfg lib s arglen).1.cmd_len ≤ j →
      (check_command_line_parse cfg lib s arglen).1.cmd_buf j = s.cmd_buf j := by
  unfold check_command_line_parse
  simp only []
  repeat' split
  all_goals
    first
    | exact ⟨Nat.le_refl _, Nat.le_add_right _ _, fun _ _ => rfl⟩
    | exact ⟨Nat.le_add_right _ _, Nat.le_refl _,
        (check_command_line_append_bound _ arglen).2.2⟩

/-- The body of the loop keeps `cmd_len` below `max_cmd_size`, never lowers it,
and writes no byte of the buffer at or beyond the new `cmd_len`. -/
theorem check_command_line_arg_bound (cfg : Config) (lib : Lib) (max_cmd_size : Nat)
    (s : CmdLine) (arg : List Nat) (h : s.cmd_len < max_cmd_size) :
    (check_command_line_arg cfg lib max_cmd_size s arg).1.cmd_len < max_cmd_size ∧
    s.cmd_len ≤ (check_command_line_arg cfg lib max_cmd_size s arg).1.cmd_len ∧
    ∀ j, (check_command_line_arg cfg lib max_cmd_size s arg).1.cmd_len ≤ j →
      (check_command_line_arg cfg lib max_cmd_size s arg).1.cmd_buf j = s.cmd_buf j := by
  unfold check_command_line_arg
  simp only []
  generalize (if (cstr arg).length > 256 - 2 then 256 - 2 else (cstr arg).length) = arglen
  split
  · rename_i hroom
    generalize hs1 : ({ s with arg8 := lib.str_to_stra s.arg8 arg (arglen + 1) } : CmdLine) = s1
    have e1 : s1.cmd_len = s.cmd_len := by rw [← hs1]
    have e2 : s1.cmd_buf = s.cmd_buf := by rw [← hs1]
    obtain ⟨-, -, a1, a2, a3⟩ := check_command_line_space_bound s1
    obtain ⟨b1, b2, b3⟩ := check_command_line_parse_bound cfg lib (check_command_line_space s1)
      arglen
    refine ⟨by omega, by omega, ?_⟩
    intro j hj
    rw [b3 j hj, a3 j (by omega), e2]
  · exact ⟨h, Nat.le_refl _, fun _ _ => rfl⟩

/-- The loop keeps `cmd_len` below `max_cmd_size` and writes no byte of the
buffer at or beyond the final `cmd_len`. -/
theorem check_command_line_loop_bound (cfg : Config) (lib : Lib) (max_cmd_size : Nat) :
    ∀ (argv : List (List Nat)) (s : CmdLine), s.cmd_len < max_cmd_size →
      (check_command_line_loop cfg lib max_cmd_size s argv).cmd_len < max_cmd_size ∧
      s.cmd_len ≤ (check_command_line_loop cfg lib max_cmd_size s argv).cmd_len ∧
      ∀ j, (check_command_line_loop cfg lib max_cmd_size s argv).cmd_len ≤ j →
        (check_command_line_loop cfg lib max_cmd_size s argv).cmd_buf j = s.cmd_buf j := by
  intro argv
  induction argv with
  | nil =>
    intro s h
    exact ⟨h, Nat.le_refl _, fun _ _ => rfl⟩
  | cons a argv ih =>
    intro s h
    obtain ⟨c1, c2, c3⟩ := check_command_line_arg_bound cfg lib max_cmd_size s a h
    simp only [check_command_line_loop]
    generalize check_command_line_arg cfg lib max_cmd_size s a = r at c1 c2 c3
    obtain ⟨s1, brk⟩ := r
    cases brk with
    | true => exact ⟨c1, c2, c3⟩
    | false =>
      obtain ⟨d1, d2, d3⟩ := ih s1 c1
      simp only at c1 c2 c3 ⊢
      refine ⟨d1, by omega, ?_⟩
      intro j hj
      rw [d3 j hj, c3 j (by omega)]

/-- A token that finds no room is skipped: nothing but the scratch buffer `arg8`
changes, and the loop goes on to the next token. -/
theorem check_command_line_arg_skip (cfg : Config) (lib : Lib) (max_cmd_size : Nat)
    (s : CmdLine) (arg : List Nat)
    (h : ¬ s.cmd_len + min (cstr arg).length 254 + 1 < max_cmd_size) :
    check_command_line_arg cfg lib max_cmd_size s arg =
      ({ s with arg8 := lib.str_to_stra s.arg8 arg (min (cstr arg).length 254 + 1) }, false) := by
  have hmin : (if (cstr arg).length > 256 - 2 then 256 - 2 else (cstr arg).length)
      = min (cstr arg).length 254 := by
    split <;> omega
  unfold check_command_line_arg
  simp only [hmin]
  rw [if_neg h]

/-- C24.  For every token sequence and every capacity `max_cmd_size` of at least
one, `cmd_len`, the count of bytes `check_command_line` has written into the
forwarded buffer, is below `max_cmd_size` when it returns, and the loop has
written no byte at or beyond `cmd_len` (the first byte it resets to zero
apart).  The body of the loop keeps that bound after every token: from a state
with `cmd_len < max_cmd_size` it leaves `cmd_len < max_cmd_size`, never lowers
it, and writes nothing at or beyond the new `cmd_len`.  A token that finds no
room (`cmd_len + arglen + 1 < max_cmd_size` fails, `arglen` being its length cut
to 254) is skipped: the target, `cmd_len`, the buffer and the other statics keep
their values, the loop is not left, and it goes on with the next token. -/
theorem check_command_line_forward_bounded (cfg : Config) (lib : Lib)
    (argv : List (List Nat)) (max_cmd_size : Nat) (g : Statics) (hmax : 1 ≤ max_cmd_size) :
    (check_command_line cfg lib (some argv) max_cmd_size g).cmd_len < max_cmd_size ∧
    (¬ (cfg.KERNELFLINGER_BUILD_FOR_SLIMBOOT = true ∧ argv.length ≤ 0) →
      ∀ j, (check_command_line cfg lib (some argv) max_cmd_size g).cmd_len ≤ j →
        (check_command_line cfg lib (some argv) max_cmd_size g).cmd_buf j
          = if j = 0 then 0 else g.cmd_buf j) ∧
    (∀ (s : CmdLine) (arg : List Nat), s.cmd_len < max_cmd_size →
      (check_command_line_arg cfg lib max_cmd_size s arg).1.cmd_len < max_cmd_size ∧
      s.cmd_len ≤ (check_command_line_arg cfg lib max_cmd_size s arg).1.cmd_len ∧
      ∀ j, (check_command_line_arg cfg lib max_cmd_size s arg).1.cmd_len ≤ j →
        (check_command_line_arg cfg lib max_cmd_size s arg).1.cmd_buf j = s.cmd_buf j) ∧
    (∀ (s : CmdLine) (arg : List Nat) (rest : List (List Nat)),
      ¬ s.cmd_len + min (cstr arg).length 254 + 1 < max_cmd_size →
      check_command_line_arg cfg lib max_cmd_size s arg =
        ({ s with arg8 := lib.str_to_stra s.arg8 arg (min (cstr arg).length 254 + 1) },
          false) ∧
      check_command_line_loop cfg lib max_cmd_size s (arg :: rest) =
        check_command_line_loop cfg lib max_cmd_size
          { s with arg8 := lib.str_to_stra s.arg8 arg (min (cstr arg).length 254 + 1) }
          rest) := by
  refine ⟨?_, ?_, ?_, ?_⟩
  · unfold check_command_line
    simp only []
    split
    · exact hmax
    · exact (check_command_line_loop_bound cfg lib max_cmd_size argv _
        (show (0 : Nat) < max_cmd_size from hmax)).1
  · intro hn
    unfold check_command_line
    simp only []
    rw [if_neg hn]
    exact (check_command_line_loop_bound cfg lib max_cmd_size argv _
      (show (0 : Nat) < max_cmd_size from hmax)).2.2
  · intro s arg h
    exact check_command_line_arg_bound cfg lib max_cmd_size s arg h
  · intro s arg rest h
    have hs := check_command_line_arg_skip cfg lib max_cmd_size s arg h
    refine ⟨hs, ?_⟩
    simp only [check_command_line_loop, hs]

set_option maxRecDepth 1000000 in
/-- C24, witness: with the capacity `efi_main` passes, sixteen tokens of 254
characters and a seventeenth that finds no room leave `cmd_len` below the
capacity, and the seventeenth token leaves the state after the sixteen as it
was, the scratch buffer apart. -/
theorem check_command_line_forward_bounded_witness :
    (check_command_line sampleCfg sampleLib (some argvLongThenCrashmode) (MAX_CMD_BUF - 1)
      sampleStatics).cmd_len < MAX_CMD_BUF - 1 ∧
    (check_command_line sampleCfg sampleLib (some argvLongThenCrashmode) (MAX_CMD_BUF - 1)
      sampleStatics).cmd_len =
    (check_command_line sampleCfg sampleLib (some (argvLongThenCrashmode.take 16))
      (MAX_CMD_BUF - 1) sampleStatics).cmd_len :=
  ⟨(check_command_line_forward_bounded sampleCfg sampleLib argvLongThenCrashmode
    (MAX_CMD_BUF - 1) sampleStatics (by decide)).1, by decide⟩


/-! ## TargetResolver: the boot-mode word -/

/-- C25, as amended.  After a successful `init_trusty_startup_params` the block's
`load_base` is the supplied base modulo 2^32 and its `load_size` the supplied
size modulo 2^32 (both fields are `uint32_t`, the arguments are `UINTN`), so
they equal the supplied values when those are below 2^32; `num_seeds` equals
`num`, and `size_of_this_struct` is the size of the block. -/
theorem init_trusty_startup_params_scalars (env : Env) (now : Nat)
    (param : Option trusty_startup_params_t) (base sz num : Nat)
    (seed_list : Option (List seed_info_t))
    (h : (init_trusty_startup_params env now param base sz num seed_list).1 = EFI_SUCCESS) :
    ∃ p p', param = some p ∧
      (init_trusty_startup_params env now param base sz num seed_list).2.1 = some p' ∧
      p'.load_base = base % 2 ^ 32 ∧ p'.load_size = sz % 2 ^ 32 ∧
      (base < 2 ^ 32 → p'.load_base = base) ∧ (sz < 2 ^ 32 → p'.load_size = sz) ∧
      p'.num_seeds = num ∧
      p'.size_of_this_struct = sizeof_trusty_startup_params p'.RotData.length ∧
      p'.RotData.length = p.RotData.length := by
  unfold init_trusty_startup_params at h ⊢
  cases param with
  | none => simp [EFI_INVALID_PARAMETER, EFI_SUCCESS] at h
  | some p =>
    cases seed_list with
    | none => simp [EFI_INVALID_PARAMETER, EFI_SUCCESS] at h
    | some sl =>
      simp only at h ⊢
      by_cases hnum : num > BOOTLOADER_SEED_MAX_ENTRIES ∨ num = 0
      · simp [hnum, EFI_INVALID_PARAMETER, EFI_SUCCESS] at h
      · simp only [hnum, if_false] at h ⊢
        cases hs : env.get_serial_number now with
        | none => simp [hs, EFI_NOT_FOUND, EFI_SUCCESS] at h
        | some serialno =>
          simp only []
          refine ⟨p, _, rfl, rfl, rfl, rfl, ?_, ?_, rfl, ?_, ?_⟩
          · intro hb
            exact Nat.mod_eq_of_lt hb
          · intro hb
            exact Nat.mod_eq_of_lt hb
          · simp [zeroBytes]
          · simp [zeroBytes]

/-- C25, witness: a base and a size below 2^32 are stored as they are. -/
theorem init_trusty_startup_params_scalars_witness :
    ∃ p p', some sampleBlock = some p ∧
      (init_trusty_startup_params sampleEnv 0 (some sampleBlock) 8192 100 2
        (some sampleSeeds)).2.1 = some p' ∧
      p'.load_base = 8192 % 2 ^ 32 ∧ p'.load_size = 100 % 2 ^ 32 ∧
      (8192 < 2 ^ 32 → p'.load_base = 8192) ∧ (100 < 2 ^ 32 → p'.load_size = 100) ∧
      p'.num_seeds = 2 ∧
      p'.size_of_this_struct = sizeof_trusty_startup_params p'.RotData.length ∧
      p'.RotData.length = p.RotData.length :=
  init_trusty_startup_params_scalars sampleEnv 0 (some sampleBlock) 8192 100 2
    (some sampleSeeds) (by decide)

/-- C25 as stated fails: a load base of 2^32 + 8192, a value a 64-bit `UINTN`
holds, is stored as 8192. -/
theorem init_trusty_startup_params_base_truncated :
    (init_trusty_startup_params sampleEnv 0 (some sampleBlock) (2 ^ 32 + 8192) 100 2
      (some sampleSeeds)).1 = EFI_SUCCESS ∧
    ((init_trusty_startup_params sampleEnv 0 (some sampleBlock) (2 ^ 32 + 8192) 100 2
      (some sampleSeeds)).2.1.map (fun p => p.load_base)) = some 8192 ∧
    (8192 : Nat) ≠ 2 ^ 32 + 8192 ∧ 2 ^ 32 + 8192 < 2 ^ 64 := by
  decide

end Kf4abl
